import Mathlib

/-!
# QueueEventLink: the slot-reservation ring of `mutua::events`

Shallow embedding of `src/cpp/QueueEventLink.h`.

* Every public operation of the link runs its whole body between
  `queueGuard.lock()` and `queueGuard.unlock()`; an operation is therefore one
  atomic transition of the link state, and `queueGuard` itself (free before and
  after every transition) is not a field of the state.
* `_QueueSlotsType` is the 8-bit unsigned type: the arrays `events` and
  `reservations` have `numeric_limits<_QueueSlotsType>::max()+1 = 256` entries and
  the macros mask with `0xFF`.
* A `std::mutex` is a `Bool` (`true` = locked).  A `mutex*` held by `fullGuard` or
  `emptyGuard` is `none` (`nullptr`) or names one of the two gate mutexes.
* A call that reaches the second `lock()` of an already locked gate parks; it is
  the outcome `blocked`, carrying the state the call leaves behind.
* A parameter declared `_QueueSlotsType` (`reportReservedEvent`, `releaseEvent`,
  `waitForAnswer`) receives its argument converted to 8 bits.
* `removeListener` calls `memcpy` on ranges that may overlap, where the language
  defines no result; `memcpy` is therefore an argument of the model, and what is
  assumed of it is stated where it is used.
-/

namespace Mutua.Events

/-! ## Macros -/

/-- Source define `MODINC(i)`: `i = (i+1) & 0xFF`; the new value of `i`. -/
def MODINC (i : Nat) : Nat := (i + 1) &&& 0xFF

/-- Conversion of an `unsigned int` to `_QueueSlotsType` (8 bits, unsigned). -/
def toQueueSlotsType (i : Nat) : Nat := i % 256

/-- Source define `SETMODINC(s,i)`: `i = ((s=i)+1) & 0xFF`.  `conv` is the conversion to the type of
`s`; the result is the pair (new `s`, new `i`). -/
def SETMODINC (conv : Nat → Nat) (i : Nat) : Nat × Nat :=
  (conv i, (conv i + 1) &&& 0xFF)

/-! ## Data model -/

/-- The two gate mutexes whose address `fullGuard` / `emptyGuard` may hold. -/
inductive GuardRef where
  | reservationGuard
  | dequeueGuard
  deriving DecidableEq, Repr

/-- Record `struct QueueElement`; `answerObjectReference = none` is `nullptr`, a non-null
pointer is the address it holds; `answerMutex = true` is a locked mutex. -/
structure QueueElement (P : Type) where
  answerObjectReference : Option Nat
  eventParameter : P
  answerMutex : Bool

/-- Address `&events[slot].eventParameter`. -/
structure ParameterPointer where
  slot : Nat
  deriving DecidableEq, Repr

/-- Address `&events[slot]`. -/
structure ElementPointer where
  slot : Nat
  deriving DecidableEq, Repr

/-- The mutexes and the queue of `class QueueEventLink`. -/
structure QueueEventLink (P : Type) where
  reservationGuard : Bool
  fullGuard : Option GuardRef
  dequeueGuard : Bool
  emptyGuard : Option GuardRef
  events : Nat → QueueElement P
  reservations : Nat → Bool
  queueHead : Nat
  queueTail : Nat
  queueReservedHead : Nat
  queueReservedTail : Nat

/-- Result of a call that may park on a gate. -/
inductive Outcome (σ α : Type) where
  | blocked (s : σ)
  | returned (a : α) (s : σ)

variable {P : Type}

/-- The constructor: null gates, `reservations {false}`, four indices `0`, every
`QueueElement()` with a null `answerObjectReference` and an unlocked mutex.
`payload` is the initial content of the `eventParameter` cells. -/
def QueueEventLink.new (payload : Nat → P) : QueueEventLink P where
  reservationGuard := false
  fullGuard := none
  dequeueGuard := false
  emptyGuard := none
  events := fun i => { answerObjectReference := none, eventParameter := payload i, answerMutex := false }
  reservations := fun _ => false
  queueHead := 0
  queueTail := 0
  queueReservedHead := 0
  queueReservedTail := 0

/-- Statement `guard->unlock()` for the pointer obtained from a gate cell (nothing for `nullptr`). -/
def unlockGuard (s : QueueEventLink P) : Option GuardRef → QueueEventLink P
  | none => s
  | some GuardRef.reservationGuard => { s with reservationGuard := false }
  | some GuardRef.dequeueGuard => { s with dequeueGuard := false }

/-! ## Operations -/

/-- Lines 163-178 of `reserveEventForReporting`: take the slot at `queueReservedTail`. -/
def claimReportingSlot (s : QueueEventLink P) (answerObjectReference : Option Nat) :
    Outcome (QueueEventLink P) (Nat × ParameterPointer) :=
  let (eventId, rTail) := SETMODINC (fun i => i) s.queueReservedTail
  let futureEvent := s.events eventId
  let futureEvent := { futureEvent with
    answerObjectReference := answerObjectReference
    answerMutex := if answerObjectReference ≠ none then true else futureEvent.answerMutex }
  Outcome.returned (eventId, { slot := eventId })
    { s with
      queueReservedTail := rTail
      reservations := Function.update s.reservations eventId true
      events := Function.update s.events eventId futureEvent }

/-- Method `reserveEventForReporting(eventParameterPointer, answerObjectReference)`. -/
def reserveEventForReporting (s : QueueEventLink P) (answerObjectReference : Option Nat) :
    Outcome (QueueEventLink P) (Nat × ParameterPointer) :=
  if ((s.queueReservedTail + 1) &&& 0xFF) = s.queueReservedHead then
    if s.reservations s.queueReservedHead = true ∨ s.queueReservedHead = s.queueHead then
      Outcome.blocked { s with
        fullGuard := some GuardRef.reservationGuard
        reservationGuard := if s.fullGuard = none then true else s.reservationGuard }
    else
      claimReportingSlot { s with queueReservedHead := MODINC s.queueReservedHead }
        answerObjectReference
  else
    claimReportingSlot s answerObjectReference

/-- The one-argument overload `reserveEventForReporting(eventParameter)`. -/
def reserveEventForReportingAnswerless (s : QueueEventLink P) :
    Outcome (QueueEventLink P) (Nat × ParameterPointer) :=
  reserveEventForReporting s none

/-- Method `reportReservedEvent(eventId)`.  The parameter is a `_QueueSlotsType`: the id
handed in arrives converted to 8 bits. -/
def reportReservedEvent (s : QueueEventLink P) (eventId : Nat) : QueueEventLink P :=
  let eventId := toQueueSlotsType eventId
  let s := { s with reservations := Function.update s.reservations eventId false }
  if eventId = s.queueTail then
    let s := { s with queueTail := MODINC s.queueTail }
    unlockGuard { s with emptyGuard := none } s.emptyGuard
  else
    s

/-- Lines 228-235 of `reserveEventForDispatching`: take the slot at `queueHead`. -/
def claimDispatchingSlot (s : QueueEventLink P) :
    Outcome (QueueEventLink P) (Nat × ElementPointer) :=
  let (eventId, head) := SETMODINC toQueueSlotsType s.queueHead
  Outcome.returned (eventId, { slot := eventId })
    { s with
      queueHead := head
      reservations := Function.update s.reservations eventId true }

/-- Method `reserveEventForDispatching(dequeuedElementPointer)`. -/
def reserveEventForDispatching (s : QueueEventLink P) :
    Outcome (QueueEventLink P) (Nat × ElementPointer) :=
  if s.queueHead = s.queueTail then
    if s.reservations s.queueTail = true ∨ s.queueTail = s.queueReservedTail then
      Outcome.blocked { s with
        emptyGuard := some GuardRef.dequeueGuard
        dequeueGuard := if s.emptyGuard = none then true else s.dequeueGuard }
    else
      claimDispatchingSlot { s with queueTail := MODINC s.queueTail }
  else
    claimDispatchingSlot s

/-- Method `releaseEvent(eventId)`.  The parameter is a `_QueueSlotsType`: the id handed
in arrives converted to 8 bits. -/
def releaseEvent (s : QueueEventLink P) (eventId : Nat) : QueueEventLink P :=
  let eventId := toQueueSlotsType eventId
  let s := { s with reservations := Function.update s.reservations eventId false }
  if eventId = s.queueReservedHead then
    let s := { s with queueReservedHead := MODINC s.queueReservedHead }
    unlockGuard { s with fullGuard := none } s.fullGuard
  else
    s

/-! ## Protocol bookkeeping

The link stores no record of who holds which slot.  To state what a
protocol-conforming run is, a run carries, next to the link, the phase of every
slot and the two lists of slots currently held by producers and by dispatchers, in
the order they were handed out.  None of it is read by the operations. -/

/-- Phase of a slot in its cycle Free → Reserved-for-Produce → Committed →
Reserved-for-Dispatch → Free. -/
inductive Phase where
  | free
  | reservedForProduce
  | committed
  | reservedForDispatch
  deriving DecidableEq, Repr

/-- A link together with the bookkeeping of the slots handed out. -/
structure Tracked (P : Type) where
  link : QueueEventLink P
  phase : Nat → Phase
  producing : List Nat
  dispatching : List Nat

/-- One call on the link. -/
inductive Op where
  | reserve (answerObjectReference : Option Nat)
  | commit (eventId : Nat)
  | dispatch
  | release (eventId : Nat)
  deriving DecidableEq, Repr

/-- A freshly constructed link: every slot free, nothing handed out. -/
def Tracked.new (payload : Nat → P) : Tracked P where
  link := QueueEventLink.new payload
  phase := fun _ => Phase.free
  producing := []
  dispatching := []

/-- Effect of one call: the operation runs on the link, and the bookkeeping records
the slot it hands out, commits or releases.  A call that parks hands out nothing. -/
def Tracked.step (t : Tracked P) : Op → Tracked P
  | Op.reserve a =>
    match reserveEventForReporting t.link a with
    | Outcome.blocked l => { t with link := l }
    | Outcome.returned r l =>
      { t with
        link := l
        phase := Function.update t.phase r.1 Phase.reservedForProduce
        producing := t.producing ++ [r.1] }
  | Op.commit eventId =>
    { t with
      link := reportReservedEvent t.link eventId
      phase := Function.update t.phase eventId Phase.committed
      producing := t.producing.erase eventId }
  | Op.dispatch =>
    match reserveEventForDispatching t.link with
    | Outcome.blocked l => { t with link := l }
    | Outcome.returned r l =>
      { t with
        link := l
        phase := Function.update t.phase r.1 Phase.reservedForDispatch
        dispatching := t.dispatching ++ [r.1] }
  | Op.release eventId =>
    { t with
      link := releaseEvent t.link eventId
      phase := Function.update t.phase eventId Phase.free
      dispatching := t.dispatching.erase eventId }

/-- The protocol: commit only a slot handed out for producing and not yet committed,
release only a slot handed out for dispatching and not yet released. -/
def Tracked.allows (t : Tracked P) : Op → Bool
  | Op.reserve _ => true
  | Op.commit eventId => decide (t.phase eventId = Phase.reservedForProduce)
  | Op.dispatch => true
  | Op.release eventId => decide (t.phase eventId = Phase.reservedForDispatch)

/-- The stricter single-producer / single-worker discipline: commit the slot that
was reserved first among those not yet committed, release the slot that was
dispatched first among those not yet released. -/
def Tracked.allowsInOrder (t : Tracked P) : Op → Bool
  | Op.reserve _ => true
  | Op.commit eventId => decide (t.producing.head? = some eventId)
  | Op.dispatch => true
  | Op.release eventId => decide (t.dispatching.head? = some eventId)

/-- State after a sequence of calls. -/
def Tracked.run (t : Tracked P) : List Op → Tracked P
  | [] => t
  | op :: ops => (t.step op).run ops

/-- Every call of the sequence respects the protocol in the state it is made in. -/
def Tracked.conforming (t : Tracked P) : List Op → Bool
  | [] => true
  | op :: ops => t.allows op && (t.step op).conforming ops

/-- Every call of the sequence respects the protocol and the in-order discipline. -/
def Tracked.conformingInOrder (t : Tracked P) : List Op → Bool
  | [] => true
  | op :: ops => t.allows op && t.allowsInOrder op && (t.step op).conformingInOrder ops

/-- Slots handed out by `reserveEventForReporting` and not yet released. -/
def Tracked.outstanding (t : Tracked P) : Nat :=
  ((List.range 256).filter (fun i => decide (t.phase i ≠ Phase.free))).length

/-! ## The ring invariant -/

/-- Numeric tag of a phase, used to state the invariant arithmetically. -/
def Phase.code : Phase → Nat
  | Phase.free => 0
  | Phase.reservedForProduce => 1
  | Phase.committed => 2
  | Phase.reservedForDispatch => 3

/-- The inductive invariant of protocol-conforming runs, for given distances `oh`,
`ot`, `oT` of `queueHead`, `queueTail` and `queueReservedTail` from
`queueReservedHead` (walking forward on the ring).  The three distances cut the ring
into four zones: dispatched slots (held by a dispatcher, or already released out of
order), committed slots awaiting dispatch, slots handed to producers (still being
filled, or committed out of order), and free slots. -/
structure ZoneInv (t : Tracked P) (oh ot oT : Nat) : Prop where
  le_ht : oh ≤ ot
  le_tr : ot ≤ oT
  le_cap : oT ≤ 255
  rhead_lt : t.link.queueReservedHead < 256
  head_eq : t.link.queueHead = (t.link.queueReservedHead + oh) % 256
  tail_eq : t.link.queueTail = (t.link.queueReservedHead + ot) % 256
  rtail_eq : t.link.queueReservedTail = (t.link.queueReservedHead + oT) % 256
  beyond : ∀ i, 256 ≤ i → (t.phase i).code = 0 ∧ (t.link.reservations i).toNat = 0
  slot : ∀ k, k < 256 →
    (k < oh →
      ((t.phase ((t.link.queueReservedHead + k) % 256)).code = 3 ∧
        (t.link.reservations ((t.link.queueReservedHead + k) % 256)).toNat = 1) ∨
      ((t.phase ((t.link.queueReservedHead + k) % 256)).code = 0 ∧
        (t.link.reservations ((t.link.queueReservedHead + k) % 256)).toNat = 0)) ∧
    (oh ≤ k → k < ot →
      (t.phase ((t.link.queueReservedHead + k) % 256)).code = 2 ∧
        (t.link.reservations ((t.link.queueReservedHead + k) % 256)).toNat = 0) ∧
    (ot ≤ k → k < oT →
      ((t.phase ((t.link.queueReservedHead + k) % 256)).code = 1 ∧
        (t.link.reservations ((t.link.queueReservedHead + k) % 256)).toNat = 1) ∨
      ((t.phase ((t.link.queueReservedHead + k) % 256)).code = 2 ∧
        (t.link.reservations ((t.link.queueReservedHead + k) % 256)).toNat = 0)) ∧
    (oT ≤ k →
      (t.phase ((t.link.queueReservedHead + k) % 256)).code = 0 ∧
        (t.link.reservations ((t.link.queueReservedHead + k) % 256)).toNat = 0)

/-- The invariant of protocol-conforming runs. -/
def Inv (t : Tracked P) : Prop := ∃ oh ot oT, ZoneInv t oh ot oT

/-! ## Auxiliary definitions used in the statements -/

/-- The test under which `reserveEventForReporting` parks. -/
def reportingBlocks (s : QueueEventLink P) : Prop :=
  (s.queueReservedTail + 1) % 256 = s.queueReservedHead ∧
    (s.reservations s.queueReservedHead = true ∨ s.queueReservedHead = s.queueHead)

/-- The test under which `reserveEventForDispatching` parks. -/
def dispatchingBlocks (s : QueueEventLink P) : Prop :=
  s.queueHead = s.queueTail ∧
    (s.reservations s.queueTail = true ∨ s.queueTail = s.queueReservedTail)

instance (s : QueueEventLink P) : Decidable (reportingBlocks s) := by
  unfold reportingBlocks
  infer_instance

instance (s : QueueEventLink P) : Decidable (dispatchingBlocks s) := by
  unfold dispatchingBlocks
  infer_instance

/-- Distance `(b - a) mod 256` walking forward on the ring from `a` to `b`, computed
over the integers. -/
def ringDistance (a b : Nat) : Int := ((b : Int) - (a : Int)) % 256

/-- The zero payload used in concrete runs. -/
def zeroPayload : Nat → Nat := fun _ => 0

/-- Invariant of runs in which releases follow the dispatch order: every slot between
`queueReservedHead` and `queueHead` is held by a dispatcher, and the slots held by
dispatchers are exactly these, oldest first. -/
def InOrderInv (t : Tracked P) : Prop :=
  ∃ oh ot oT, ZoneInv t oh ot oT ∧
    (∀ k, k < oh → (t.phase ((t.link.queueReservedHead + k) % 256)).code = 3) ∧
    t.dispatching = (List.range oh).map (fun k => (t.link.queueReservedHead + k) % 256)

/-- A single producer and a single worker handling `n` events one after the other:
event `k` uses slot `k mod 256`. -/
def oneByOne (n : Nat) : List Op :=
  (List.range n).flatMap
    (fun k => [Op.reserve none, Op.commit (k % 256), Op.dispatch, Op.release (k % 256)])

/-- Ids handed out, committed, dispatched and released along a run, each list in the
order of the calls, and the ids handed out to producers and not yet handed to a
dispatcher (`pending`, oldest reservation first).  It is bookkeeping of the run, read
by no operation. -/
structure History where
  reserved : List Nat
  committed : List Nat
  dispatched : List Nat
  released : List Nat
  pending : List Nat

/-- The empty history of a fresh link. -/
def History.empty : History where
  reserved := []
  committed := []
  dispatched := []
  released := []
  pending := []

/-- History after one call made in state `t`: a successful reservation or dispatch
logs the id it returns (which then enters or leaves `pending`), a commit or release
logs its argument, a call that parks logs nothing. -/
def Tracked.record (t : Tracked P) (hist : History) : Op → History
  | Op.reserve a =>
    match reserveEventForReporting t.link a with
    | Outcome.blocked _ => hist
    | Outcome.returned r _ =>
      { hist with reserved := hist.reserved ++ [r.1], pending := hist.pending ++ [r.1] }
  | Op.commit eventId => { hist with committed := hist.committed ++ [eventId] }
  | Op.dispatch =>
    match reserveEventForDispatching t.link with
    | Outcome.blocked _ => hist
    | Outcome.returned r _ =>
      { hist with dispatched := hist.dispatched ++ [r.1], pending := hist.pending.erase r.1 }
  | Op.release eventId => { hist with released := hist.released ++ [eventId] }

/-- History after a sequence of calls starting in state `t` with history `hist`. -/
def Tracked.history (t : Tracked P) (hist : History) : List Op → History
  | [] => hist
  | op :: ops => (t.step op).history (t.record hist op) ops

/-- The producer's store `*eventParameterPointer = v` through the handle returned by
`reserveEventForReporting`: it fills the payload of the slot in place. -/
def writeParameter (s : QueueEventLink P) (p : ParameterPointer) (v : P) :
    QueueEventLink P :=
  { s with
    events := Function.update s.events p.slot
      ({ (s.events p.slot) with eventParameter := v } : QueueElement P) }

/-- The element a dispatcher reads through the handle returned by
`reserveEventForDispatching`. -/
def readElement (s : QueueEventLink P) (e : ElementPointer) : QueueElement P :=
  s.events e.slot

/-- A run step in which a producer fills the slot behind its handle. -/
def Tracked.write (t : Tracked P) (p : ParameterPointer) (v : P) : Tracked P :=
  { t with link := writeParameter t.link p v }

/-- Invariant tying the logs of a run to the link: the ids handed out to producers and
to dispatchers count `0, 1, 2, ...` modulo 256 along `queueReservedTail` and
`queueHead`, dispatches never outnumber reservations nor trail them by more than 255,
and the pending slots are the reserved ones not yet dispatched, oldest first. -/
structure FifoInv (t : Tracked P) (hist : History) : Prop where
  reserved_eq : hist.reserved = (List.range hist.reserved.length).map (fun k => k % 256)
  rtail_eq : t.link.queueReservedTail = hist.reserved.length % 256
  dispatched_eq :
    hist.dispatched = (List.range hist.dispatched.length).map (fun k => k % 256)
  head_eq : t.link.queueHead = hist.dispatched.length % 256
  le : hist.dispatched.length ≤ hist.reserved.length
  cap : hist.reserved.length ≤ hist.dispatched.length + 255
  pending_eq : hist.pending
    = (List.range' hist.dispatched.length
        (hist.reserved.length - hist.dispatched.length)).map (fun k => k % 256)

/-- The single-producer discipline on commits alone: commit the slot that was reserved
first among those not yet committed.  Releases may come in any order. -/
def Tracked.allowsCommitInOrder (t : Tracked P) : Op → Bool
  | Op.reserve _ => true
  | Op.commit eventId => decide (t.producing.head? = some eventId)
  | Op.dispatch => true
  | Op.release _ => true

/-- Every call of the sequence respects the protocol, and commits follow the order of
the reservations. -/
def Tracked.conformingCommitInOrder (t : Tracked P) : List Op → Bool
  | [] => true
  | op :: ops =>
    t.allows op && t.allowsCommitInOrder op && (t.step op).conformingCommitInOrder ops

/-- Invariant of runs whose commits follow the reservation order: the committed ids
count `0, 1, 2, ...` modulo 256 as well, between the dispatched and the reserved ones;
the slots reserved after the last commit are the ones being filled, oldest first, and
the slots committed after the last dispatch are in phase Committed. -/
structure CommitOrderInv (t : Tracked P) (hist : History) : Prop where
  fifo : FifoInv t hist
  committed_eq :
    hist.committed = (List.range hist.committed.length).map (fun k => k % 256)
  dle : hist.dispatched.length ≤ hist.committed.length
  cle : hist.committed.length ≤ hist.reserved.length
  producing_eq : t.producing
    = (List.range' hist.committed.length
        (hist.reserved.length - hist.committed.length)).map (fun k => k % 256)
  filling : ∀ k, hist.committed.length ≤ k → k < hist.reserved.length →
    t.phase (k % 256) = Phase.reservedForProduce
  ready : ∀ k, hist.dispatched.length ≤ k → k < hist.committed.length →
    t.phase (k % 256) = Phase.committed

/-- The standard exception classes the code raises through `THROW_EXCEPTION`.  The
define itself lives in `BetterExceptions.h`, outside the sources at hand; it is taken
to raise an exception of the class it names. -/
inductive StdError where
  | runtime_error
  | overflow_error
  | invalid_argument
  deriving DecidableEq, Repr

/-- A value thrown by a consumer body: of a class deriving from `std::exception`
(caught by `catch (const exception& e)`) or of any other type (caught only by
`catch (...)`); the number tells thrown values apart. -/
inductive Thrown where
  | stdException (what : Nat)
  | other (value : Nat)
  deriving DecidableEq, Repr

/-- Result of a call that may throw, park on a mutex, or return. -/
inductive Attempt (σ α : Type) where
  | threw (e : StdError) (s : σ)
  | blocked (s : σ)
  | returned (a : α) (s : σ)

/-- Lines 271-273 of `waitForAnswer`, for `event = events[slot]`:
`event.answerMutex.lock()` parks while the answer mutex is locked; once it gets the
mutex the call unlocks it again and returns the `answerObjectReference` it finds
then. -/
def awaitAnswer (s : QueueEventLink P) (slot : Nat) :
    Attempt (QueueEventLink P) (Option Nat) :=
  if (s.events slot).answerMutex = true then Attempt.blocked s
  else Attempt.returned (s.events slot).answerObjectReference s

/-- Method `waitForAnswer(eventId)`.  The parameter is a `_QueueSlotsType`: the id
handed in arrives converted to 8 bits. -/
def waitForAnswer (s : QueueEventLink P) (eventId : Nat) :
    Attempt (QueueEventLink P) (Option Nat) :=
  let eventId := toQueueSlotsType eventId
  if (s.events eventId).answerObjectReference = none then
    Attempt.threw StdError.runtime_error s
  else
    awaitAnswer s eventId

/-- The link together with the memory its pointers refer to: the answer cells owned by
the producers, by address, and the `exception` member the dispatcher writes on a slot
(`QueueElement` as declared in `QueueEventLink.h` has no such member; it is kept here
as a table by slot). -/
structure World (P A : Type) where
  link : QueueEventLink P
  memory : Nat → A
  exception : Nat → Option Thrown

/-- What running a consumer body amounts to: it returns or throws, after possibly
writing answer cells and locking or unlocking the answer mutex it was handed by
reference. -/
structure ConsumerEffect (A : Type) where
  thrown : Option Thrown
  memory : Nat → A
  answerMutex : Bool

/-- An answerfull consumer `void (*)(void*, const _ArgumentType&, _AnswerType*,
std::mutex&)`: from its `this`, the event parameter, the answer pointer, and the
memory and mutex state it finds, to its effect. -/
def AnswerfullConsumer (P A : Type) : Type :=
  Nat → P → Option Nat → (Nat → A) → Bool → ConsumerEffect A

/-- The world once the consumer body has run (or has thrown): memory and the answer
mutex of the slot as the body left them. -/
def afterConsumer {A : Type} (w : World P A) (slot : Nat) (eff : ConsumerEffect A) :
    World P A :=
  { w with
    memory := eff.memory
    link := { w.link with
      events := Function.update w.link.events slot
        ({ (w.link.events slot) with answerMutex := eff.answerMutex } : QueueElement P) } }

/-- Method `QueueEventLink::consumeAnswerfullEvent(event)`: one call of the registered
consumer, `answerfullConsumerProcedureReference(answerfullConsumerThis, ...)`, given
here as arguments; an exception of the body propagates to the caller. -/
def linkConsumeAnswerfullEvent {A : Type} (w : World P A)
    (answerfullConsumerProcedureReference : AnswerfullConsumer P A)
    (answerfullConsumerThis : Nat) (event : ElementPointer) : World P A × Option Thrown :=
  let eff := answerfullConsumerProcedureReference answerfullConsumerThis
    (w.link.events event.slot).eventParameter
    (w.link.events event.slot).answerObjectReference
    w.memory (w.link.events event.slot).answerMutex
  (afterConsumer w event.slot eff, eff.thrown)

/-- Method `QueueEventDispatcher::isMutexLocked(m)`: `try_lock` followed by `unlock`
when it succeeded leaves the mutex as it was and tells whether it was locked. -/
def isMutexLocked (m : Bool) : Bool := m

/-- Method `QueueEventDispatcher::consumeAnswerfullEvent(threadId, consumerMethod,
consumerThis, dequeuedEvent)`.  The call of the consumer sits in a `try`; both handlers
store the exception on the slot and dump a diagnostic (no effect on the link); only the
`catch (...)` handler goes on to null the answer pointer and unlock the answer mutex
when it finds it locked. -/
def consumeAnswerfullEvent {A : Type} (w : World P A)
    (consumerMethod : AnswerfullConsumer P A) (consumerThis : Nat)
    (dequeuedEvent : ElementPointer) : World P A :=
  let eff := consumerMethod consumerThis
    (w.link.events dequeuedEvent.slot).eventParameter
    (w.link.events dequeuedEvent.slot).answerObjectReference
    w.memory (w.link.events dequeuedEvent.slot).answerMutex
  let w1 := afterConsumer w dequeuedEvent.slot eff
  match eff.thrown with
  | none => w1
  | some (Thrown.stdException what) =>
    { w1 with
      exception := Function.update w1.exception dequeuedEvent.slot
        (some (Thrown.stdException what)) }
  | some (Thrown.other value) =>
    let w2 := { w1 with
      exception := Function.update w1.exception dequeuedEvent.slot
        (some (Thrown.other value)) }
    if isMutexLocked (w2.link.events dequeuedEvent.slot).answerMutex = true then
      { w2 with
        link := { w2.link with
          events := Function.update w2.link.events dequeuedEvent.slot
            ({ (w2.link.events dequeuedEvent.slot) with
              answerObjectReference := none
              answerMutex := false } : QueueElement P) } }
    else
      w2

/-- A consumer that stores `f` of the parameter into its answer argument and opens the
signal. -/
def storingConsumer {A : Type} (f : P → A) : AnswerfullConsumer P A :=
  fun _ eventParameter answer memory _ =>
    { thrown := none
      memory := match answer with
        | some p => Function.update memory p (f eventParameter)
        | none => memory
      answerMutex := false }

/-- A consumer whose body throws at once, touching neither memory nor the mutex. -/
def throwingConsumer {A : Type} (e : Thrown) : AnswerfullConsumer P A :=
  fun _ _ _ memory answerMutex =>
    { thrown := some e, memory := memory, answerMutex := answerMutex }

/-- A fresh link with answer cells all holding `a0` and no exception stored. -/
def World.new {A : Type} (payload : Nat → P) (a0 : A) : World P A where
  link := QueueEventLink.new payload
  memory := fun _ => a0
  exception := fun _ => none

/-- The producer side of an answerfull event up to the dispatch: reserve with answer
cell `p`, write `n` through the handle, commit, and let a worker reserve the event for
dispatching.  The result is the world the worker's consumer runs in. -/
def producedAndDispatched {A : Type} (w : World P A) (p : Nat) (n : P) : World P A :=
  match reserveEventForReporting w.link (some p) with
  | Outcome.blocked s => { w with link := s }
  | Outcome.returned r s1 =>
    match reserveEventForDispatching
        (reportReservedEvent (writeParameter s1 r.2 n) r.1) with
    | Outcome.blocked s => { w with link := s }
    | Outcome.returned _ s4 => { w with link := s4 }

/-- The link state an operation leaves behind, whether the call returned or parked. -/
def Outcome.state {σ α : Type} : Outcome σ α → σ
  | Outcome.blocked s => s
  | Outcome.returned _ s => s

/-- Registration members of `QueueEventLink`: the two consumers with their `this` and
the listener arrays with their count.  Function and object pointers are addresses,
`none` standing for `nullptr`. -/
structure Registration where
  answerlessConsumerProcedureReference : Option Nat
  answerfullConsumerProcedureReference : Option Nat
  answerlessConsumerThis : Option Nat
  answerfullConsumerThis : Option Nat
  listenerProcedureReferences : Nat → Option Nat
  listenersThis : Nat → Option Nat
  nListenerProcedureReferences : Nat

/-- Method `unsetConsumer()`. -/
def unsetConsumer (r : Registration) : Registration :=
  { r with
    answerlessConsumerProcedureReference := none
    answerfullConsumerProcedureReference := none
    answerlessConsumerThis := none
    answerfullConsumerThis := none }

/-- Registration members as the constructor `QueueEventLink(eventName)` leaves them:
listener arrays all `nullptr`, count zero, then `unsetConsumer()`. -/
def Registration.new : Registration :=
  unsetConsumer
    { answerlessConsumerProcedureReference := none
      answerfullConsumerProcedureReference := none
      answerlessConsumerThis := none
      answerfullConsumerThis := none
      listenerProcedureReferences := fun _ => none
      listenersThis := fun _ => none
      nListenerProcedureReferences := 0 }

/-- Method `setAnswerlessConsumer(consumerProcedureReference, consumerThis)`. -/
def setAnswerlessConsumer (r : Registration)
    (consumerProcedureReference consumerThis : Option Nat) : Registration :=
  { r with
    answerlessConsumerProcedureReference := consumerProcedureReference
    answerlessConsumerThis := consumerThis }

/-- Method `setAnswerfullConsumer(consumerProcedureReference, consumerThis)`. -/
def setAnswerfullConsumer (r : Registration)
    (consumerProcedureReference consumerThis : Option Nat) : Registration :=
  { r with
    answerfullConsumerProcedureReference := consumerProcedureReference
    answerfullConsumerThis := consumerThis }

/-- Method `addListener(listenerProcedureReference, listenerThis)`, for a link declared
with `_NListeners` listener slots. -/
def addListener (_NListeners : Nat) (r : Registration)
    (listenerProcedureReference listenerThis : Option Nat) : Attempt Registration Unit :=
  if r.nListenerProcedureReferences ≥ _NListeners then
    Attempt.threw StdError.overflow_error r
  else
    Attempt.returned ()
      { r with
        listenerProcedureReferences :=
          Function.update r.listenerProcedureReferences r.nListenerProcedureReferences
            listenerProcedureReference
        listenersThis :=
          Function.update r.listenersThis r.nListenerProcedureReferences listenerThis
        nListenerProcedureReferences := r.nListenerProcedureReferences + 1 }

/-- Calls of `addListener` one after the other, stopping at the first that throws. -/
def addListeners (_NListeners : Nat) :
    Registration → List (Option Nat × Option Nat) → Attempt Registration Unit
  | r, [] => Attempt.returned () r
  | r, l :: ls =>
    match addListener _NListeners r l.1 l.2 with
    | Attempt.returned _ r1 => addListeners _NListeners r1 ls
    | other => other

/-- The `for` loop of `findListener` from index `i` on, with `remaining` iterations to
go before `i` reaches the count. -/
def findListenerFrom (r : Registration) (listenerProcedureReference : Nat) :
    Nat → Nat → Int
  | 0, _ => -1
  | remaining + 1, i =>
    if r.listenerProcedureReferences i = some listenerProcedureReference then (i : Int)
    else findListenerFrom r listenerProcedureReference remaining (i + 1)

/-- Method `findListener(listenerProcedureReference)`.  The argument is a reference to
a function, hence never null; the method writes no member, so only its result is
modelled. -/
def findListener (r : Registration) (listenerProcedureReference : Nat) : Int :=
  findListenerFrom r listenerProcedureReference r.nListenerProcedureReferences 0

/-- A model of the library call `memcpy(&a[dst], &a[src], len * sizeof(a[0]))` on an
array of pointers: from the array, `dst`, `src` and `len` to the array the call leaves.
The language defines the call only when the two ranges do not overlap, so the function
is an argument of the code that calls it and not a fixed one. -/
@[reducible]
def Memcpy : Type := (Nat → Option Nat) → Nat → Nat → Nat → (Nat → Option Nat)

/-- What the language promises of `memcpy`: on ranges that do not overlap, the `len`
elements from `src` on land from `dst` on and nothing else changes. -/
def Memcpy.defined (memcpy : Memcpy) : Prop :=
  ∀ (a : Nat → Option Nat) (dst src len : Nat), dst + len ≤ src ∨ src + len ≤ dst →
    ∀ i, memcpy a dst src len i
      = if dst ≤ i ∧ i < dst + len then a (src + (i - dst)) else a i

/-- A `memcpy` that copies element by element from the front; it stands for the
platform in the concrete runs. -/
def copyFrontToBack : Memcpy
  | a, _, _, 0 => a
  | a, dst, src, len + 1 =>
    copyFrontToBack (Function.update a dst (a src)) (dst + 1) (src + 1) len

/-- Method `removeListener(listenerProcedureReference)`, with the `memcpy` it calls:
the result and the members it leaves.  Both calls pass `&array[pos + 1]` as source and
`&array[pos]` as destination, ranges that overlap as soon as two entries follow
`pos`. -/
def removeListener (memcpy : Memcpy) (r : Registration)
    (listenerProcedureReference : Nat) : Bool × Registration :=
  let pos := findListener r listenerProcedureReference
  if pos = -1 then (false, r)
  else
    let refs := memcpy r.listenerProcedureReferences pos.toNat (pos.toNat + 1)
      (r.nListenerProcedureReferences - (pos.toNat + 1))
    let these := memcpy r.listenersThis pos.toNat (pos.toNat + 1)
      (r.nListenerProcedureReferences - (pos.toNat + 1))
    let n := r.nListenerProcedureReferences - 1
    (true,
      { r with
        listenerProcedureReferences := Function.update refs n none
        listenersThis := Function.update these n none
        nListenerProcedureReferences := n })

/-- One index before and after an operation: unchanged, or advanced by exactly one
modulo 256. -/
def advancedByAtMostOne (before after : Nat) : Prop :=
  after = before ∨ after = (before + 1) % 256

/-- All four indices of the ring are unchanged or advanced by exactly one. -/
def indicesAdvancedByAtMostOne (s s2 : QueueEventLink P) : Prop :=
  advancedByAtMostOne s.queueHead s2.queueHead ∧
  advancedByAtMostOne s.queueTail s2.queueTail ∧
  advancedByAtMostOne s.queueReservedHead s2.queueReservedHead ∧
  advancedByAtMostOne s.queueReservedTail s2.queueReservedTail
/-- Members `answerlessConsumerThese`, `nAnswerlessConsumerThese`,
`answerfullConsumerThese` and `nAnswerfullConsumerThese` that `QueueEventDispatcher`
reads from its link: arrays of consumer objects, by address, with their sizes.  The
header `QueueEventLink.h` at hand declares one `answerlessConsumerThis` and one
`answerfullConsumerThis` instead, so the pools are taken as given. -/
structure ConsumerPools where
  answerlessConsumerThese : Nat → Nat
  nAnswerlessConsumerThese : Nat
  answerfullConsumerThese : Nat → Nat
  nAnswerfullConsumerThese : Nat

/-- Arguments of the constructor of `QueueEventDispatcher` other than the link.  The
thread count, an `int` in the source, is taken non-negative. -/
structure DispatcherArguments where
  nThreads : Nat
  threadsPriority : Int
  zeroCopy : Bool
  notifyEvents : Bool
  consumeAnswerlessEvents : Bool
  consumeAnswerfullEvents : Bool
  debug : Bool

/-- Values of the type traits of `_ArgumentType` that `setArgumentSerializer` branches
on: `std::is_integral`, `std::is_constructible<std::string, _ArgumentType>` and
`std::is_class`. -/
structure ArgumentTraits where
  is_integral : Bool
  is_string_constructible : Bool
  is_class : Bool

/-- Method `setArgumentSerializer()`: the exception it throws, if any. -/
def setArgumentSerializer (traits : ArgumentTraits) : Option StdError :=
  if traits.is_integral || traits.is_string_constructible then none
  else if traits.is_class then none
  else some StdError.invalid_argument

/-- The five loop procedures a worker thread may run. -/
inductive WorkerLoop where
  | dispatchZeroCopyListeneableAndConsumableAnswerlessEventsLoop
  | dispatchZeroCopyListeneableAndConsumableAnswerfullEventsLoop
  | dispatchZeroCopyConsumableAnswerlessEventsLoop
  | dispatchZeroCopyConsumableAnswerfullEventsLoop
  | dispatchZeroCopyListeneableEventsLoop
  deriving DecidableEq, Repr

/-- A thread the constructor started: a worker with the loop it runs, its `threadId`
and the consumer object it was handed (`none` for the loop that takes no consumer), or
the debug tracker. -/
inductive StartedThread where
  | worker (loop : WorkerLoop) (threadId : Nat) (consumerThis : Option Nat)
  | debugTracker
  deriving DecidableEq, Repr

/-- Outcome of the constructor of `QueueEventDispatcher`: the exception it left with,
if any, and the threads it had started by then, in order. -/
structure Construction where
  thrown : Option StdError
  threads : List StartedThread
  deriving DecidableEq, Repr

/-- Body of the `for` loop of the constructor for worker `i`: the thread it starts, or
`none` when it reaches the `else` that throws `invalid_argument`. -/
def selectLoop (pools : ConsumerPools) (args : DispatcherArguments) (i : Nat) :
    Option StartedThread :=
  if args.zeroCopy && args.notifyEvents && args.consumeAnswerlessEvents
      && !args.consumeAnswerfullEvents then
    some (StartedThread.worker
      WorkerLoop.dispatchZeroCopyListeneableAndConsumableAnswerlessEventsLoop i
      (some (pools.answerlessConsumerThese (i % pools.nAnswerlessConsumerThese))))
  else if args.zeroCopy && args.notifyEvents && !args.consumeAnswerlessEvents
      && args.consumeAnswerfullEvents then
    some (StartedThread.worker
      WorkerLoop.dispatchZeroCopyListeneableAndConsumableAnswerfullEventsLoop i
      (some (pools.answerfullConsumerThese (i % pools.nAnswerfullConsumerThese))))
  else if args.zeroCopy && !args.notifyEvents && args.consumeAnswerlessEvents
      && !args.consumeAnswerfullEvents then
    some (StartedThread.worker
      WorkerLoop.dispatchZeroCopyConsumableAnswerlessEventsLoop i
      (some (pools.answerlessConsumerThese (i % pools.nAnswerlessConsumerThese))))
  else if args.zeroCopy && !args.notifyEvents && !args.consumeAnswerlessEvents
      && args.consumeAnswerfullEvents then
    some (StartedThread.worker
      WorkerLoop.dispatchZeroCopyConsumableAnswerfullEventsLoop i
      (some (pools.answerfullConsumerThese (i % pools.nAnswerfullConsumerThese))))
  else if args.zeroCopy && args.notifyEvents && !args.consumeAnswerlessEvents
      && !args.consumeAnswerfullEvents then
    some (StartedThread.worker WorkerLoop.dispatchZeroCopyListeneableEventsLoop i none)
  else
    none

/-- The `for (int i=0; i<nThreads; i++)` loop of the constructor from index `i` on, with
`remaining` iterations to go and the threads started so far. -/
def startThreads (pools : ConsumerPools) (args : DispatcherArguments) :
    Nat → Nat → List StartedThread → Construction
  | 0, _, threads => { thrown := none, threads := threads }
  | remaining + 1, i, threads =>
    match selectLoop pools args i with
    | some t => startThreads pools args remaining (i + 1) (threads ++ [t])
    | none => { thrown := some StdError.invalid_argument, threads := threads }

/-- Constructor `QueueEventDispatcher(el, nThreads, threadsPriority, zeroCopy,
notifyEvents, consumeAnswerlessEvents, consumeAnswerfullEvents, debug)`: the checks in
the order of the source, the loop starting the workers, the debug thread, and
`setArgumentSerializer()`. -/
def QueueEventDispatcher.new (el : Registration) (pools : ConsumerPools)
    (traits : ArgumentTraits) (args : DispatcherArguments) : Construction :=
  if args.threadsPriority ≠ 0 then
    { thrown := some StdError.invalid_argument, threads := [] }
  else if args.consumeAnswerlessEvents = true
      ∧ el.answerlessConsumerProcedureReference = none then
    { thrown := some StdError.runtime_error, threads := [] }
  else if args.consumeAnswerlessEvents = true
      ∧ args.nThreads > pools.nAnswerlessConsumerThese then
    { thrown := some StdError.runtime_error, threads := [] }
  else if args.consumeAnswerfullEvents = true
      ∧ args.nThreads > pools.nAnswerfullConsumerThese then
    { thrown := some StdError.runtime_error, threads := [] }
  else
    match startThreads pools args args.nThreads 0 [] with
    | { thrown := some e, threads := threads } => { thrown := some e, threads := threads }
    | { thrown := none, threads := threads } =>
      { thrown := setArgumentSerializer traits
        threads := if args.debug = true then threads ++ [StartedThread.debugTracker]
          else threads }

/-- The five flag combinations listed as supported. -/
def supportedFlags (args : DispatcherArguments) : Bool :=
  args.zeroCopy &&
    ((args.notifyEvents && args.consumeAnswerlessEvents && !args.consumeAnswerfullEvents)
    || (args.notifyEvents && !args.consumeAnswerlessEvents && args.consumeAnswerfullEvents)
    || (!args.notifyEvents && args.consumeAnswerlessEvents && !args.consumeAnswerfullEvents)
    || (!args.notifyEvents && !args.consumeAnswerlessEvents && args.consumeAnswerfullEvents)
    || (args.notifyEvents && !args.consumeAnswerlessEvents && !args.consumeAnswerfullEvents))

/-- Pools of `k` answerless and `k` answerfull consumer objects at addresses `100 + i`
and `200 + i`. -/
def poolsOfSize (k : Nat) : ConsumerPools where
  answerlessConsumerThese := fun i => 100 + i
  nAnswerlessConsumerThese := k
  answerfullConsumerThese := fun i => 200 + i
  nAnswerfullConsumerThese := k

/-- Traits of an integral `_ArgumentType` such as `unsigned int`. -/
def integralArgument : ArgumentTraits where
  is_integral := true
  is_string_constructible := false
  is_class := false
/-- What the functions behind the registered pointers do when called, by the address
called: whether the body of an answerless consumer or of a listener throws for the
`this` and event parameter it gets, and the effect of an answerfull consumer.  A call
through a null pointer has no behaviour of its own in C++; the tables are total so that
the model assigns it one as well. -/
structure Bodies (P A : Type) where
  answerlessConsumer : Option Nat → Nat → P → Option Thrown
  answerfullConsumer : Option Nat → AnswerfullConsumer P A
  listener : Option Nat → Option Nat → P → Option Thrown

/-- A call a worker thread makes, with the arguments that matter: the id returned by
`reserveEventForDispatching`, the function pointer, `this` and event parameter handed
to a consumer or to a listener, and the id given to `releaseEvent`. -/
inductive Call (P : Type) where
  | reserveEventForDispatching (eventId : Nat)
  | answerlessConsumer (consumerMethod : Option Nat) (consumerThis : Nat)
      (eventParameter : P)
  | answerfullConsumer (consumerMethod : Option Nat) (consumerThis : Nat)
      (eventParameter : P) (answerObjectReference : Option Nat)
  | listener (listenerMethod : Option Nat) (listenerThis : Option Nat) (eventParameter : P)
  | releaseEvent (eventId : Nat)
  deriving DecidableEq, Repr

/-- State of a worker thread within one pass of its loop: the world, the calls made so
far, oldest first, and the exception in flight, if any. -/
structure Run (P A : Type) where
  world : World P A
  calls : List (Call P)
  thrown : Option Thrown

/-- Sequencing of statements outside any `try`: the next statement runs unless an
exception is in flight. -/
def Run.next {A : Type} (r : Run P A) (statement : Run P A → Run P A) : Run P A :=
  match r.thrown with
  | none => statement r
  | some _ => r

/-- Method `QueueEventDispatcher::consumeAnswerlessEvent(threadId, consumerMethod,
consumerThis, eventParameter)`: the call of the consumer sits in a `try` whose two
handlers dump a diagnostic and return. -/
def consumeAnswerlessEvent {A : Type} (code : Bodies P A) (_threadId : Nat)
    (consumerMethod : Option Nat) (consumerThis : Nat) (eventParameter : P)
    (r : Run P A) : Run P A :=
  let r1 : Run P A :=
    { r with
      calls := r.calls ++ [Call.answerlessConsumer consumerMethod consumerThis eventParameter] }
  match code.answerlessConsumer consumerMethod consumerThis eventParameter with
  | none => r1
  | some (Thrown.stdException _) => r1
  | some (Thrown.other _) => r1

/-- The call `consumeAnswerfullEvent(threadId, consumerMethod, consumerThis,
dequeuedEvent)` of a loop, with the consumer call it makes put on record. -/
def Run.afterConsumeAnswerfullEvent {A : Type} (r : Run P A) (code : Bodies P A)
    (_threadId : Nat) (consumerMethod : Option Nat) (consumerThis : Nat)
    (dequeuedEvent : ElementPointer) : Run P A :=
  { r with
    world := consumeAnswerfullEvent r.world (code.answerfullConsumer consumerMethod)
      consumerThis dequeuedEvent
    calls := r.calls ++ [Call.answerfullConsumer consumerMethod consumerThis
      (readElement r.world.link dequeuedEvent).eventParameter
      (readElement r.world.link dequeuedEvent).answerObjectReference] }

/-- The `for` loop of `notifyEventObservers` from index `i` on, with `remaining`
iterations to go: each call sits in its own `try` whose two handlers dump a diagnostic,
after which the loop goes on. -/
def notifyEventObserversFrom {A : Type} (code : Bodies P A) (_threadId : Nat)
    (listenerMethods listenersThis : Nat → Option Nat) (eventParameter : P) :
    Nat → Nat → Run P A → Run P A
  | 0, _, r => r
  | remaining + 1, i, r =>
    let r1 : Run P A :=
      { r with
        calls := r.calls ++ [Call.listener (listenerMethods i) (listenersThis i)
          eventParameter] }
    match code.listener (listenerMethods i) (listenersThis i) eventParameter with
    | none =>
      notifyEventObserversFrom code _threadId listenerMethods listenersThis eventParameter
        remaining (i + 1) r1
    | some (Thrown.stdException _) =>
      notifyEventObserversFrom code _threadId listenerMethods listenersThis eventParameter
        remaining (i + 1) r1
    | some (Thrown.other _) =>
      notifyEventObserversFrom code _threadId listenerMethods listenersThis eventParameter
        remaining (i + 1) r1

/-- Method `QueueEventDispatcher::notifyEventObservers(threadId, listenerMethods,
listenersThis, eventParameter)`; the bound of its loop is
`el.nListenerProcedureReferences`. -/
def notifyEventObservers {A : Type} (code : Bodies P A) (el : Registration)
    (threadId : Nat) (listenerMethods listenersThis : Nat → Option Nat)
    (eventParameter : P) (r : Run P A) : Run P A :=
  notifyEventObserversFrom code threadId listenerMethods listenersThis eventParameter
    el.nListenerProcedureReferences 0 r

/-- The `for` loop of `QueueEventLink::notifyEventListeners` from index `i` on: no
`try` here, an exception of a listener leaves the loop. -/
def notifyEventListenersFrom {A : Type} (code : Bodies P A) (el : Registration)
    (eventParameter : P) : Nat → Nat → Run P A → Run P A
  | 0, _, r => r
  | remaining + 1, i, r =>
    let r1 : Run P A :=
      { r with
        calls := r.calls ++ [Call.listener (el.listenerProcedureReferences i)
          (el.listenersThis i) eventParameter] }
    match code.listener (el.listenerProcedureReferences i) (el.listenersThis i)
        eventParameter with
    | none => notifyEventListenersFrom code el eventParameter remaining (i + 1) r1
    | some e => { r1 with thrown := some e }

/-- Method `QueueEventLink::notifyEventListeners(eventParameter)`. -/
def notifyEventListeners {A : Type} (code : Bodies P A) (el : Registration)
    (eventParameter : P) (r : Run P A) : Run P A :=
  notifyEventListenersFrom code el eventParameter el.nListenerProcedureReferences 0 r

/-- The call `el.releaseEvent(eventId)` of a loop, put on record. -/
def Run.afterReleaseEvent {A : Type} (r : Run P A) (eventId : Nat) : Run P A :=
  { r with
    world := { r.world with link := releaseEvent r.world.link eventId }
    calls := r.calls ++ [Call.releaseEvent eventId] }

/-- The run of a loop body right after `el.reserveEventForDispatching(dequeuedEvent)`
returned `eventId` and left the link as `s`. -/
def Run.afterReserve {A : Type} (w : World P A) (s : QueueEventLink P) (eventId : Nat) :
    Run P A :=
  { world := { w with link := s }
    calls := [Call.reserveEventForDispatching eventId]
    thrown := none }

/-- One pass of the `while (isActive)` body of
`dispatchZeroCopyListeneableAndConsumableAnswerlessEventsLoop(threadId, consumerThis)`:
parked in `reserveEventForDispatching`, or completed with the calls made and the
exception that left the body, if any. -/
def dispatchZeroCopyListeneableAndConsumableAnswerlessEventsLoop {A : Type}
    (code : Bodies P A) (el : Registration) (w : World P A) (threadId consumerThis : Nat) :
    Outcome (World P A) (List (Call P) × Option Thrown) :=
  match reserveEventForDispatching w.link with
  | Outcome.blocked s => Outcome.blocked { w with link := s }
  | Outcome.returned (eventId, dequeuedEvent) s =>
    let r := (((Run.afterReserve w s eventId).next
      (fun r => consumeAnswerlessEvent code threadId
        el.answerlessConsumerProcedureReference consumerThis
        (readElement r.world.link dequeuedEvent).eventParameter r)).next
      (fun r => notifyEventObservers code el threadId el.listenerProcedureReferences
        el.listenersThis (readElement r.world.link dequeuedEvent).eventParameter r)).next
      (fun r => r.afterReleaseEvent eventId)
    Outcome.returned (r.calls, r.thrown) r.world

/-- One pass of the body of
`dispatchZeroCopyListeneableAndConsumableAnswerfullEventsLoop(threadId, consumerThis)`. -/
def dispatchZeroCopyListeneableAndConsumableAnswerfullEventsLoop {A : Type}
    (code : Bodies P A) (el : Registration) (w : World P A) (threadId consumerThis : Nat) :
    Outcome (World P A) (List (Call P) × Option Thrown) :=
  match reserveEventForDispatching w.link with
  | Outcome.blocked s => Outcome.blocked { w with link := s }
  | Outcome.returned (eventId, dequeuedEvent) s =>
    let r := (((Run.afterReserve w s eventId).next
      (fun r => r.afterConsumeAnswerfullEvent code threadId
        el.answerfullConsumerProcedureReference consumerThis dequeuedEvent)).next
      (fun r => notifyEventObservers code el threadId el.listenerProcedureReferences
        el.listenersThis (readElement r.world.link dequeuedEvent).eventParameter r)).next
      (fun r => r.afterReleaseEvent eventId)
    Outcome.returned (r.calls, r.thrown) r.world

/-- One pass of the body of
`dispatchZeroCopyConsumableAnswerlessEventsLoop(threadId, consumerThis)`. -/
def dispatchZeroCopyConsumableAnswerlessEventsLoop {A : Type}
    (code : Bodies P A) (el : Registration) (w : World P A) (threadId consumerThis : Nat) :
    Outcome (World P A) (List (Call P) × Option Thrown) :=
  match reserveEventForDispatching w.link with
  | Outcome.blocked s => Outcome.blocked { w with link := s }
  | Outcome.returned (eventId, dequeuedEvent) s =>
    let r := ((Run.afterReserve w s eventId).next
      (fun r => consumeAnswerlessEvent code threadId
        el.answerlessConsumerProcedureReference consumerThis
        (readElement r.world.link dequeuedEvent).eventParameter r)).next
      (fun r => r.afterReleaseEvent eventId)
    Outcome.returned (r.calls, r.thrown) r.world

/-- One pass of the body of
`dispatchZeroCopyConsumableAnswerfullEventsLoop(threadId, consumerThis)`. -/
def dispatchZeroCopyConsumableAnswerfullEventsLoop {A : Type}
    (code : Bodies P A) (el : Registration) (w : World P A) (threadId consumerThis : Nat) :
    Outcome (World P A) (List (Call P) × Option Thrown) :=
  match reserveEventForDispatching w.link with
  | Outcome.blocked s => Outcome.blocked { w with link := s }
  | Outcome.returned (eventId, dequeuedEvent) s =>
    let r := ((Run.afterReserve w s eventId).next
      (fun r => r.afterConsumeAnswerfullEvent code threadId
        el.answerfullConsumerProcedureReference consumerThis dequeuedEvent)).next
      (fun r => r.afterReleaseEvent eventId)
    Outcome.returned (r.calls, r.thrown) r.world

/-- One pass of the body of `dispatchZeroCopyListeneableEventsLoop(threadId)`. -/
def dispatchZeroCopyListeneableEventsLoop {A : Type}
    (code : Bodies P A) (el : Registration) (w : World P A) (threadId : Nat) :
    Outcome (World P A) (List (Call P) × Option Thrown) :=
  match reserveEventForDispatching w.link with
  | Outcome.blocked s => Outcome.blocked { w with link := s }
  | Outcome.returned (eventId, dequeuedEvent) s =>
    let r := ((Run.afterReserve w s eventId).next
      (fun r => notifyEventObservers code el threadId el.listenerProcedureReferences
        el.listenersThis (readElement r.world.link dequeuedEvent).eventParameter r)).next
      (fun r => r.afterReleaseEvent eventId)
    Outcome.returned (r.calls, r.thrown) r.world

/-- One pass of the loop a worker thread was started with. -/
def loopPass {A : Type} (loop : WorkerLoop) (code : Bodies P A)
    (el : Registration) (w : World P A) (threadId consumerThis : Nat) :
    Outcome (World P A) (List (Call P) × Option Thrown) :=
  match loop with
  | WorkerLoop.dispatchZeroCopyListeneableAndConsumableAnswerlessEventsLoop =>
    dispatchZeroCopyListeneableAndConsumableAnswerlessEventsLoop code el w threadId
      consumerThis
  | WorkerLoop.dispatchZeroCopyListeneableAndConsumableAnswerfullEventsLoop =>
    dispatchZeroCopyListeneableAndConsumableAnswerfullEventsLoop code el w threadId
      consumerThis
  | WorkerLoop.dispatchZeroCopyConsumableAnswerlessEventsLoop =>
    dispatchZeroCopyConsumableAnswerlessEventsLoop code el w threadId consumerThis
  | WorkerLoop.dispatchZeroCopyConsumableAnswerfullEventsLoop =>
    dispatchZeroCopyConsumableAnswerfullEventsLoop code el w threadId consumerThis
  | WorkerLoop.dispatchZeroCopyListeneableEventsLoop =>
    dispatchZeroCopyListeneableEventsLoop code el w threadId

/-- A producer's three steps for one event: reserve with the given answer pointer, fill
the parameter in place, commit.  On a full ring the reserve parks and nothing else
happens. -/
def World.produce {A : Type} (w : World P A) (answerObjectReference : Option Nat)
    (eventParameter : P) : World P A :=
  match reserveEventForReporting w.link answerObjectReference with
  | Outcome.blocked s => { w with link := s }
  | Outcome.returned r s =>
    { w with link := reportReservedEvent (writeParameter s r.2 eventParameter) r.1 }

/-- Passes of a worker loop one after the other, as long as none parks, with the calls
of all passes in order. -/
def loopPasses {A : Type} (loop : WorkerLoop) (code : Bodies P A)
    (el : Registration) (threadId consumerThis : Nat) :
    Nat → World P A → List (Call P) → World P A × List (Call P)
  | 0, w, calls => (w, calls)
  | n + 1, w, calls =>
    match loopPass loop code el w threadId consumerThis with
    | Outcome.blocked w1 => (w1, calls)
    | Outcome.returned r w1 =>
      loopPasses loop code el threadId consumerThis n w1 (calls ++ r.1)

/-- The function called and the parameter it was handed, for the calls that observe an
event. -/
def Call.observed : Call P → Option (Option Nat × P)
  | Call.answerlessConsumer consumerMethod _ eventParameter =>
    some (consumerMethod, eventParameter)
  | Call.answerfullConsumer consumerMethod _ eventParameter _ =>
    some (consumerMethod, eventParameter)
  | Call.listener listenerMethod _ eventParameter => some (listenerMethod, eventParameter)
  | _ => none

/-- The parameters the function at `method` was handed, in the order of the calls. -/
def observedBy (method : Nat) (calls : List (Call P)) : List P :=
  (calls.filterMap Call.observed).filterMap
    (fun o => if o.1 = some method then some o.2 else none)

/-- A link with the answerless consumer `1` (object `100`) and the listeners `11`, `12`
and `13` (objects `111`, `112`, `113`) registered in this order. -/
def threeListeners : Registration :=
  match addListeners 8 (setAnswerlessConsumer Registration.new (some 1) (some 100))
      [(some 11, some 111), (some 12, some 112), (some 13, some 113)] with
  | Attempt.returned _ r => r
  | _ => Registration.new

/-- Bodies in which the consumer throws a non-standard value on odd parameters, listener
`11` always throws a standard exception and listener `12` throws a non-standard value
on even parameters; every other function returns. -/
def faultyBodies : Bodies Nat Nat where
  answerlessConsumer := fun _ _ p => if p % 2 = 1 then some (Thrown.other p) else none
  answerfullConsumer := fun _ => throwingConsumer (Thrown.stdException 0)
  listener := fun method _ p =>
    if method = some 11 then some (Thrown.stdException p)
    else if method = some 12 ∧ p % 2 = 0 then some (Thrown.other p)
    else none

/-- Ten events with the parameters `0` to `9` produced on a fresh link, oldest first. -/
def tenEvents : World Nat Nat :=
  (List.range 10).foldl (fun w k => w.produce none k) (World.new (fun _ => 0) 0)

/-- The calls one worker of the notify-and-consume-answerless loop makes in ten passes
over `tenEvents`. -/
def fanOut : List (Call Nat) :=
  (loopPasses
    WorkerLoop.dispatchZeroCopyListeneableAndConsumableAnswerlessEventsLoop
    faultyBodies threeListeners 0 100 10 tenEvents []).2

/-- The mutexes of a link: `queueGuard`, the two gate mutexes, and the `answerMutex` of
a slot. -/
inductive Mutex where
  | queueGuard
  | reservationGuard
  | dequeueGuard
  | answerMutex (slot : Nat)
  deriving DecidableEq, Repr

/-- The four indices of the ring. -/
inductive Index where
  | queueHead
  | queueTail
  | queueReservedHead
  | queueReservedTail
  deriving DecidableEq, Repr

/-- What one thread does to the mutexes, the indices and `reservations` while it runs a
piece of code, statement by statement: `lock()`, `try_lock()` with its result,
`unlock()`, an assignment to an index, an assignment to `reservations[slot]`. -/
inductive Access where
  | lock (m : Mutex)
  | try_lock (m : Mutex) (acquired : Bool)
  | unlock (m : Mutex)
  | writeIndex (index : Index) (value : Nat)
  | writeReservation (slot : Nat) (value : Bool)
  deriving DecidableEq, Repr

/-- The mutex a gate pointer points to. -/
def GuardRef.mutex : GuardRef → Mutex
  | GuardRef.reservationGuard => Mutex.reservationGuard
  | GuardRef.dequeueGuard => Mutex.dequeueGuard

/-- Statements `if (guard) guard->unlock();` on the pointer taken out of a gate cell. -/
def unlockGuardAccesses : Option GuardRef → List Access
  | none => []
  | some g => [Access.unlock g.mutex]

/-- Lines 163-178 of `reserveEventForReporting`, statement by statement. -/
def claimReportingSlotAccesses (s : QueueEventLink P) (answerObjectReference : Option Nat) :
    List Access :=
  [Access.writeIndex Index.queueReservedTail (SETMODINC (fun i => i) s.queueReservedTail).2,
    Access.writeReservation (SETMODINC (fun i => i) s.queueReservedTail).1 true]
  ++ (if answerObjectReference ≠ none then
      [Access.try_lock (Mutex.answerMutex (SETMODINC (fun i => i) s.queueReservedTail).1)
        (!(s.events (SETMODINC (fun i => i) s.queueReservedTail).1).answerMutex)]
    else [])
  ++ [Access.unlock Mutex.queueGuard]

/-- Method `reserveEventForReporting`, statement by statement, from `FULL_QUEUE_RETRY:`
to its `return` or to the `reservationGuard.lock()` on which it parks. -/
def reserveEventForReportingAccesses (s : QueueEventLink P)
    (answerObjectReference : Option Nat) : List Access :=
  Access.lock Mutex.queueGuard ::
    (if ((s.queueReservedTail + 1) &&& 0xFF) = s.queueReservedHead then
      if s.reservations s.queueReservedHead = true ∨ s.queueReservedHead = s.queueHead then
        (if s.fullGuard = none then [Access.lock Mutex.reservationGuard] else [])
        ++ [Access.unlock Mutex.queueGuard, Access.lock Mutex.reservationGuard]
      else
        Access.writeIndex Index.queueReservedHead (MODINC s.queueReservedHead) ::
          claimReportingSlotAccesses s answerObjectReference
    else
      claimReportingSlotAccesses s answerObjectReference)

/-- Method `reportReservedEvent(eventId)`, statement by statement; the `lock_guard`
locks `queueGuard` first and unlocks it when the body is left. -/
def reportReservedEventAccesses (s : QueueEventLink P) (eventId : Nat) : List Access :=
  [Access.lock Mutex.queueGuard,
    Access.writeReservation (toQueueSlotsType eventId) false]
  ++ (if toQueueSlotsType eventId = s.queueTail then
      Access.writeIndex Index.queueTail (MODINC s.queueTail) ::
        unlockGuardAccesses s.emptyGuard
    else [])
  ++ [Access.unlock Mutex.queueGuard]

/-- Lines 228-235 of `reserveEventForDispatching`, statement by statement. -/
def claimDispatchingSlotAccesses (s : QueueEventLink P) : List Access :=
  [Access.writeIndex Index.queueHead (SETMODINC toQueueSlotsType s.queueHead).2,
    Access.writeReservation (SETMODINC toQueueSlotsType s.queueHead).1 true,
    Access.unlock Mutex.queueGuard]

/-- Method `reserveEventForDispatching`, statement by statement, from
`EMPTY_QUEUE_RETRY:` to its `return` or to the `dequeueGuard.lock()` on which it
parks. -/
def reserveEventForDispatchingAccesses (s : QueueEventLink P) : List Access :=
  Access.lock Mutex.queueGuard ::
    (if s.queueHead = s.queueTail then
      if s.reservations s.queueTail = true ∨ s.queueTail = s.queueReservedTail then
        (if s.emptyGuard = none then [Access.lock Mutex.dequeueGuard] else [])
        ++ [Access.unlock Mutex.queueGuard, Access.lock Mutex.dequeueGuard]
      else
        Access.writeIndex Index.queueTail (MODINC s.queueTail) ::
          claimDispatchingSlotAccesses s
    else
      claimDispatchingSlotAccesses s)

/-- Method `releaseEvent(eventId)`, statement by statement. -/
def releaseEventAccesses (s : QueueEventLink P) (eventId : Nat) : List Access :=
  [Access.lock Mutex.queueGuard,
    Access.writeReservation (toQueueSlotsType eventId) false]
  ++ (if toQueueSlotsType eventId = s.queueReservedHead then
      Access.writeIndex Index.queueReservedHead (MODINC s.queueReservedHead) ::
        unlockGuardAccesses s.fullGuard
    else [])
  ++ [Access.unlock Mutex.queueGuard]

/-- Method `QueueEventDispatcher::isMutexLocked(m)`, statement by statement, for a
mutex found locked or not: `m.try_lock()`, followed by `m.unlock()` when it succeeded. -/
def isMutexLockedAccesses (m : Mutex) (locked : Bool) : List Access :=
  Access.try_lock m (!locked) :: (if locked then [] else [Access.unlock m])

/-- Body of the loop over `guardMutexes` in the destructor of `QueueEventDispatcher`,
for one guard found locked or not: the four assignments to the indices, then the test
`isMutexLocked` and the `unlock()` of a guard found locked.  (The assignments to
`isFull` and `isEmpty`, members that the `QueueEventLink.h` at hand does not have, are
left out.) -/
def sweepGuardAccesses (m : Mutex) (locked : Bool) : List Access :=
  [Access.writeIndex Index.queueHead 0, Access.writeIndex Index.queueTail 1,
    Access.writeIndex Index.queueReservedHead 0, Access.writeIndex Index.queueReservedTail 1]
  ++ isMutexLockedAccesses m locked
  ++ (if locked then [Access.unlock m] else [])

/-- The loop over `guardMutexes = {&el.reservationGuard, &el.dequeueGuard,
&el.queueGuard}` of one pass of the destructor's sweep, `locked` telling how each guard
is found. -/
def sweepAccesses (locked : Mutex → Bool) : List Access :=
  sweepGuardAccesses Mutex.reservationGuard (locked Mutex.reservationGuard)
  ++ sweepGuardAccesses Mutex.dequeueGuard (locked Mutex.dequeueGuard)
  ++ sweepGuardAccesses Mutex.queueGuard (locked Mutex.queueGuard)

/-- Effect of one access on the indices and on `reservations`. -/
def Access.effect (s : QueueEventLink P) : Access → QueueEventLink P
  | Access.writeIndex Index.queueHead value => { s with queueHead := value }
  | Access.writeIndex Index.queueTail value => { s with queueTail := value }
  | Access.writeIndex Index.queueReservedHead value => { s with queueReservedHead := value }
  | Access.writeIndex Index.queueReservedTail value => { s with queueReservedTail := value }
  | Access.writeReservation slot value =>
    { s with reservations := Function.update s.reservations slot value }
  | _ => s

/-- Effect of a list of accesses on the indices and on `reservations`. -/
def replay (s : QueueEventLink P) (accesses : List Access) : QueueEventLink P :=
  accesses.foldl Access.effect s

/-- Two link states with the same four indices and the same `reservations`. -/
def sameRing (s s2 : QueueEventLink P) : Prop :=
  s.queueHead = s2.queueHead ∧ s.queueTail = s2.queueTail ∧
  s.queueReservedHead = s2.queueReservedHead ∧
  s.queueReservedTail = s2.queueReservedTail ∧ s.reservations = s2.reservations

/-- Lock discipline of a list of accesses made by one thread: every assignment to an
index or to `reservations` comes while the thread holds `queueGuard`, `held` telling
whether it holds it at the start. -/
def writesUnderQueueGuard : Bool → List Access → Bool
  | _, [] => true
  | held, Access.lock m :: rest =>
    writesUnderQueueGuard (held || decide (m = Mutex.queueGuard)) rest
  | held, Access.try_lock m acquired :: rest =>
    writesUnderQueueGuard (held || (acquired && decide (m = Mutex.queueGuard))) rest
  | held, Access.unlock m :: rest =>
    writesUnderQueueGuard (held && !decide (m = Mutex.queueGuard)) rest
  | held, Access.writeIndex _ _ :: rest => held && writesUnderQueueGuard held rest
  | held, Access.writeReservation _ _ :: rest => held && writesUnderQueueGuard held rest

/-- Assignments `el.queueHead = 0; el.queueTail = 1; el.queueReservedHead = 0;
el.queueReservedTail = 1;` of the destructor's sweep, on the link. -/
def sweepReset (s : QueueEventLink P) : QueueEventLink P :=
  { s with queueHead := 0, queueTail := 1, queueReservedHead := 0, queueReservedTail := 1 }
/-- The two gates are consistent: a non-null `fullGuard` holds `&reservationGuard` with
`reservationGuard` locked, and a non-null `emptyGuard` holds `&dequeueGuard` with
`dequeueGuard` locked. -/
def GateInv (s : QueueEventLink P) : Prop :=
  (s.fullGuard = none ∨
    (s.fullGuard = some GuardRef.reservationGuard ∧ s.reservationGuard = true)) ∧
  (s.emptyGuard = none ∨
    (s.emptyGuard = some GuardRef.dequeueGuard ∧ s.dequeueGuard = true))

/-- A call on the listener registry of a link. -/
inductive RegistryOp where
  | addListener (listenerProcedureReference listenerThis : Option Nat)
  | removeListener (listenerProcedureReference : Nat)
  deriving DecidableEq, Repr

/-- The registration one call leaves, whether the call succeeded, threw or returned
`false`. -/
def Registration.after (memcpy : Memcpy) (_NListeners : Nat) (r : Registration) :
    RegistryOp → Registration
  | RegistryOp.addListener listenerProcedureReference listenerThis =>
    match addListener _NListeners r listenerProcedureReference listenerThis with
    | Attempt.threw _ r2 => r2
    | Attempt.blocked r2 => r2
    | Attempt.returned _ r2 => r2
  | RegistryOp.removeListener listenerProcedureReference =>
    (removeListener memcpy r listenerProcedureReference).2

theorem land_255 (x : Nat) : x &&& 255 = x % 256 :=
  Nat.and_pow_two_sub_one_eq_mod x 8

theorem modinc_eq (i : Nat) : MODINC i = (i + 1) % 256 := by
  unfold MODINC
  exact land_255 (i + 1)

theorem modinc_lt (i : Nat) : MODINC i < 256 := by
  rw [modinc_eq]
  omega

theorem Phase.code_free (p : Phase) : p.code = 0 ↔ p = Phase.free := by
  cases p <;> simp [Phase.code]

theorem Phase.code_reservedForProduce (p : Phase) :
    p.code = 1 ↔ p = Phase.reservedForProduce := by
  cases p <;> simp [Phase.code]

theorem Phase.code_committed (p : Phase) : p.code = 2 ↔ p = Phase.committed := by
  cases p <;> simp [Phase.code]

theorem Phase.code_reservedForDispatch (p : Phase) :
    p.code = 3 ↔ p = Phase.reservedForDispatch := by
  cases p <;> simp [Phase.code]

theorem Phase.code_le (p : Phase) : p.code ≤ 3 := by
  cases p <;> simp [Phase.code]

theorem toNat_true_iff (b : Bool) : b.toNat = 1 ↔ b = true := by
  cases b <;> simp

theorem toNat_false_iff (b : Bool) : b.toNat = 0 ↔ b = false := by
  cases b <;> simp

theorem toNat_le_one (b : Bool) : b.toNat ≤ 1 := by
  cases b <;> simp

theorem off_inj (b k1 k2 : Nat) (h1 : k1 < 256) (h2 : k2 < 256) :
    (b + k1) % 256 = (b + k2) % 256 ↔ k1 = k2 := by
  omega

theorem off_exists (b i : Nat) (hb : b < 256) (hi : i < 256) :
    ∃ k, k < 256 ∧ (b + k) % 256 = i :=
  ⟨(i + 256 - b) % 256, by omega, by omega⟩

theorem off_succ (b k : Nat) : ((b + 1) % 256 + k) % 256 = (b + (k + 1)) % 256 := by
  omega

@[simp]
theorem unlockGuard_queueHead (s : QueueEventLink P) (g : Option GuardRef) :
    (unlockGuard s g).queueHead = s.queueHead := by
  rcases g with _ | g
  · rfl
  · cases g <;> rfl

@[simp]
theorem unlockGuard_queueTail (s : QueueEventLink P) (g : Option GuardRef) :
    (unlockGuard s g).queueTail = s.queueTail := by
  rcases g with _ | g
  · rfl
  · cases g <;> rfl

@[simp]
theorem unlockGuard_queueReservedHead (s : QueueEventLink P) (g : Option GuardRef) :
    (unlockGuard s g).queueReservedHead = s.queueReservedHead := by
  rcases g with _ | g
  · rfl
  · cases g <;> rfl

@[simp]
theorem unlockGuard_queueReservedTail (s : QueueEventLink P) (g : Option GuardRef) :
    (unlockGuard s g).queueReservedTail = s.queueReservedTail := by
  rcases g with _ | g
  · rfl
  · cases g <;> rfl

@[simp]
theorem unlockGuard_reservations (s : QueueEventLink P) (g : Option GuardRef) :
    (unlockGuard s g).reservations = s.reservations := by
  rcases g with _ | g
  · rfl
  · cases g <;> rfl

@[simp]
theorem unlockGuard_events (s : QueueEventLink P) (g : Option GuardRef) :
    (unlockGuard s g).events = s.events := by
  rcases g with _ | g
  · rfl
  · cases g <;> rfl

/-! ## Effect of each operation, field by field -/

@[simp]
theorem reportReservedEvent_queueHead (s : QueueEventLink P) (eventId : Nat) :
    (reportReservedEvent s eventId).queueHead = s.queueHead := by
  simp only [reportReservedEvent, toQueueSlotsType]
  split_ifs <;> simp

@[simp]
theorem reportReservedEvent_queueReservedHead (s : QueueEventLink P) (eventId : Nat) :
    (reportReservedEvent s eventId).queueReservedHead = s.queueReservedHead := by
  simp only [reportReservedEvent, toQueueSlotsType]
  split_ifs <;> simp

@[simp]
theorem reportReservedEvent_queueReservedTail (s : QueueEventLink P) (eventId : Nat) :
    (reportReservedEvent s eventId).queueReservedTail = s.queueReservedTail := by
  simp only [reportReservedEvent, toQueueSlotsType]
  split_ifs <;> simp

@[simp]
theorem reportReservedEvent_reservations (s : QueueEventLink P) (eventId : Nat) :
    (reportReservedEvent s eventId).reservations
      = Function.update s.reservations (eventId % 256) false := by
  simp only [reportReservedEvent, toQueueSlotsType]
  split_ifs <;> simp

@[simp]
theorem reportReservedEvent_events (s : QueueEventLink P) (eventId : Nat) :
    (reportReservedEvent s eventId).events = s.events := by
  simp only [reportReservedEvent, toQueueSlotsType]
  split_ifs <;> simp

theorem reportReservedEvent_queueTail (s : QueueEventLink P) (eventId : Nat) :
    (reportReservedEvent s eventId).queueTail
      = if eventId % 256 = s.queueTail then (s.queueTail + 1) % 256
        else s.queueTail := by
  simp only [reportReservedEvent, toQueueSlotsType]
  split_ifs <;> simp [modinc_eq]

@[simp]
theorem releaseEvent_queueHead (s : QueueEventLink P) (eventId : Nat) :
    (releaseEvent s eventId).queueHead = s.queueHead := by
  simp only [releaseEvent, toQueueSlotsType]
  split_ifs <;> simp

@[simp]
theorem releaseEvent_queueTail (s : QueueEventLink P) (eventId : Nat) :
    (releaseEvent s eventId).queueTail = s.queueTail := by
  simp only [releaseEvent, toQueueSlotsType]
  split_ifs <;> simp

@[simp]
theorem releaseEvent_queueReservedTail (s : QueueEventLink P) (eventId : Nat) :
    (releaseEvent s eventId).queueReservedTail = s.queueReservedTail := by
  simp only [releaseEvent, toQueueSlotsType]
  split_ifs <;> simp

@[simp]
theorem releaseEvent_reservations (s : QueueEventLink P) (eventId : Nat) :
    (releaseEvent s eventId).reservations
      = Function.update s.reservations (eventId % 256) false := by
  simp only [releaseEvent, toQueueSlotsType]
  split_ifs <;> simp

@[simp]
theorem releaseEvent_events (s : QueueEventLink P) (eventId : Nat) :
    (releaseEvent s eventId).events = s.events := by
  simp only [releaseEvent, toQueueSlotsType]
  split_ifs <;> simp

theorem releaseEvent_queueReservedHead (s : QueueEventLink P) (eventId : Nat) :
    (releaseEvent s eventId).queueReservedHead
      = if eventId % 256 = s.queueReservedHead then (s.queueReservedHead + 1) % 256
        else s.queueReservedHead := by
  simp only [releaseEvent, toQueueSlotsType]
  split_ifs <;> simp [modinc_eq]

theorem reserveEventForReporting_blocked (s : QueueEventLink P) (a : Option Nat)
    (hb : reportingBlocks s) :
    reserveEventForReporting s a = Outcome.blocked { s with
      fullGuard := some GuardRef.reservationGuard
      reservationGuard := if s.fullGuard = none then true else s.reservationGuard } := by
  obtain ⟨h1, h2⟩ := hb
  rw [← land_255] at h1
  unfold reserveEventForReporting
  rw [if_pos h1, if_pos h2]

theorem reserveEventForReporting_returned (s : QueueEventLink P) (a : Option Nat)
    (hb : ¬ reportingBlocks s) :
    ∃ s2, reserveEventForReporting s a
        = Outcome.returned (s.queueReservedTail, { slot := s.queueReservedTail }) s2 ∧
      s2.queueReservedTail = (s.queueReservedTail + 1) % 256 ∧
      s2.queueReservedHead
        = (if (s.queueReservedTail + 1) % 256 = s.queueReservedHead
            then (s.queueReservedHead + 1) % 256 else s.queueReservedHead) ∧
      s2.queueHead = s.queueHead ∧ s2.queueTail = s.queueTail ∧
      s2.reservations = Function.update s.reservations s.queueReservedTail true ∧
      s2.events = Function.update s.events s.queueReservedTail
        { answerObjectReference := a
          eventParameter := (s.events s.queueReservedTail).eventParameter
          answerMutex := if a ≠ none then true
            else (s.events s.queueReservedTail).answerMutex } ∧
      s2.fullGuard = s.fullGuard ∧ s2.emptyGuard = s.emptyGuard ∧
      s2.reservationGuard = s.reservationGuard ∧ s2.dequeueGuard = s.dequeueGuard := by
  unfold reportingBlocks at hb
  rw [← land_255] at hb
  unfold reserveEventForReporting
  by_cases h1 : (s.queueReservedTail + 1) &&& 255 = s.queueReservedHead
  · have h2 : ¬ (s.reservations s.queueReservedHead = true ∨
        s.queueReservedHead = s.queueHead) := fun h2 => hb ⟨h1, h2⟩
    rw [if_pos h1, if_neg h2]
    refine ⟨_, rfl, ?_⟩
    rw [land_255] at h1
    simp [SETMODINC, modinc_eq, land_255, h1]
  · rw [if_neg h1]
    refine ⟨_, rfl, ?_⟩
    rw [land_255] at h1
    simp [SETMODINC, land_255, h1]

theorem reserveEventForDispatching_blocked (s : QueueEventLink P)
    (hb : dispatchingBlocks s) :
    reserveEventForDispatching s = Outcome.blocked { s with
      emptyGuard := some GuardRef.dequeueGuard
      dequeueGuard := if s.emptyGuard = none then true else s.dequeueGuard } := by
  obtain ⟨h1, h2⟩ := hb
  unfold reserveEventForDispatching
  rw [if_pos h1, if_pos h2]

theorem reserveEventForDispatching_returned (s : QueueEventLink P)
    (hb : ¬ dispatchingBlocks s) :
    ∃ s2, reserveEventForDispatching s
        = Outcome.returned (s.queueHead % 256, { slot := s.queueHead % 256 }) s2 ∧
      s2.queueHead = (s.queueHead % 256 + 1) % 256 ∧
      s2.queueTail
        = (if s.queueHead = s.queueTail then (s.queueTail + 1) % 256 else s.queueTail) ∧
      s2.queueReservedHead = s.queueReservedHead ∧
      s2.queueReservedTail = s.queueReservedTail ∧
      s2.reservations = Function.update s.reservations (s.queueHead % 256) true ∧
      s2.events = s.events ∧
      s2.fullGuard = s.fullGuard ∧ s2.emptyGuard = s.emptyGuard ∧
      s2.reservationGuard = s.reservationGuard ∧ s2.dequeueGuard = s.dequeueGuard := by
  unfold dispatchingBlocks at hb
  unfold reserveEventForDispatching
  by_cases h1 : s.queueHead = s.queueTail
  · have h2 : ¬ (s.reservations s.queueTail = true ∨
        s.queueTail = s.queueReservedTail) := fun h2 => hb ⟨h1, h2⟩
    rw [if_pos h1, if_neg h2]
    refine ⟨_, rfl, ?_⟩
    simp [SETMODINC, toQueueSlotsType, modinc_eq, land_255, h1]
  · rw [if_neg h1]
    refine ⟨_, rfl, ?_⟩
    simp [SETMODINC, toQueueSlotsType, land_255, h1]

/-! ## Preservation of the ring invariant -/

theorem Inv.new (payload : Nat → P) : Inv (Tracked.new payload) := by
  refine ⟨0, 0, 0, ?_⟩
  refine ⟨?_, ?_, ?_, ?_, ?_, ?_, ?_, ?_, ?_⟩ <;>
    simp [Tracked.new, QueueEventLink.new, Phase.code]

theorem ZoneInv.lt_of_code {t : Tracked P} {oh ot oT : Nat} (h : ZoneInv t oh ot oT)
    (i : Nat) (hc : (t.phase i).code ≠ 0) : i < 256 := by
  by_contra hge
  exact hc (h.beyond i (by omega)).1

/-- Moving `queueReservedHead` one step forward over a free slot keeps the invariant,
with every distance one shorter. -/
theorem ZoneInv.shift {t u : Tracked P} {oh ot oT : Nat} (h : ZoneInv t oh ot oT)
    (hoh : 1 ≤ oh)
    (hfree : (t.phase t.link.queueReservedHead).code = 0)
    (hclear : (t.link.reservations t.link.queueReservedHead).toNat = 0)
    (hphase : u.phase = t.phase)
    (hres : u.link.reservations = t.link.reservations)
    (hrh : u.link.queueReservedHead = (t.link.queueReservedHead + 1) % 256)
    (hh : u.link.queueHead = t.link.queueHead)
    (ht : u.link.queueTail = t.link.queueTail)
    (hrt : u.link.queueReservedTail = t.link.queueReservedTail) :
    ZoneInv u (oh - 1) (ot - 1) (oT - 1) := by
  obtain ⟨l1, l2, l3, hRH, eH, eT, eR, big, slots⟩ := h
  refine ⟨by omega, by omega, by omega, by omega, ?_, ?_, ?_, ?_, ?_⟩
  · rw [hh, hrh, eH]; omega
  · rw [ht, hrh, eT]; omega
  · rw [hrt, hrh, eR]; omega
  · rw [hphase, hres]; exact big
  · intro k hk
    rw [hphase, hres, hrh, off_succ]
    by_cases hk2 : k = 255
    · subst hk2
      have e0 : (t.link.queueReservedHead + (255 + 1)) % 256 = t.link.queueReservedHead := by
        omega
      rw [e0]
      omega
    · have hs := slots (k + 1) (by omega)
      omega

/-- Changing the phase and flag of the slot at distance `k`, while the three
distances move across no other slot, keeps the invariant when the new phase and flag
fit the zone the slot ends up in. -/
theorem ZoneInv.update {t u : Tracked P} {oh ot oT : Nat} (h : ZoneInv t oh ot oT)
    (k : Nat) (hk : k < 256) (ph : Phase) (b : Bool) (oh2 ot2 oT2 : Nat)
    (hphase : u.phase = Function.update t.phase ((t.link.queueReservedHead + k) % 256) ph)
    (hres : u.link.reservations
      = Function.update t.link.reservations ((t.link.queueReservedHead + k) % 256) b)
    (hrh : u.link.queueReservedHead = t.link.queueReservedHead)
    (hh : u.link.queueHead = (t.link.queueReservedHead + oh2) % 256)
    (ht : u.link.queueTail = (t.link.queueReservedHead + ot2) % 256)
    (hrt : u.link.queueReservedTail = (t.link.queueReservedHead + oT2) % 256)
    (l1 : oh2 ≤ ot2) (l2 : ot2 ≤ oT2) (l3 : oT2 ≤ 255)
    (hsame : ∀ j, j ≠ k → ((j < oh2 ↔ j < oh) ∧ (j < ot2 ↔ j < ot) ∧ (j < oT2 ↔ j < oT)))
    (hnew : (k < oh2 → (ph.code = 3 ∧ b.toNat = 1) ∨ (ph.code = 0 ∧ b.toNat = 0)) ∧
      (oh2 ≤ k → k < ot2 → ph.code = 2 ∧ b.toNat = 0) ∧
      (ot2 ≤ k → k < oT2 → (ph.code = 1 ∧ b.toNat = 1) ∨ (ph.code = 2 ∧ b.toNat = 0)) ∧
      (oT2 ≤ k → ph.code = 0 ∧ b.toNat = 0)) :
    ZoneInv u oh2 ot2 oT2 := by
  obtain ⟨_, _, _, hRH, eH, eT, eR, big, slots⟩ := h
  refine ⟨l1, l2, l3, by omega, ?_, ?_, ?_, ?_, ?_⟩
  · rw [hh, hrh]
  · rw [ht, hrh]
  · rw [hrt, hrh]
  · intro i hi
    have hne : i ≠ (t.link.queueReservedHead + k) % 256 := by omega
    rw [hphase, hres, Function.update_noteq hne, Function.update_noteq hne]
    exact big i hi
  · intro j hj
    rw [hphase, hres, hrh]
    by_cases hjk : j = k
    · subst hjk
      rw [Function.update_same, Function.update_same]
      exact hnew
    · have hne : (t.link.queueReservedHead + j) % 256
          ≠ (t.link.queueReservedHead + k) % 256 :=
        fun he => hjk ((off_inj _ _ _ hj hk).1 he)
      rw [Function.update_noteq hne, Function.update_noteq hne]
      have hs := slots j hj
      have hz := hsame j hjk
      omega

/-- The invariant reads only the phases, the flags and the four indices. -/
theorem ZoneInv.congr {t u : Tracked P} {oh ot oT : Nat} (h : ZoneInv t oh ot oT)
    (hphase : u.phase = t.phase)
    (hres : u.link.reservations = t.link.reservations)
    (hrh : u.link.queueReservedHead = t.link.queueReservedHead)
    (hh : u.link.queueHead = t.link.queueHead)
    (ht : u.link.queueTail = t.link.queueTail)
    (hrt : u.link.queueReservedTail = t.link.queueReservedTail) :
    ZoneInv u oh ot oT := by
  obtain ⟨l1, l2, l3, hRH, eH, eT, eR, big, slots⟩ := h
  refine ⟨l1, l2, l3, ?_, ?_, ?_, ?_, ?_, ?_⟩
  · rw [hrh]; exact hRH
  · rw [hh, hrh]; exact eH
  · rw [ht, hrh]; exact eT
  · rw [hrt, hrh]; exact eR
  · rw [hphase, hres]; exact big
  · rw [hphase, hres, hrh]; exact slots

theorem step_reserve_blocked (t : Tracked P) (a : Option Nat)
    (hb : reportingBlocks t.link) :
    t.step (Op.reserve a) = { t with link := { t.link with
      fullGuard := some GuardRef.reservationGuard
      reservationGuard := if t.link.fullGuard = none then true
        else t.link.reservationGuard } } := by
  simp only [Tracked.step, reserveEventForReporting_blocked t.link a hb]

theorem step_reserve_returned (t : Tracked P) (a : Option Nat) (s2 : QueueEventLink P)
    (r : Nat × ParameterPointer)
    (hr : reserveEventForReporting t.link a = Outcome.returned r s2) :
    t.step (Op.reserve a) = { t with
      link := s2
      phase := Function.update t.phase r.1 Phase.reservedForProduce
      producing := t.producing ++ [r.1] } := by
  simp only [Tracked.step, hr]

theorem step_dispatch_blocked (t : Tracked P) (hb : dispatchingBlocks t.link) :
    t.step Op.dispatch = { t with link := { t.link with
      emptyGuard := some GuardRef.dequeueGuard
      dequeueGuard := if t.link.emptyGuard = none then true else t.link.dequeueGuard } } := by
  simp only [Tracked.step, reserveEventForDispatching_blocked t.link hb]

theorem step_dispatch_returned (t : Tracked P) (s2 : QueueEventLink P)
    (r : Nat × ElementPointer)
    (hr : reserveEventForDispatching t.link = Outcome.returned r s2) :
    t.step Op.dispatch = { t with
      link := s2
      phase := Function.update t.phase r.1 Phase.reservedForDispatch
      dispatching := t.dispatching ++ [r.1] } := by
  simp only [Tracked.step, hr]

/-- In a state satisfying the invariant, the slot at `queueReservedTail` is free
unless the ring holds 255 slots; when it holds 255 and the reservation is not
parked, the slot at `queueReservedHead` is free and `queueHead` is past it. -/
theorem ZoneInv.reserve_facts {t : Tracked P} {oh ot oT : Nat} (h : ZoneInv t oh ot oT) :
    ((t.link.queueReservedTail + 1) % 256 = t.link.queueReservedHead ↔ oT = 255) ∧
    (t.link.queueReservedHead = t.link.queueHead ↔ oh = 0) ∧
    (t.link.queueHead = t.link.queueTail ↔ oh = ot) ∧
    (t.link.queueTail = t.link.queueReservedTail ↔ ot = oT) := by
  obtain ⟨l1, l2, l3, hRH, eH, eT, eR, big, slots⟩ := h
  rw [eH, eT, eR]
  refine ⟨?_, ?_, ?_, ?_⟩
  · omega
  · omega
  · exact off_inj _ _ _ (by omega) (by omega)
  · exact off_inj _ _ _ (by omega) (by omega)

theorem Inv.reserve {t : Tracked P} (h : Inv t) (a : Option Nat) :
    Inv (t.step (Op.reserve a)) := by
  obtain ⟨oh, ot, oT, h⟩ := h
  obtain ⟨f1, f2, f3, f4⟩ := h.reserve_facts
  by_cases hb : reportingBlocks t.link
  · rw [step_reserve_blocked t a hb]
    exact ⟨oh, ot, oT, h.congr rfl rfl rfl rfl rfl rfl⟩
  · obtain ⟨s2, hr, e1, e2, e3, e4, e5, _⟩ := reserveEventForReporting_returned t.link a hb
    rw [step_reserve_returned t a s2 _ hr]
    have hRH := h.rhead_lt
    have eR := h.rtail_eq
    by_cases c1 : (t.link.queueReservedTail + 1) % 256 = t.link.queueReservedHead
    · have hoT : oT = 255 := f1.1 c1
      have hnb : ¬ (t.link.reservations t.link.queueReservedHead = true ∨
          t.link.queueReservedHead = t.link.queueHead) := fun hx => hb ⟨c1, hx⟩
      have hoh : 1 ≤ oh := by
        have : oh ≠ 0 := fun h0 => hnb (Or.inr (f2.2 h0))
        omega
      have hr0 : (t.link.reservations t.link.queueReservedHead).toNat = 0 := by
        rw [toNat_false_iff]
        cases hx : t.link.reservations t.link.queueReservedHead
        · rfl
        · exact absurd (Or.inl hx) hnb
      have hs0 := h.slot 0 (by omega)
      have e0 : (t.link.queueReservedHead + 0) % 256 = t.link.queueReservedHead := by omega
      rw [e0] at hs0
      have hc0 : (t.phase t.link.queueReservedHead).code = 0 := by omega
      have h1 : ZoneInv ({ t with link := { t.link with
          queueReservedHead := (t.link.queueReservedHead + 1) % 256 } } : Tracked P)
          (oh - 1) (ot - 1) (oT - 1) :=
        h.shift hoh hc0 hr0 rfl rfl rfl rfl rfl rfl
      refine ⟨oh - 1, ot - 1, 255, ?_⟩
      have hl1 := h.le_ht
      have hl2 := h.le_tr
      have hidx : t.link.queueReservedTail
          = ((t.link.queueReservedHead + 1) % 256 + 254) % 256 := by
        rw [eR, hoT]; omega
      refine h1.update 254 (by omega) Phase.reservedForProduce true (oh - 1) (ot - 1) 255
        ?_ ?_ ?_ ?_ ?_ ?_ (by omega) (by omega) (by omega) ?_ ?_
      · dsimp only
        rw [← hidx]
      · dsimp only
        rw [e5, ← hidx]
      · dsimp only
        rw [e2, if_pos c1]
      · dsimp only
        rw [e3, h.head_eq]; omega
      · dsimp only
        rw [e4, h.tail_eq]; omega
      · dsimp only
        rw [e1, eR, hoT]; omega
      · intro j hj; omega
      · refine ⟨fun _ => ?_, fun _ _ => ?_, fun _ _ => ?_, fun _ => ?_⟩ <;>
          first
        | exact Or.inl ⟨rfl, rfl⟩
        | exact Or.inr ⟨rfl, rfl⟩
        | exact ⟨rfl, rfl⟩
        | (exfalso; omega)
    · have hoT : oT ≠ 255 := fun hx => c1 (f1.2 hx)
      have hl3 := h.le_cap
      refine ⟨oh, ot, oT + 1, ?_⟩
      refine h.update oT (by omega) Phase.reservedForProduce true oh ot (oT + 1)
        ?_ ?_ ?_ ?_ ?_ ?_ h.le_ht (by have := h.le_tr; omega) (by omega) ?_ ?_
      · dsimp only
        rw [← eR]
      · dsimp only
        rw [e5, ← eR]
      · dsimp only
        rw [e2, if_neg c1]
      · dsimp only
        rw [e3, h.head_eq]
      · dsimp only
        rw [e4, h.tail_eq]
      · dsimp only
        rw [e1, eR]; omega
      · intro j hj; omega
      · have hl1 := h.le_ht
        have hl2 := h.le_tr
        refine ⟨fun _ => ?_, fun _ _ => ?_, fun _ _ => ?_, fun _ => ?_⟩ <;>
          first
          | exact Or.inl ⟨rfl, rfl⟩
          | exact Or.inr ⟨rfl, rfl⟩
          | exact ⟨rfl, rfl⟩
          | (exfalso; omega)

theorem Inv.dispatch {t : Tracked P} (h : Inv t) : Inv (t.step Op.dispatch) := by
  obtain ⟨oh, ot, oT, h⟩ := h
  obtain ⟨f1, f2, f3, f4⟩ := h.reserve_facts
  by_cases hb : dispatchingBlocks t.link
  · rw [step_dispatch_blocked t hb]
    exact ⟨oh, ot, oT, h.congr rfl rfl rfl rfl rfl rfl⟩
  · obtain ⟨s2, hr, e1, e2, e3, e4, e5, _⟩ := reserveEventForDispatching_returned t.link hb
    rw [step_dispatch_returned t s2 _ hr]
    have hRH := h.rhead_lt
    have eH := h.head_eq
    have eT := h.tail_eq
    have hl1 := h.le_ht
    have hl2 := h.le_tr
    have hl3 := h.le_cap
    have hidx : t.link.queueHead % 256 = (t.link.queueReservedHead + oh) % 256 := by
      rw [eH]; omega
    by_cases c1 : t.link.queueHead = t.link.queueTail
    · have hoh : oh = ot := f3.1 c1
      have hnb : ¬ (t.link.reservations t.link.queueTail = true ∨
          t.link.queueTail = t.link.queueReservedTail) := fun hx => hb ⟨c1, hx⟩
      have hot : ot ≠ oT := fun h0 => hnb (Or.inr (f4.2 h0))
      refine ⟨oh + 1, ot + 1, oT, ?_⟩
      refine h.update oh (by omega) Phase.reservedForDispatch true (oh + 1) (ot + 1) oT
        ?_ ?_ ?_ ?_ ?_ ?_ (by omega) (by omega) (by omega) ?_ ?_
      · dsimp only
        rw [hidx]
      · dsimp only
        rw [e5, hidx]
      · dsimp only
        rw [e3]
      · dsimp only
        rw [e1, eH]; omega
      · dsimp only
        rw [e2, if_pos c1, eT]; omega
      · dsimp only
        rw [e4, h.rtail_eq]
      · intro j hj; omega
      · refine ⟨fun _ => ?_, fun _ _ => ?_, fun _ _ => ?_, fun _ => ?_⟩ <;>
          first
          | exact Or.inl ⟨rfl, rfl⟩
          | exact Or.inr ⟨rfl, rfl⟩
          | exact ⟨rfl, rfl⟩
          | (exfalso; omega)
    · have hoh : oh ≠ ot := fun hx => c1 (f3.2 hx)
      refine ⟨oh + 1, ot, oT, ?_⟩
      refine h.update oh (by omega) Phase.reservedForDispatch true (oh + 1) ot oT
        ?_ ?_ ?_ ?_ ?_ ?_ (by omega) (by omega) (by omega) ?_ ?_
      · dsimp only
        rw [hidx]
      · dsimp only
        rw [e5, hidx]
      · dsimp only
        rw [e3]
      · dsimp only
        rw [e1, eH]; omega
      · dsimp only
        rw [e2, if_neg c1, eT]
      · dsimp only
        rw [e4, h.rtail_eq]
      · intro j hj; omega
      · refine ⟨fun _ => ?_, fun _ _ => ?_, fun _ _ => ?_, fun _ => ?_⟩ <;>
          first
          | exact Or.inl ⟨rfl, rfl⟩
          | exact Or.inr ⟨rfl, rfl⟩
          | exact ⟨rfl, rfl⟩
          | (exfalso; omega)

/-- A slot whose phase is not Free sits at some distance below 256 from
`queueReservedHead`, and the invariant holds for its phase and flag there. -/
theorem ZoneInv.locate {t : Tracked P} {oh ot oT : Nat} (h : ZoneInv t oh ot oT)
    (i : Nat) (hc : (t.phase i).code ≠ 0) :
    ∃ k, k < 256 ∧ (t.link.queueReservedHead + k) % 256 = i ∧
      (k < oh → ((t.phase i).code = 3 ∧ (t.link.reservations i).toNat = 1) ∨
        ((t.phase i).code = 0 ∧ (t.link.reservations i).toNat = 0)) ∧
      (oh ≤ k → k < ot → (t.phase i).code = 2 ∧ (t.link.reservations i).toNat = 0) ∧
      (ot ≤ k → k < oT → ((t.phase i).code = 1 ∧ (t.link.reservations i).toNat = 1) ∨
        ((t.phase i).code = 2 ∧ (t.link.reservations i).toNat = 0)) ∧
      (oT ≤ k → (t.phase i).code = 0 ∧ (t.link.reservations i).toNat = 0) := by
  have hid : i < 256 := h.lt_of_code i hc
  obtain ⟨k, hk, hki⟩ := off_exists _ _ h.rhead_lt hid
  have hs := h.slot k hk
  rw [hki] at hs
  exact ⟨k, hk, hki, hs⟩

theorem Inv.commit {t : Tracked P} (h : Inv t) (eventId : Nat)
    (ha : t.allows (Op.commit eventId) = true) : Inv (t.step (Op.commit eventId)) := by
  obtain ⟨oh, ot, oT, h⟩ := h
  simp only [Tracked.allows, decide_eq_true_eq] at ha
  have hc : (t.phase eventId).code = 1 := by rw [ha]; rfl
  obtain ⟨k, hk, hki, hs⟩ := h.locate eventId (by omega)
  have hmod : eventId % 256 = eventId := Nat.mod_eq_of_lt (h.lt_of_code eventId (by omega))
  have hRH := h.rhead_lt
  have eT := h.tail_eq
  have hl1 := h.le_ht
  have hl2 := h.le_tr
  have hl3 := h.le_cap
  by_cases c1 : eventId = t.link.queueTail
  · have hko : k = ot := by
      rw [eT, ← hki] at c1
      exact (off_inj _ _ _ hk (by omega)).1 c1
    refine ⟨oh, ot + 1, oT, ?_⟩
    refine h.update k hk Phase.committed false oh (ot + 1) oT
      ?_ ?_ ?_ ?_ ?_ ?_ (by omega) (by omega) (by omega) ?_ ?_
    · rw [hki]; rfl
    · rw [hki]; simp [Tracked.step, hmod]
    · simp [Tracked.step, hmod]
    · simp [Tracked.step, hmod, h.head_eq]
    · simp only [Tracked.step, reportReservedEvent_queueTail, hmod, if_pos c1]
      rw [eT]; omega
    · simp [Tracked.step, hmod, h.rtail_eq]
    · intro j hj; omega
    · refine ⟨fun _ => ?_, fun _ _ => ?_, fun _ _ => ?_, fun _ => ?_⟩ <;>
        first
        | exact Or.inl ⟨rfl, rfl⟩
        | exact Or.inr ⟨rfl, rfl⟩
        | exact ⟨rfl, rfl⟩
        | (exfalso; omega)
  · refine ⟨oh, ot, oT, ?_⟩
    refine h.update k hk Phase.committed false oh ot oT
      ?_ ?_ ?_ ?_ ?_ ?_ (by omega) (by omega) (by omega) ?_ ?_
    · rw [hki]; rfl
    · rw [hki]; simp [Tracked.step, hmod]
    · simp [Tracked.step, hmod]
    · simp [Tracked.step, hmod, h.head_eq]
    · simp only [Tracked.step, reportReservedEvent_queueTail, hmod, if_neg c1]
      rw [eT]
    · simp [Tracked.step, hmod, h.rtail_eq]
    · intro j hj; omega
    · refine ⟨fun _ => ?_, fun _ _ => ?_, fun _ _ => ?_, fun _ => ?_⟩ <;>
        first
        | exact Or.inl ⟨rfl, rfl⟩
        | exact Or.inr ⟨rfl, rfl⟩
        | exact ⟨rfl, rfl⟩
        | (exfalso; omega)

theorem Inv.release {t : Tracked P} (h : Inv t) (eventId : Nat)
    (ha : t.allows (Op.release eventId) = true) : Inv (t.step (Op.release eventId)) := by
  obtain ⟨oh, ot, oT, h⟩ := h
  simp only [Tracked.allows, decide_eq_true_eq] at ha
  have hc : (t.phase eventId).code = 3 := by rw [ha]; rfl
  obtain ⟨k, hk, hki, hs⟩ := h.locate eventId (by omega)
  have hmod : eventId % 256 = eventId := Nat.mod_eq_of_lt (h.lt_of_code eventId (by omega))
  have hRH := h.rhead_lt
  have hl1 := h.le_ht
  have hl2 := h.le_tr
  have hl3 := h.le_cap
  have hkoh : k < oh := by omega
  have h1 : ZoneInv ({ t with
      link := { t.link with
        reservations := Function.update t.link.reservations eventId false }
      phase := Function.update t.phase eventId Phase.free } : Tracked P) oh ot oT := by
    refine h.update k hk Phase.free false oh ot oT
      ?_ ?_ rfl h.head_eq h.tail_eq h.rtail_eq hl1 hl2 hl3 ?_ ?_
    · rw [hki]
    · rw [hki]
    · intro j hj; omega
    · refine ⟨fun _ => ?_, fun _ _ => ?_, fun _ _ => ?_, fun _ => ?_⟩ <;>
        first
        | exact Or.inl ⟨rfl, rfl⟩
        | exact Or.inr ⟨rfl, rfl⟩
        | exact ⟨rfl, rfl⟩
        | (exfalso; omega)
  by_cases c1 : eventId = t.link.queueReservedHead
  · refine ⟨oh - 1, ot - 1, oT - 1, ?_⟩
    refine h1.shift (by omega) ?_ ?_ ?_ ?_ ?_ ?_ ?_ ?_
    · dsimp only
      rw [← c1, Function.update_same]; rfl
    · dsimp only
      rw [← c1, Function.update_same]; rfl
    · rfl
    · simp [Tracked.step, hmod]
    · simp only [Tracked.step, releaseEvent_queueReservedHead, hmod, if_pos c1]
    · simp [Tracked.step, hmod]
    · simp [Tracked.step, hmod]
    · simp [Tracked.step, hmod]
  · refine ⟨oh, ot, oT, ?_⟩
    refine h1.congr ?_ ?_ ?_ ?_ ?_ ?_
    · rfl
    · simp [Tracked.step, hmod]
    · simp only [Tracked.step, releaseEvent_queueReservedHead, hmod, if_neg c1]
    · simp [Tracked.step, hmod]
    · simp [Tracked.step, hmod]
    · simp [Tracked.step, hmod]

theorem Inv.step {t : Tracked P} (h : Inv t) (op : Op) (ha : t.allows op = true) :
    Inv (t.step op) := by
  cases op with
  | reserve a => exact h.reserve a
  | commit eventId => exact h.commit eventId ha
  | dispatch => exact h.dispatch
  | release eventId => exact h.release eventId ha

theorem Inv.run {t : Tracked P} (h : Inv t) (ops : List Op)
    (hc : t.conforming ops = true) : Inv (t.run ops) := by
  induction ops generalizing t with
  | nil => exact h
  | cons op ops ih =>
    simp only [Tracked.conforming, Bool.and_eq_true] at hc
    exact ih (h.step op hc.1) hc.2

/-- Every state reached from a fresh link by a protocol-conforming run satisfies the
invariant. -/
theorem inv_of_conforming (payload : Nat → P) (ops : List Op)
    (hc : (Tracked.new payload).conforming ops = true) :
    Inv ((Tracked.new payload).run ops) :=
  (Inv.new payload).run ops hc

/-- C1. Ring ordering invariant: in every state reached from a fresh link by a
protocol-conforming run, `(queueHead - queueReservedHead) mod 256 ≤
(queueTail - queueReservedHead) mod 256 ≤ (queueReservedTail - queueReservedHead) mod 256`. -/
theorem ring_ordering (payload : Nat → P) (ops : List Op)
    (hc : (Tracked.new payload).conforming ops = true) :
    ringDistance ((Tracked.new payload).run ops).link.queueReservedHead
        ((Tracked.new payload).run ops).link.queueHead
      ≤ ringDistance ((Tracked.new payload).run ops).link.queueReservedHead
        ((Tracked.new payload).run ops).link.queueTail ∧
    ringDistance ((Tracked.new payload).run ops).link.queueReservedHead
        ((Tracked.new payload).run ops).link.queueTail
      ≤ ringDistance ((Tracked.new payload).run ops).link.queueReservedHead
        ((Tracked.new payload).run ops).link.queueReservedTail := by
  obtain ⟨oh, ot, oT, h⟩ := inv_of_conforming payload ops hc
  obtain ⟨l1, l2, l3, hRH, eH, eT, eR, _, _⟩ := h
  unfold ringDistance
  rw [eH, eT, eR]
  omega

theorem ring_ordering_witness :
    (Tracked.new zeroPayload).conforming
      [Op.reserve none, Op.reserve (some 7), Op.reserve none, Op.commit 1, Op.commit 0,
        Op.dispatch, Op.dispatch, Op.release 1] = true ∧
    ringDistance 0 2 ≤ ringDistance 0 2 ∧ ringDistance 0 2 ≤ ringDistance 0 3 :=
  ⟨by decide,
    ring_ordering zeroPayload
      [Op.reserve none, Op.reserve (some 7), Op.reserve none, Op.commit 1, Op.commit 0,
        Op.dispatch, Op.dispatch, Op.release 1] (by decide)⟩

/-- C2. In a protocol-conforming run from a fresh link, the id returned by a
successful `reserveEventForReporting` is in phase Free: a producer never gets a slot
that is still Reserved-for-Produce, Committed or Reserved-for-Dispatch. -/
theorem reserve_hands_out_free_slot (payload : Nat → P) (ops : List Op)
    (hc : (Tracked.new payload).conforming ops = true)
    (a : Option Nat) (r : Nat × ParameterPointer) (s2 : QueueEventLink P)
    (hr : reserveEventForReporting ((Tracked.new payload).run ops).link a
      = Outcome.returned r s2) :
    ((Tracked.new payload).run ops).phase r.1 = Phase.free := by
  obtain ⟨oh, ot, oT, h⟩ := inv_of_conforming payload ops hc
  generalize (Tracked.new payload).run ops = t at h hr
  by_cases hb : reportingBlocks t.link
  · rw [reserveEventForReporting_blocked t.link a hb] at hr
    cases hr
  · obtain ⟨s3, hr3, _⟩ := reserveEventForReporting_returned t.link a hb
    rw [hr3] at hr
    cases hr
    have hs := h.slot oT (by have := h.le_cap; omega)
    rw [← h.rtail_eq] at hs
    exact (Phase.code_free _).1 (hs.2.2.2 (le_refl _)).1

theorem reserve_hands_out_free_slot_witness :
    (Tracked.new zeroPayload).conforming
      [Op.reserve none, Op.commit 0, Op.dispatch, Op.reserve none] = true ∧
    ((Tracked.new zeroPayload).run
      [Op.reserve none, Op.commit 0, Op.dispatch, Op.reserve none]).phase 2 = Phase.free :=
  ⟨by decide,
    reserve_hands_out_free_slot zeroPayload
      [Op.reserve none, Op.commit 0, Op.dispatch, Op.reserve none] (by decide)
      (some 5) (2, { slot := 2 }) _ rfl⟩

/-- C3. No double-dispatch: in a protocol-conforming run from a fresh link, the slot
returned by a successful `reserveEventForDispatching` is in phase Committed, and the
call moves it to Reserved-for-Dispatch, so it cannot be returned again before it has
been released, reserved and committed anew. -/
theorem dispatch_hands_out_committed_slot (payload : Nat → P) (ops : List Op)
    (hc : (Tracked.new payload).conforming ops = true)
    (r : Nat × ElementPointer) (s2 : QueueEventLink P)
    (hr : reserveEventForDispatching ((Tracked.new payload).run ops).link
      = Outcome.returned r s2) :
    ((Tracked.new payload).run ops).phase r.1 = Phase.committed ∧
    (((Tracked.new payload).run ops).step Op.dispatch).phase r.1
      = Phase.reservedForDispatch := by
  obtain ⟨oh, ot, oT, h⟩ := inv_of_conforming payload ops hc
  generalize (Tracked.new payload).run ops = t at h hr
  refine ⟨?_, ?_⟩
  · by_cases hb : dispatchingBlocks t.link
    · rw [reserveEventForDispatching_blocked t.link hb] at hr
      cases hr
    · obtain ⟨s3, hr3, _⟩ := reserveEventForDispatching_returned t.link hb
      rw [hr3] at hr
      cases hr
      obtain ⟨f1, f2, f3, f4⟩ := h.reserve_facts
      have hl1 := h.le_ht
      have hl2 := h.le_tr
      have hl3 := h.le_cap
      have hs := h.slot oh (by omega)
      have hidx : t.link.queueHead % 256 = (t.link.queueReservedHead + oh) % 256 := by
        rw [h.head_eq]; omega
      rw [← hidx] at hs
      rw [← Phase.code_committed]
      by_cases c1 : t.link.queueHead = t.link.queueTail
      · have hnb : ¬ (t.link.reservations t.link.queueTail = true ∨
            t.link.queueTail = t.link.queueReservedTail) := fun hx => hb ⟨c1, hx⟩
        have hot : ot ≠ oT := fun h0 => hnb (Or.inr (f4.2 h0))
        have hoh : oh = ot := f3.1 c1
        have hr0 : (t.link.reservations (t.link.queueHead % 256)).toNat = 0 := by
          rw [toNat_false_iff]
          have e : t.link.queueHead % 256 = t.link.queueTail := by
            rw [← c1, h.head_eq]; omega
          rw [e]
          cases hx : t.link.reservations t.link.queueTail
          · rfl
          · exact absurd (Or.inl hx) hnb
        show (t.phase (t.link.queueHead % 256)).code = 2
        omega
      · have hoh : oh ≠ ot := fun hx => c1 (f3.2 hx)
        show (t.phase (t.link.queueHead % 256)).code = 2
        omega
  · rw [step_dispatch_returned t s2 r hr]
    simp

theorem dispatch_hands_out_committed_slot_witness :
    (Tracked.new zeroPayload).conforming
      [Op.reserve none, Op.reserve none, Op.commit 1, Op.commit 0, Op.dispatch] = true ∧
    ((Tracked.new zeroPayload).run
      [Op.reserve none, Op.reserve none, Op.commit 1, Op.commit 0, Op.dispatch]).phase 1
      = Phase.committed ∧
    (((Tracked.new zeroPayload).run
      [Op.reserve none, Op.reserve none, Op.commit 1, Op.commit 0, Op.dispatch]).step
        Op.dispatch).phase 1 = Phase.reservedForDispatch :=
  ⟨by decide,
    dispatch_hands_out_committed_slot zeroPayload
      [Op.reserve none, Op.reserve none, Op.commit 1, Op.commit 0, Op.dispatch] (by decide)
      (1, { slot := 1 }) _ rfl⟩

/-- C7. Reserved-flag phases: in every state reached by a protocol-conforming run from
a fresh link, `reservations[i]` is true exactly when slot `i` is
Reserved-for-Produce or Reserved-for-Dispatch, and false when it is Free or
Committed. -/
theorem reserved_flag_phases (payload : Nat → P) (ops : List Op)
    (hc : (Tracked.new payload).conforming ops = true) (i : Nat) :
    (((Tracked.new payload).run ops).link.reservations i = true ↔
      (((Tracked.new payload).run ops).phase i = Phase.reservedForProduce ∨
        ((Tracked.new payload).run ops).phase i = Phase.reservedForDispatch)) ∧
    (((Tracked.new payload).run ops).link.reservations i = false ↔
      (((Tracked.new payload).run ops).phase i = Phase.free ∨
        ((Tracked.new payload).run ops).phase i = Phase.committed)) := by
  obtain ⟨oh, ot, oT, h⟩ := inv_of_conforming payload ops hc
  generalize (Tracked.new payload).run ops = t at h
  rw [← toNat_true_iff, ← toNat_false_iff, ← Phase.code_reservedForProduce,
    ← Phase.code_reservedForDispatch, ← Phase.code_free, ← Phase.code_committed]
  have hle := Phase.code_le (t.phase i)
  have hle2 := toNat_le_one (t.link.reservations i)
  by_cases hc0 : (t.phase i).code = 0
  · have hr0 : (t.link.reservations i).toNat = 0 := by
      by_cases hi : i < 256
      · obtain ⟨k, hk, hki⟩ := off_exists _ _ h.rhead_lt hi
        have hs := h.slot k hk
        rw [hki] at hs
        have hl1 := h.le_ht
        have hl2 := h.le_tr
        omega
      · exact (h.beyond i (by omega)).2
    omega
  · obtain ⟨k, hk, hki, hs⟩ := h.locate i hc0
    have hl1 := h.le_ht
    have hl2 := h.le_tr
    omega

theorem reserved_flag_phases_witness :
    (Tracked.new zeroPayload).conforming
      [Op.reserve none, Op.reserve none, Op.commit 1] = true ∧
    ((((Tracked.new zeroPayload).run
        [Op.reserve none, Op.reserve none, Op.commit 1]).link.reservations 0 = true ↔
      (((Tracked.new zeroPayload).run
          [Op.reserve none, Op.reserve none, Op.commit 1]).phase 0
          = Phase.reservedForProduce ∨
        ((Tracked.new zeroPayload).run
          [Op.reserve none, Op.reserve none, Op.commit 1]).phase 0
          = Phase.reservedForDispatch)) ∧
    (((Tracked.new zeroPayload).run
        [Op.reserve none, Op.reserve none, Op.commit 1]).link.reservations 0 = false ↔
      (((Tracked.new zeroPayload).run
          [Op.reserve none, Op.reserve none, Op.commit 1]).phase 0 = Phase.free ∨
        ((Tracked.new zeroPayload).run
          [Op.reserve none, Op.reserve none, Op.commit 1]).phase 0 = Phase.committed))) :=
  ⟨by decide,
    reserved_flag_phases zeroPayload [Op.reserve none, Op.reserve none, Op.commit 1]
      (by decide) 0⟩

theorem run_append (t : Tracked P) (ops ops2 : List Op) :
    t.run (ops ++ ops2) = (t.run ops).run ops2 := by
  induction ops generalizing t with
  | nil => rfl
  | cons op ops ih => exact ih (t.step op)

/-- State of a fresh link after `n ≤ 255` reservations and nothing else. -/
theorem fresh_reserves (payload : Nat → P) (a : Option Nat) (n : Nat) (hn : n ≤ 255) :
    ((Tracked.new payload).run (List.replicate n (Op.reserve a))).link.queueReservedTail = n ∧
    ((Tracked.new payload).run (List.replicate n (Op.reserve a))).link.queueReservedHead = 0 ∧
    ((Tracked.new payload).run (List.replicate n (Op.reserve a))).link.queueHead = 0 ∧
    ((Tracked.new payload).run (List.replicate n (Op.reserve a))).link.queueTail = 0 ∧
    ∀ i, ((Tracked.new payload).run (List.replicate n (Op.reserve a))).link.reservations i
      = decide (i < n) := by
  induction n with
  | zero =>
    refine ⟨rfl, rfl, rfl, rfl, ?_⟩
    intro i
    simp [Tracked.run, Tracked.new, QueueEventLink.new]
  | succ n ih =>
    obtain ⟨i1, i2, i3, i4, i5⟩ := ih (by omega)
    rw [List.replicate_succ', run_append]
    generalize (Tracked.new payload).run (List.replicate n (Op.reserve a)) = t at *
    have hb : ¬ reportingBlocks t.link := by
      intro hb
      have := hb.1
      rw [i1, i2] at this
      omega
    obtain ⟨s2, hr, e1, e2, e3, e4, e5, _⟩ := reserveEventForReporting_returned t.link a hb
    have hne : ¬ (t.link.queueReservedTail + 1) % 256 = t.link.queueReservedHead := by
      rw [i1, i2]; omega
    simp only [Tracked.run, step_reserve_returned t a s2 _ hr]
    refine ⟨?_, ?_, ?_, ?_, ?_⟩
    · rw [e1, i1]; omega
    · rw [e2, if_neg hne, i2]
    · rw [e3, i3]
    · rw [e4, i4]
    · intro i
      rw [e5, i1, Function.update_apply, i5]
      by_cases hi : i = n
      · simp [hi]
      · rw [if_neg hi]
        have : (i < n + 1) ↔ (i < n) := by omega
        simp [this]

/-- Under the invariant the slot at `queueReservedTail` is free, so at most 255 of the
256 slots are outstanding. -/
theorem ZoneInv.outstanding_le {t : Tracked P} {oh ot oT : Nat} (h : ZoneInv t oh ot oT) :
    t.outstanding ≤ 255 := by
  have hs := h.slot oT (by have := h.le_cap; omega)
  rw [← h.rtail_eq] at hs
  have hfree : t.phase t.link.queueReservedTail = Phase.free :=
    (Phase.code_free _).1 (hs.2.2.2 (le_refl _)).1
  have hlt : t.link.queueReservedTail < 256 := by
    rw [h.rtail_eq]; omega
  have hx : ((List.range 256).filter
      (fun i => decide (t.phase i ≠ Phase.free))).length < (List.range 256).length := by
    rw [List.length_filter_lt_length_iff_exists]
    exact ⟨t.link.queueReservedTail, List.mem_range.2 hlt, by simp [hfree]⟩
  rw [List.length_range] at hx
  unfold Tracked.outstanding
  omega

/-- C4. Bounded capacity: in every state reached by a protocol-conforming run from a
fresh link at most 255 slots are outstanding; and on a fresh link with no
dispatching, each of the first 255 reservations succeeds (the one after `n < 255`
earlier ones returns slot `n`) while the 256th parks. -/
theorem bounded_capacity (payload : Nat → P) (ops : List Op)
    (hc : (Tracked.new payload).conforming ops = true) (a : Option Nat) :
    ((Tracked.new payload).run ops).outstanding ≤ 255 ∧
    (∀ n, n < 255 → ∃ s2,
      reserveEventForReporting
        ((Tracked.new payload).run (List.replicate n (Op.reserve a))).link a
        = Outcome.returned (n, { slot := n }) s2) ∧
    (∃ s2,
      reserveEventForReporting
        ((Tracked.new payload).run (List.replicate 255 (Op.reserve a))).link a
        = Outcome.blocked s2) := by
  refine ⟨?_, ?_, ?_⟩
  · obtain ⟨oh, ot, oT, h⟩ := inv_of_conforming payload ops hc
    exact h.outstanding_le
  · intro n hn
    obtain ⟨i1, i2, i3, i4, i5⟩ := fresh_reserves payload a n (by omega)
    generalize (Tracked.new payload).run (List.replicate n (Op.reserve a)) = t at *
    have hb : ¬ reportingBlocks t.link := by
      intro hb
      have := hb.1
      rw [i1, i2] at this
      omega
    obtain ⟨s2, hr, _⟩ := reserveEventForReporting_returned t.link a hb
    rw [i1] at hr
    exact ⟨s2, hr⟩
  · obtain ⟨i1, i2, i3, i4, i5⟩ := fresh_reserves payload a 255 (by omega)
    generalize (Tracked.new payload).run (List.replicate 255 (Op.reserve a)) = t at *
    have hb : reportingBlocks t.link := by
      refine ⟨?_, Or.inl ?_⟩
      · rw [i1, i2]
      · rw [i2, i5]; decide
    exact ⟨_, reserveEventForReporting_blocked t.link a hb⟩

theorem bounded_capacity_witness :
    (Tracked.new zeroPayload).conforming
      [Op.reserve none, Op.reserve none, Op.commit 1, Op.dispatch] = true ∧
    ((Tracked.new zeroPayload).run
      [Op.reserve none, Op.reserve none, Op.commit 1, Op.dispatch]).outstanding ≤ 255 :=
  ⟨by decide,
    (bounded_capacity zeroPayload
      [Op.reserve none, Op.reserve none, Op.commit 1, Op.dispatch] (by decide) none).1⟩

theorem free_of_outstanding_zero {t : Tracked P} (h0 : t.outstanding = 0) (i : Nat)
    (hi : i < 256) : t.phase i = Phase.free := by
  unfold Tracked.outstanding at h0
  rw [List.length_eq_zero, List.filter_eq_nil_iff] at h0
  have := h0 i (List.mem_range.2 hi)
  simpa using this

/-- With nothing outstanding, the committed zone and the producers' zone are empty
and no flag is set. -/
theorem ZoneInv.idle {t : Tracked P} {oh ot oT : Nat} (h : ZoneInv t oh ot oT)
    (h0 : t.outstanding = 0) :
    oh = ot ∧ ot = oT ∧ ∀ i, t.link.reservations i = false := by
  have hl1 := h.le_ht
  have hl2 := h.le_tr
  have hl3 := h.le_cap
  have hfree : ∀ k, k < 256 →
      (t.phase ((t.link.queueReservedHead + k) % 256)).code = 0 := by
    intro k _
    rw [Phase.code_free]
    exact free_of_outstanding_zero h0 _ (by omega)
  refine ⟨?_, ?_, ?_⟩
  · by_contra hne
    have hs := h.slot oh (by omega)
    have := hfree oh (by omega)
    omega
  · by_contra hne
    have hs := h.slot ot (by omega)
    have := hfree ot (by omega)
    omega
  · intro i
    rw [← toNat_false_iff]
    by_cases hi : i < 256
    · obtain ⟨k, hk, hki⟩ := off_exists _ _ h.rhead_lt hi
      have hs := h.slot k hk
      have := hfree k hk
      rw [hki] at hs this
      omega
    · exact (h.beyond i (by omega)).2

/-- C5, as stated, fails: two slots released in the order opposite to their dispatch
leave `queueReservedHead` one step behind the other three indices although nothing
is outstanding. -/
theorem idle_ring_with_lagging_reserved_head :
    (Tracked.new zeroPayload).conforming
      [Op.reserve none, Op.reserve none, Op.commit 0, Op.commit 1,
        Op.dispatch, Op.dispatch, Op.release 1, Op.release 0] = true ∧
    ((Tracked.new zeroPayload).run
      [Op.reserve none, Op.reserve none, Op.commit 0, Op.commit 1,
        Op.dispatch, Op.dispatch, Op.release 1, Op.release 0]).outstanding = 0 ∧
    ((Tracked.new zeroPayload).run
      [Op.reserve none, Op.reserve none, Op.commit 0, Op.commit 1,
        Op.dispatch, Op.dispatch, Op.release 1, Op.release 0]).link.queueReservedHead = 1 ∧
    ((Tracked.new zeroPayload).run
      [Op.reserve none, Op.reserve none, Op.commit 0, Op.commit 1,
        Op.dispatch, Op.dispatch, Op.release 1, Op.release 0]).link.queueHead = 2 ∧
    ((Tracked.new zeroPayload).run
      [Op.reserve none, Op.reserve none, Op.commit 0, Op.commit 1,
        Op.dispatch, Op.dispatch, Op.release 1, Op.release 0]).link.queueTail = 2 ∧
    ((Tracked.new zeroPayload).run
      [Op.reserve none, Op.reserve none, Op.commit 0, Op.commit 1,
        Op.dispatch, Op.dispatch, Op.release 1, Op.release 0]).link.queueReservedTail = 2 := by
  refine ⟨by decide, by decide, by decide, by decide, by decide, by decide⟩

/-- C5, amended. After a protocol-conforming run from a fresh link that leaves
nothing outstanding (whatever the order of commits and of releases),
`queueHead == queueTail == queueReservedTail` and every `reservations[i]` is false. -/
theorem no_slot_leak (payload : Nat → P) (ops : List Op)
    (hc : (Tracked.new payload).conforming ops = true)
    (h0 : ((Tracked.new payload).run ops).outstanding = 0) :
    ((Tracked.new payload).run ops).link.queueHead
      = ((Tracked.new payload).run ops).link.queueTail ∧
    ((Tracked.new payload).run ops).link.queueTail
      = ((Tracked.new payload).run ops).link.queueReservedTail ∧
    ∀ i, ((Tracked.new payload).run ops).link.reservations i = false := by
  obtain ⟨oh, ot, oT, h⟩ := inv_of_conforming payload ops hc
  generalize (Tracked.new payload).run ops = t at h h0
  obtain ⟨e1, e2, e3⟩ := h.idle h0
  refine ⟨?_, ?_, e3⟩
  · rw [h.head_eq, h.tail_eq, e1]
  · rw [h.tail_eq, h.rtail_eq, e2]

theorem no_slot_leak_witness :
    (Tracked.new zeroPayload).conforming
      [Op.reserve none, Op.reserve none, Op.commit 1, Op.commit 0,
        Op.dispatch, Op.dispatch, Op.release 1, Op.release 0] = true ∧
    ((Tracked.new zeroPayload).run
      [Op.reserve none, Op.reserve none, Op.commit 1, Op.commit 0,
        Op.dispatch, Op.dispatch, Op.release 1, Op.release 0]).outstanding = 0 ∧
    ((Tracked.new zeroPayload).run
      [Op.reserve none, Op.reserve none, Op.commit 1, Op.commit 0,
        Op.dispatch, Op.dispatch, Op.release 1, Op.release 0]).link.queueHead
      = ((Tracked.new zeroPayload).run
      [Op.reserve none, Op.reserve none, Op.commit 1, Op.commit 0,
        Op.dispatch, Op.dispatch, Op.release 1, Op.release 0]).link.queueTail :=
  ⟨by decide, by decide,
    (no_slot_leak zeroPayload
      [Op.reserve none, Op.reserve none, Op.commit 1, Op.commit 0,
        Op.dispatch, Op.dispatch, Op.release 1, Op.release 0] (by decide) (by decide)).1⟩

theorem InOrderInv.init (payload : Nat → P) : InOrderInv (Tracked.new payload) := by
  obtain ⟨oh, ot, oT, h⟩ := Inv.new payload
  have hoh : oh = 0 := by
    have := h.head_eq
    have := h.le_ht
    have := h.le_tr
    have := h.le_cap
    simp only [Tracked.new, QueueEventLink.new] at *
    omega
  subst hoh
  exact ⟨0, ot, oT, h, by intro k hk; omega, rfl⟩

theorem ZoneInv.oh_eq {t : Tracked P} {oh ot oT : Nat} (h : ZoneInv t oh ot oT)
    (x : Nat) (hx : x ≤ 255)
    (he : t.link.queueHead = (t.link.queueReservedHead + x) % 256) : oh = x := by
  have e := h.head_eq
  have l1 := h.le_ht
  have l2 := h.le_tr
  have l3 := h.le_cap
  rw [he] at e
  exact ((off_inj _ _ _ (by omega) (by omega)).1 e).symm

theorem InOrderInv.advance {t : Tracked P} (h : InOrderInv t) (op : Op)
    (ha : t.allows op = true) (hio : t.allowsInOrder op = true) :
    InOrderInv (t.step op) := by
  obtain ⟨oh, ot, oT, h, hheld, hlist⟩ := h
  obtain ⟨oh2, ot2, oT2, h2⟩ := Inv.step ⟨oh, ot, oT, h⟩ op ha
  obtain ⟨f1, f2, f3, f4⟩ := h.reserve_facts
  have hl1 := h.le_ht
  have hl2 := h.le_tr
  have hl3 := h.le_cap
  have hRH := h.rhead_lt
  have eH := h.head_eq
  have eR := h.rtail_eq
  have eT := h.tail_eq
  cases op with
  | reserve a =>
    by_cases hb : reportingBlocks t.link
    · rw [step_reserve_blocked t a hb] at h2 ⊢
      exact ⟨oh, ot, oT, h.congr rfl rfl rfl rfl rfl rfl, hheld, hlist⟩
    · obtain ⟨s2, hr, e1, e2, e3, e4, e5, _⟩ := reserveEventForReporting_returned t.link a hb
      rw [step_reserve_returned t a s2 _ hr] at h2 ⊢
      have hne : ¬ (t.link.queueReservedTail + 1) % 256 = t.link.queueReservedHead := by
        intro c1
        have hnb : ¬ (t.link.reservations t.link.queueReservedHead = true ∨
            t.link.queueReservedHead = t.link.queueHead) := fun hx => hb ⟨c1, hx⟩
        have hoh : oh ≠ 0 := fun h0 => hnb (Or.inr (f2.2 h0))
        have hs0 := h.slot 0 (by omega)
        have hc0 := hheld 0 (by omega)
        have e0 : (t.link.queueReservedHead + 0) % 256 = t.link.queueReservedHead := by omega
        rw [e0] at hs0 hc0
        have : (t.link.reservations t.link.queueReservedHead).toNat = 1 := by omega
        exact hnb (Or.inl ((toNat_true_iff _).1 this))
      rw [if_neg hne] at e2
      have hoh2 : oh2 = oh := h2.oh_eq oh (by omega) (by
        show s2.queueHead = (s2.queueReservedHead + oh) % 256
        rw [e3, e2, eH])
      subst hoh2
      refine ⟨oh2, ot2, oT2, h2, ?_, ?_⟩
      · intro k hk
        show (Function.update t.phase t.link.queueReservedTail Phase.reservedForProduce
          ((s2.queueReservedHead + k) % 256)).code = 3
        rw [e2]
        have hne2 : (t.link.queueReservedHead + k) % 256 ≠ t.link.queueReservedTail := by
          rw [eR]
          intro he
          have := (off_inj _ _ _ (by omega) (by omega)).1 he
          omega
        rw [Function.update_noteq hne2]
        exact hheld k hk
      · show t.dispatching = _
        rw [hlist]
        show _ = (List.range oh2).map (fun k => (s2.queueReservedHead + k) % 256)
        rw [e2]
  | commit eventId =>
    simp only [Tracked.allows, decide_eq_true_eq] at ha
    have hc : (t.phase eventId).code = 1 := by rw [ha]; rfl
    obtain ⟨k, hk, hki, hs⟩ := h.locate eventId (by omega)
    have hoh2 : oh2 = oh := h2.oh_eq oh (by omega) (by
      simp only [Tracked.step, reportReservedEvent_queueHead,
        reportReservedEvent_queueReservedHead]
      exact eH)
    subst hoh2
    refine ⟨oh2, ot2, oT2, h2, ?_, ?_⟩
    · intro j hj
      simp only [Tracked.step, reportReservedEvent_queueReservedHead]
      have hne2 : (t.link.queueReservedHead + j) % 256 ≠ eventId := by
        rw [← hki]
        intro he
        have := (off_inj _ _ _ (by omega) (by omega)).1 he
        omega
      rw [Function.update_noteq hne2]
      exact hheld j hj
    · simp only [Tracked.step, reportReservedEvent_queueReservedHead]
      exact hlist
  | dispatch =>
    by_cases hb : dispatchingBlocks t.link
    · rw [step_dispatch_blocked t hb] at h2 ⊢
      exact ⟨oh, ot, oT, h.congr rfl rfl rfl rfl rfl rfl, hheld, hlist⟩
    · obtain ⟨s2, hr, e1, e2, e3, e4, e5, _⟩ := reserveEventForDispatching_returned t.link hb
      rw [step_dispatch_returned t s2 _ hr] at h2 ⊢
      have hlt : oh < 255 := by
        by_contra hge
        apply hb
        have h1 : oh = ot := by omega
        have h3 : ot = oT := by omega
        exact ⟨f3.2 h1, Or.inr (f4.2 h3)⟩
      have hidx : t.link.queueHead % 256 = (t.link.queueReservedHead + oh) % 256 := by
        rw [eH]; omega
      have hoh2 : oh2 = oh + 1 := h2.oh_eq (oh + 1) (by omega) (by
        show s2.queueHead = (s2.queueReservedHead + (oh + 1)) % 256
        rw [e1, e3, eH]; omega)
      subst hoh2
      refine ⟨oh + 1, ot2, oT2, h2, ?_, ?_⟩
      · intro k hk
        show (Function.update t.phase (t.link.queueHead % 256) Phase.reservedForDispatch
          ((s2.queueReservedHead + k) % 256)).code = 3
        rw [e3, hidx, Function.update_apply]
        split_ifs with hki
        · rfl
        · have hne : k ≠ oh := fun he => hki (by rw [he])
          exact hheld k (by omega)
      · show t.dispatching ++ [t.link.queueHead % 256]
          = (List.range (oh + 1)).map (fun k => (s2.queueReservedHead + k) % 256)
        rw [e3, List.range_succ, List.map_append, hlist, hidx]
        rfl
  | release eventId =>
    simp only [Tracked.allowsInOrder, decide_eq_true_eq] at hio
    rw [hlist] at hio
    have hoh : 1 ≤ oh := by
      by_contra hlt
      have : oh = 0 := by omega
      subst this
      simp at hio
    obtain ⟨n, rfl⟩ : ∃ n, oh = n + 1 := ⟨oh - 1, by omega⟩
    rw [List.range_succ_eq_map] at hio hlist
    simp only [List.map_cons, List.head?_cons, Option.some.injEq, List.map_map] at hio hlist
    have hid : eventId = t.link.queueReservedHead := by
      rw [← hio]; omega
    have hmod : eventId % 256 = t.link.queueReservedHead := by
      rw [hid]; omega
    have hoh2 : oh2 = n := h2.oh_eq n (by omega) (by
      simp only [Tracked.step, releaseEvent_queueHead, releaseEvent_queueReservedHead,
        if_pos hmod]
      rw [eH]; omega)
    subst hoh2
    refine ⟨oh2, ot2, oT2, h2, ?_, ?_⟩
    · intro k hk
      simp only [Tracked.step, releaseEvent_queueReservedHead, if_pos hmod]
      rw [off_succ]
      have hne2 : (t.link.queueReservedHead + (k + 1)) % 256 ≠ eventId := by
        rw [hid]; omega
      rw [Function.update_noteq hne2]
      exact hheld (k + 1) (by omega)
    · simp only [Tracked.step, releaseEvent_queueReservedHead, if_pos hmod]
      rw [hlist, hio, List.erase_cons_head]
      apply List.map_congr_left
      intro k _
      simp only [Function.comp]
      omega

theorem InOrderInv.along {t : Tracked P} (h : InOrderInv t) (ops : List Op)
    (hc : t.conformingInOrder ops = true) : InOrderInv (t.run ops) := by
  induction ops generalizing t with
  | nil => exact h
  | cons op ops ih =>
    simp only [Tracked.conformingInOrder, Bool.and_eq_true] at hc
    exact ih (h.advance op hc.1.1 hc.1.2) hc.2

/-- C6. Single-producer / single-worker drain: after a run from a fresh link in which
slots are committed in reservation order and released in dispatch order (any number
of events), once nothing is outstanding the four indices are equal and every
`reservations[i]` is false. -/
theorem in_order_drain (payload : Nat → P) (ops : List Op)
    (hc : (Tracked.new payload).conformingInOrder ops = true)
    (h0 : ((Tracked.new payload).run ops).outstanding = 0) :
    ((Tracked.new payload).run ops).link.queueReservedHead
      = ((Tracked.new payload).run ops).link.queueHead ∧
    ((Tracked.new payload).run ops).link.queueHead
      = ((Tracked.new payload).run ops).link.queueTail ∧
    ((Tracked.new payload).run ops).link.queueTail
      = ((Tracked.new payload).run ops).link.queueReservedTail ∧
    ∀ i, ((Tracked.new payload).run ops).link.reservations i = false := by
  obtain ⟨oh, ot, oT, h, hheld, _⟩ := (InOrderInv.init payload).along ops hc
  generalize (Tracked.new payload).run ops = t at h h0 hheld
  obtain ⟨e1, e2, e3⟩ := h.idle h0
  have hoh : oh = 0 := by
    by_contra hne
    have h3 := hheld 0 (by omega)
    have hf := free_of_outstanding_zero h0 ((t.link.queueReservedHead + 0) % 256) (by omega)
    rw [← Phase.code_free] at hf
    omega
  refine ⟨?_, ?_, ?_, e3⟩
  · have := h.rhead_lt
    rw [h.head_eq, hoh]; omega
  · rw [h.head_eq, h.tail_eq, e1]
  · rw [h.tail_eq, h.rtail_eq, e2]

set_option maxRecDepth 100000 in
theorem in_order_drain_witness :
    (Tracked.new zeroPayload).conformingInOrder (oneByOne 260) = true ∧
    ((Tracked.new zeroPayload).run (oneByOne 260)).outstanding = 0 ∧
    ((Tracked.new zeroPayload).run (oneByOne 260)).link.queueReservedHead
      = ((Tracked.new zeroPayload).run (oneByOne 260)).link.queueHead :=
  ⟨by decide, by decide,
    (in_order_drain zeroPayload (oneByOne 260) (by decide) (by decide)).1⟩

/-- C8. Postcondition of `reserveEventForReporting(answerPtr)`: whenever it returns,
the id is the old `queueReservedTail`, `queueReservedTail` becomes `(id+1) mod 256`,
`reservations[id]` is true, `events[id].answerObjectReference` is `answerPtr`, the
handle designates `events[id].eventParameter`, and `events[id].answerMutex` is closed
when `answerPtr` is non-null and left as it was when it is null; the one-argument
overload is the call with a null `answerPtr`. -/
theorem reserveEventForReporting_postcondition (s : QueueEventLink P) (a : Option Nat)
    (r : Nat × ParameterPointer) (s2 : QueueEventLink P)
    (hr : reserveEventForReporting s a = Outcome.returned r s2) :
    r.1 = s.queueReservedTail ∧
    s2.queueReservedTail = (r.1 + 1) % 256 ∧
    s2.reservations r.1 = true ∧
    (s2.events r.1).answerObjectReference = a ∧
    r.2 = { slot := r.1 } ∧
    (a ≠ none → (s2.events r.1).answerMutex = true) ∧
    (a = none → (s2.events r.1).answerMutex = (s.events r.1).answerMutex) ∧
    reserveEventForReportingAnswerless s = reserveEventForReporting s none := by
  by_cases hb : reportingBlocks s
  · rw [reserveEventForReporting_blocked s a hb] at hr
    cases hr
  · obtain ⟨s3, hr3, e1, e2, e3, e4, e5, e6, _⟩ := reserveEventForReporting_returned s a hb
    rw [hr3] at hr
    cases hr
    refine ⟨rfl, e1, ?_, ?_, rfl, ?_, ?_, rfl⟩
    · rw [e5, Function.update_same]
    · rw [e6, Function.update_same]
    · intro ha
      rw [e6, Function.update_same]
      exact if_pos ha
    · intro ha
      rw [e6, Function.update_same]
      simp [ha]

theorem reserveEventForReporting_postcondition_witness :
    (3, ({ slot := 3 } : ParameterPointer)).1
      = ((Tracked.new zeroPayload).run
        [Op.reserve none, Op.reserve none, Op.reserve none]).link.queueReservedTail :=
  (reserveEventForReporting_postcondition
    ((Tracked.new zeroPayload).run
      [Op.reserve none, Op.reserve none, Op.reserve none]).link (some 9)
    (3, { slot := 3 }) _ rfl).1

/-- C9. Postcondition of `reportReservedEvent(id)`, `id` being the argument as the
8-bit parameter receives it (`eventId % 256`, which is `eventId` itself for every id
the link hands out): `reservations[id]` becomes false and no other flag changes;
`queueTail` advances by exactly one (mod 256) when `id == queueTail` and is unchanged
otherwise; `queueHead`, `queueReservedHead`, `queueReservedTail` and every slot's
content are unchanged. -/
theorem reportReservedEvent_postcondition (s : QueueEventLink P) (eventId : Nat) :
    (reportReservedEvent s eventId).reservations
      = Function.update s.reservations (eventId % 256) false ∧
    (reportReservedEvent s eventId).queueTail
      = (if eventId % 256 = s.queueTail then (s.queueTail + 1) % 256
        else s.queueTail) ∧
    (reportReservedEvent s eventId).queueHead = s.queueHead ∧
    (reportReservedEvent s eventId).queueReservedHead = s.queueReservedHead ∧
    (reportReservedEvent s eventId).queueReservedTail = s.queueReservedTail ∧
    (reportReservedEvent s eventId).events = s.events :=
  ⟨reportReservedEvent_reservations s eventId, reportReservedEvent_queueTail s eventId,
    reportReservedEvent_queueHead s eventId, reportReservedEvent_queueReservedHead s eventId,
    reportReservedEvent_queueReservedTail s eventId, reportReservedEvent_events s eventId⟩

/-- C10. With `queueHead` within the ring, `reserveEventForDispatching` parks exactly
when `queueHead == queueTail` and (`reservations[queueTail]` is true or
`queueTail == queueReservedTail`); otherwise it returns the old `queueHead` as id with
a handle designating `events[id]`, sets `queueHead` to `(id+1) mod 256` and sets
`reservations[id]`. -/
theorem reserveEventForDispatching_postcondition (s : QueueEventLink P)
    (hH : s.queueHead < 256) :
    ((∃ s2, reserveEventForDispatching s = Outcome.blocked s2) ↔
      (s.queueHead = s.queueTail ∧
        (s.reservations s.queueTail = true ∨ s.queueTail = s.queueReservedTail))) ∧
    (¬ (s.queueHead = s.queueTail ∧
        (s.reservations s.queueTail = true ∨ s.queueTail = s.queueReservedTail)) →
      ∃ s2, reserveEventForDispatching s
          = Outcome.returned (s.queueHead, { slot := s.queueHead }) s2 ∧
        s2.queueHead = (s.queueHead + 1) % 256 ∧
        s2.reservations s.queueHead = true) := by
  have hmod : s.queueHead % 256 = s.queueHead := Nat.mod_eq_of_lt hH
  have hret : ¬ dispatchingBlocks s →
      ∃ s2, reserveEventForDispatching s
          = Outcome.returned (s.queueHead, { slot := s.queueHead }) s2 ∧
        s2.queueHead = (s.queueHead + 1) % 256 ∧
        s2.reservations s.queueHead = true := by
    intro hb
    obtain ⟨s2, hr, e1, e2, e3, e4, e5, _⟩ := reserveEventForDispatching_returned s hb
    rw [hmod] at hr e1 e5
    exact ⟨s2, hr, e1, by rw [e5, Function.update_same]⟩
  refine ⟨⟨?_, ?_⟩, hret⟩
  · rintro ⟨s2, hr⟩
    by_contra hb
    obtain ⟨s3, hr3, _⟩ := hret hb
    rw [hr3] at hr
    cases hr
  · intro hb
    exact ⟨_, reserveEventForDispatching_blocked s hb⟩

theorem reserveEventForDispatching_postcondition_witness :
    ∃ s2, reserveEventForDispatching
        ((Tracked.new zeroPayload).run [Op.reserve none, Op.commit 0]).link
          = Outcome.returned (0, { slot := 0 }) s2 ∧
      s2.queueHead = 1 ∧ s2.reservations 0 = true :=
  (reserveEventForDispatching_postcondition
    ((Tracked.new zeroPayload).run [Op.reserve none, Op.commit 0]).link
    (by decide)).2 (by decide)

/-- In a state reached by a protocol-conforming run with `queueHead == queueTail`, the
test `reservations[queueTail] || queueTail == queueReservedTail` holds exactly when
the slot at `queueTail` is not in phase Committed. -/
theorem tail_not_committed_iff (payload : Nat → P) (ops : List Op)
    (hc : (Tracked.new payload).conforming ops = true)
    (he : ((Tracked.new payload).run ops).link.queueHead
      = ((Tracked.new payload).run ops).link.queueTail) :
    (((Tracked.new payload).run ops).link.reservations
        ((Tracked.new payload).run ops).link.queueTail = true ∨
      ((Tracked.new payload).run ops).link.queueTail
        = ((Tracked.new payload).run ops).link.queueReservedTail) ↔
    ((Tracked.new payload).run ops).phase ((Tracked.new payload).run ops).link.queueTail
      ≠ Phase.committed := by
  obtain ⟨oh, ot, oT, h⟩ := inv_of_conforming payload ops hc
  generalize (Tracked.new payload).run ops = t at h he
  obtain ⟨f1, f2, f3, f4⟩ := h.reserve_facts
  have hl1 := h.le_ht
  have hl2 := h.le_tr
  have hl3 := h.le_cap
  have hs := h.slot ot (by omega)
  rw [← h.tail_eq] at hs
  rw [f4, ← toNat_true_iff, Ne, ← Phase.code_committed]
  have := f3.1 he
  omega

/-- C11. Postcondition of `releaseEvent(id)`, `id` being the argument as the 8-bit
parameter receives it (`eventId % 256`, which is `eventId` itself for every id the link
hands out): `reservations[id]` becomes false and no other flag changes;
`queueReservedHead` advances by exactly one (mod 256) when `id == queueReservedHead`
and is unchanged otherwise; `queueHead`, `queueTail`, `queueReservedTail` and every
slot's content are unchanged. -/
theorem releaseEvent_postcondition (s : QueueEventLink P) (eventId : Nat) :
    (releaseEvent s eventId).reservations
      = Function.update s.reservations (eventId % 256) false ∧
    (releaseEvent s eventId).queueReservedHead
      = (if eventId % 256 = s.queueReservedHead then (s.queueReservedHead + 1) % 256
        else s.queueReservedHead) ∧
    (releaseEvent s eventId).queueHead = s.queueHead ∧
    (releaseEvent s eventId).queueTail = s.queueTail ∧
    (releaseEvent s eventId).queueReservedTail = s.queueReservedTail ∧
    (releaseEvent s eventId).events = s.events :=
  ⟨releaseEvent_reservations s eventId, releaseEvent_queueReservedHead s eventId,
    releaseEvent_queueHead s eventId, releaseEvent_queueTail s eventId,
    releaseEvent_queueReservedTail s eventId, releaseEvent_events s eventId⟩

/-- C12. In every state reached by a protocol-conforming run from a fresh link,
`reserveEventForReporting` parks if and only if
`(queueReservedTail + 1) mod 256 == queueReservedHead` and the slot at
`queueReservedHead` has not yet been released (its phase is not Free); there this
reads `reservations[queueReservedHead]` is true or `queueReservedHead == queueHead`,
the test the code makes; in every other such state the call hands out a slot. -/
theorem reserve_blocks_iff_full (payload : Nat → P) (ops : List Op)
    (hc : (Tracked.new payload).conforming ops = true) (a : Option Nat) :
    ((∃ s2, reserveEventForReporting ((Tracked.new payload).run ops).link a
        = Outcome.blocked s2) ↔
      ((((Tracked.new payload).run ops).link.queueReservedTail + 1) % 256
          = ((Tracked.new payload).run ops).link.queueReservedHead ∧
        ((Tracked.new payload).run ops).phase
          ((Tracked.new payload).run ops).link.queueReservedHead ≠ Phase.free)) ∧
    ((((Tracked.new payload).run ops).link.queueReservedTail + 1) % 256
          = ((Tracked.new payload).run ops).link.queueReservedHead ∧
        ((Tracked.new payload).run ops).phase
          ((Tracked.new payload).run ops).link.queueReservedHead ≠ Phase.free ↔
      (((Tracked.new payload).run ops).link.queueReservedTail + 1) % 256
          = ((Tracked.new payload).run ops).link.queueReservedHead ∧
        (((Tracked.new payload).run ops).link.reservations
            ((Tracked.new payload).run ops).link.queueReservedHead = true ∨
          ((Tracked.new payload).run ops).link.queueReservedHead
            = ((Tracked.new payload).run ops).link.queueHead)) ∧
    (¬ ((((Tracked.new payload).run ops).link.queueReservedTail + 1) % 256
          = ((Tracked.new payload).run ops).link.queueReservedHead ∧
        ((Tracked.new payload).run ops).phase
          ((Tracked.new payload).run ops).link.queueReservedHead ≠ Phase.free) →
      ∃ r s2, reserveEventForReporting ((Tracked.new payload).run ops).link a
        = Outcome.returned r s2) := by
  obtain ⟨oh, ot, oT, h⟩ := inv_of_conforming payload ops hc
  generalize (Tracked.new payload).run ops = t at h
  obtain ⟨f1, f2, f3, f4⟩ := h.reserve_facts
  have hl1 := h.le_ht
  have hl2 := h.le_tr
  have hl3 := h.le_cap
  have hs0 := h.slot 0 (by omega)
  have e0 : (t.link.queueReservedHead + 0) % 256 = t.link.queueReservedHead := by
    have := h.rhead_lt
    omega
  rw [e0] at hs0
  have hle := toNat_le_one (t.link.reservations t.link.queueReservedHead)
  have key : ((t.link.queueReservedTail + 1) % 256 = t.link.queueReservedHead ∧
        t.phase t.link.queueReservedHead ≠ Phase.free) ↔ reportingBlocks t.link := by
    unfold reportingBlocks
    rw [f1, f2, Ne, ← Phase.code_free, ← toNat_true_iff]
    omega
  refine ⟨?_, ?_, ?_⟩
  · rw [key]
    constructor
    · rintro ⟨s2, hr⟩
      by_contra hb
      obtain ⟨s3, hr3, _⟩ := reserveEventForReporting_returned t.link a hb
      rw [hr3] at hr
      cases hr
    · intro hb
      exact ⟨_, reserveEventForReporting_blocked t.link a hb⟩
  · exact key
  · rw [key]
    intro hb
    obtain ⟨s3, hr3, _⟩ := reserveEventForReporting_returned t.link a hb
    exact ⟨_, s3, hr3⟩

theorem reserve_blocks_iff_full_witness :
    (Tracked.new zeroPayload).conforming
      [Op.reserve none, Op.commit 0, Op.dispatch] = true ∧
    ∃ r s2, reserveEventForReporting
        ((Tracked.new zeroPayload).run [Op.reserve none, Op.commit 0, Op.dispatch]).link
        (some 3) = Outcome.returned r s2 :=
  ⟨by decide,
    (reserve_blocks_iff_full zeroPayload [Op.reserve none, Op.commit 0, Op.dispatch]
      (by decide) (some 3)).2.2 (by decide)⟩

/-! ## Order of the ids handed out -/

theorem range_map_mod_succ (n : Nat) :
    (List.range (n + 1)).map (fun k => k % 256)
      = (List.range n).map (fun k => k % 256) ++ [n % 256] := by
  rw [List.range_succ, List.map_append]
  rfl

/-- One call extends the log of reserved ids by the old `queueReservedTail` or leaves
it, and the log of dispatched ids by the old `queueHead` or leaves it; both logs count
modulo 256 along the two indices. -/
theorem record_step (t : Tracked P) (hist : History) (op : Op) (n d : Nat)
    (hr : hist.reserved = (List.range n).map (fun k => k % 256))
    (hrt : t.link.queueReservedTail = n % 256)
    (hd : hist.dispatched = (List.range d).map (fun k => k % 256))
    (hh : t.link.queueHead = d % 256) :
    ∃ n2 d2, (t.record hist op).reserved = (List.range n2).map (fun k => k % 256) ∧
      (t.step op).link.queueReservedTail = n2 % 256 ∧
      (t.record hist op).dispatched = (List.range d2).map (fun k => k % 256) ∧
      (t.step op).link.queueHead = d2 % 256 ∧
      n ≤ n2 ∧ n2 ≤ n + 1 ∧ d ≤ d2 ∧ d2 ≤ d + 1 := by
  cases op with
  | reserve a =>
    by_cases hb : reportingBlocks t.link
    · refine ⟨n, d, ?_, ?_, ?_, ?_, by omega, by omega, by omega, by omega⟩
      · simp only [Tracked.record, reserveEventForReporting_blocked t.link a hb]
        exact hr
      · rw [step_reserve_blocked t a hb]
        exact hrt
      · simp only [Tracked.record, reserveEventForReporting_blocked t.link a hb]
        exact hd
      · rw [step_reserve_blocked t a hb]
        exact hh
    · obtain ⟨s2, hret, e1, e2, e3, e4, e5, _⟩ :=
        reserveEventForReporting_returned t.link a hb
      refine ⟨n + 1, d, ?_, ?_, ?_, ?_, by omega, by omega, by omega, by omega⟩
      · simp only [Tracked.record, hret]
        rw [hr, hrt, range_map_mod_succ]
      · rw [step_reserve_returned t a s2 _ hret]
        show s2.queueReservedTail = _
        rw [e1, hrt]
        omega
      · simp only [Tracked.record, hret]
        exact hd
      · rw [step_reserve_returned t a s2 _ hret]
        show s2.queueHead = _
        rw [e3, hh]
  | commit eventId =>
    refine ⟨n, d, hr, ?_, hd, ?_, by omega, by omega, by omega, by omega⟩
    · simp only [Tracked.step, reportReservedEvent_queueReservedTail]
      exact hrt
    · simp only [Tracked.step, reportReservedEvent_queueHead]
      exact hh
  | dispatch =>
    by_cases hb : dispatchingBlocks t.link
    · refine ⟨n, d, ?_, ?_, ?_, ?_, by omega, by omega, by omega, by omega⟩
      · simp only [Tracked.record, reserveEventForDispatching_blocked t.link hb]
        exact hr
      · rw [step_dispatch_blocked t hb]
        exact hrt
      · simp only [Tracked.record, reserveEventForDispatching_blocked t.link hb]
        exact hd
      · rw [step_dispatch_blocked t hb]
        exact hh
    · obtain ⟨s2, hret, e1, e2, e3, e4, e5, _⟩ :=
        reserveEventForDispatching_returned t.link hb
      refine ⟨n, d + 1, ?_, ?_, ?_, ?_, by omega, by omega, by omega, by omega⟩
      · simp only [Tracked.record, hret]
        exact hr
      · rw [step_dispatch_returned t s2 _ hret]
        show s2.queueReservedTail = _
        rw [e4, hrt]
      · simp only [Tracked.record, hret]
        rw [hd, hh, range_map_mod_succ]
        congr 2
        omega
      · rw [step_dispatch_returned t s2 _ hret]
        show s2.queueHead = _
        rw [e1, hh]
        omega
  | release eventId =>
    refine ⟨n, d, hr, ?_, hd, ?_, by omega, by omega, by omega, by omega⟩
    · simp only [Tracked.step, releaseEvent_queueReservedTail]
      exact hrt
    · simp only [Tracked.step, releaseEvent_queueHead]
      exact hh

theorem history_logs (t : Tracked P) (hist : History) (ops : List Op) (n d : Nat)
    (hr : hist.reserved = (List.range n).map (fun k => k % 256))
    (hrt : t.link.queueReservedTail = n % 256)
    (hd : hist.dispatched = (List.range d).map (fun k => k % 256))
    (hh : t.link.queueHead = d % 256) :
    ∃ n2 d2, (t.history hist ops).reserved = (List.range n2).map (fun k => k % 256) ∧
      (t.run ops).link.queueReservedTail = n2 % 256 ∧
      (t.history hist ops).dispatched = (List.range d2).map (fun k => k % 256) ∧
      (t.run ops).link.queueHead = d2 % 256 := by
  induction ops generalizing t hist n d with
  | nil => exact ⟨n, d, hr, hrt, hd, hh⟩
  | cons op ops ih =>
    obtain ⟨n2, d2, h1, h2, h3, h4, _⟩ := record_step t hist op n d hr hrt hd hh
    exact ih (t.step op) (t.record hist op) n2 d2 h1 h2 h3 h4

theorem chain_range_mod (n : Nat) :
    List.Chain' (fun a b => b = (a + 1) % 256) ((List.range n).map (fun k => k % 256)) := by
  rw [List.chain'_map]
  cases n with
  | zero => simp
  | succ n =>
    rw [List.chain'_range_succ]
    intro m _
    omega

/-- C13. FIFO among reserves: along any run from a fresh link, the ids returned by the
successful reservations are `0, 1, 2, ...` counted modulo 256: the first is `0`, each
later one is the previous one plus one modulo 256 (255 wraps to 0), and every id is
below 256, whatever commits, dispatches and releases happen in between. -/
theorem fifo_among_reserves (payload : Nat → P) (ops : List Op) :
    ((Tracked.new payload).history History.empty ops).reserved
      = (List.range ((Tracked.new payload).history History.empty ops).reserved.length).map
        (fun k => k % 256) ∧
    (((Tracked.new payload).history History.empty ops).reserved = [] ∨
      ((Tracked.new payload).history History.empty ops).reserved.head? = some 0) ∧
    List.Chain' (fun a b => b = (a + 1) % 256)
      ((Tracked.new payload).history History.empty ops).reserved ∧
    ((Tracked.new payload).history History.empty ops).reserved.all (fun x => decide (x < 256))
      = true := by
  obtain ⟨n, d, h1, _, _, _⟩ :=
    history_logs (Tracked.new payload) History.empty ops 0 0 rfl rfl rfl rfl
  rw [h1]
  refine ⟨by simp, ?_, chain_range_mod n, ?_⟩
  · cases n with
    | zero => left; rfl
    | succ n =>
      right
      rw [List.range_succ_eq_map]
      rfl
  · rw [List.all_eq_true]
    intro x hx
    rw [List.mem_map] at hx
    obtain ⟨k, _, rfl⟩ := hx
    simp only [decide_eq_true_eq]
    omega

/-! ## Payloads stay in place -/

/-- No operation of the link writes an `eventParameter`. -/
theorem step_eventParameter (t : Tracked P) (op : Op) (i : Nat) :
    ((t.step op).link.events i).eventParameter = (t.link.events i).eventParameter := by
  cases op with
  | reserve a =>
    by_cases hb : reportingBlocks t.link
    · rw [step_reserve_blocked t a hb]
    · obtain ⟨s2, hret, e1, e2, e3, e4, e5, e6, _⟩ :=
        reserveEventForReporting_returned t.link a hb
      rw [step_reserve_returned t a s2 _ hret]
      show (s2.events i).eventParameter = _
      rw [e6]
      by_cases hi : i = t.link.queueReservedTail
      · rw [hi, Function.update_same]
      · rw [Function.update_noteq hi]
  | commit eventId => simp [Tracked.step]
  | dispatch =>
    by_cases hb : dispatchingBlocks t.link
    · rw [step_dispatch_blocked t hb]
    · obtain ⟨s2, hret, e1, e2, e3, e4, e5, e6, _⟩ :=
        reserveEventForDispatching_returned t.link hb
      rw [step_dispatch_returned t s2 _ hret]
      show (s2.events i).eventParameter = _
      rw [e6]
  | release eventId => simp [Tracked.step]

theorem run_eventParameter (t : Tracked P) (ops : List Op) (i : Nat) :
    ((t.run ops).link.events i).eventParameter = (t.link.events i).eventParameter := by
  induction ops generalizing t with
  | nil => rfl
  | cons op ops ih =>
    show (((t.step op).run ops).link.events i).eventParameter = _
    rw [ih, step_eventParameter]

/-- C14. Zero-copy hand-over: the parameter handle of `reserveEventForReporting` and
the element handle of `reserveEventForDispatching` for the same id designate the same
slot `events[id]`; `reportReservedEvent`, `reserveEventForDispatching` and
`releaseEvent` change no slot's content; hence, whatever calls are made in between,
the parameter read at dispatch is the value the producer wrote through its handle. -/
theorem zero_copy_handover (t : Tracked P) (a : Option Nat) (v : P)
    (r : Nat × ParameterPointer) (s1 : QueueEventLink P)
    (hr : reserveEventForReporting t.link a = Outcome.returned r s1)
    (ops : List Op) (e : Nat × ElementPointer) (s3 : QueueEventLink P)
    (hd : reserveEventForDispatching ((((t.step (Op.reserve a)).write r.2 v).run ops).link)
      = Outcome.returned e s3)
    (hid : e.1 = r.1) :
    r.2.slot = r.1 ∧ e.2.slot = e.1 ∧ e.2.slot = r.2.slot ∧
    (readElement s3 e.2).eventParameter = v ∧
    (∀ (s : QueueEventLink P) (eventId : Nat),
      (reportReservedEvent s eventId).events = s.events ∧
      (releaseEvent s eventId).events = s.events) ∧
    (∀ (s s4 : QueueEventLink P) (e2 : Nat × ElementPointer),
      reserveEventForDispatching s = Outcome.returned e2 s4 → s4.events = s.events) ∧
    (∀ (s s4 : QueueEventLink P),
      reserveEventForDispatching s = Outcome.blocked s4 → s4.events = s.events) := by
  have hdisp : ∀ (s s4 : QueueEventLink P) (e2 : Nat × ElementPointer),
      reserveEventForDispatching s = Outcome.returned e2 s4 →
        s4.events = s.events ∧ e2.2.slot = e2.1 := by
    intro s s4 e2 h
    by_cases hb : dispatchingBlocks s
    · rw [reserveEventForDispatching_blocked s hb] at h
      cases h
    · obtain ⟨s5, hret, _, _, _, _, _, e6, _⟩ := reserveEventForDispatching_returned s hb
      rw [hret] at h
      cases h
      exact ⟨e6, rfl⟩
  have hr1 : r.2.slot = r.1 := by
    by_cases hb : reportingBlocks t.link
    · rw [reserveEventForReporting_blocked t.link a hb] at hr
      cases hr
    · obtain ⟨s5, hret, _⟩ := reserveEventForReporting_returned t.link a hb
      rw [hret] at hr
      cases hr
      rfl
  obtain ⟨he3, he1⟩ := hdisp _ _ _ hd
  refine ⟨hr1, he1, by rw [he1, hr1, hid], ?_, ?_, fun s s4 e2 h => (hdisp s s4 e2 h).1, ?_⟩
  · unfold readElement
    rw [he3, run_eventParameter, he1, hid, ← hr1]
    simp [Tracked.write, writeParameter]
  · intro s eventId
    exact ⟨reportReservedEvent_events s eventId, releaseEvent_events s eventId⟩
  · intro s s4 h
    by_cases hb : dispatchingBlocks s
    · rw [reserveEventForDispatching_blocked s hb] at h
      cases h
      rfl
    · obtain ⟨s5, hret, _⟩ := reserveEventForDispatching_returned s hb
      rw [hret] at h
      cases h

theorem zero_copy_handover_witness :
    (readElement
      (((((Tracked.new zeroPayload).step (Op.reserve none)).write { slot := 0 } 42).run
        [Op.reserve none, Op.commit 1, Op.commit 0]).step Op.dispatch).link
      { slot := 0 }).eventParameter = 42 :=
  (zero_copy_handover (Tracked.new zeroPayload) none 42 (0, { slot := 0 }) _ rfl
    [Op.reserve none, Op.commit 1, Op.commit 0] (0, { slot := 0 }) _ rfl rfl).2.2.2.1

/-! ## Dispatch follows the reservation order -/

/-- When a reservation is not parked, fewer than 255 reserved slots await dispatch. -/
theorem ZoneInv.room_of_not_blocked {t : Tracked P} {oh ot oT : Nat}
    (h : ZoneInv t oh ot oT) (hb : ¬ reportingBlocks t.link) (n d : Nat)
    (hrt : t.link.queueReservedTail = n % 256) (hh : t.link.queueHead = d % 256)
    (h1 : d ≤ n) (h2 : n ≤ d + 255) : n ≤ d + 254 := by
  obtain ⟨f1, f2, f3, f4⟩ := h.reserve_facts
  have hl1 := h.le_ht
  have hl2 := h.le_tr
  have hl3 := h.le_cap
  have hRH := h.rhead_lt
  have eH := h.head_eq
  have eR := h.rtail_eq
  have hoh : oT = 255 → 1 ≤ oh := by
    intro hoT
    have hnb : ¬ (t.link.reservations t.link.queueReservedHead = true ∨
        t.link.queueReservedHead = t.link.queueHead) := fun hx => hb ⟨f1.2 hoT, hx⟩
    have : oh ≠ 0 := fun h0 => hnb (Or.inr (f2.2 h0))
    omega
  rw [hh] at eH
  rw [hrt] at eR
  omega

/-- When a dispatch is not parked, the slot at `queueHead` is Committed and at least
one reserved slot awaits dispatch. -/
theorem ZoneInv.committed_of_not_blocked {t : Tracked P} {oh ot oT : Nat}
    (h : ZoneInv t oh ot oT) (hb : ¬ dispatchingBlocks t.link) :
    t.phase (t.link.queueHead % 256) = Phase.committed ∧ oh < oT := by
  obtain ⟨f1, f2, f3, f4⟩ := h.reserve_facts
  have hl1 := h.le_ht
  have hl2 := h.le_tr
  have hl3 := h.le_cap
  have hs := h.slot oh (by omega)
  have hidx : t.link.queueHead % 256 = (t.link.queueReservedHead + oh) % 256 := by
    rw [h.head_eq]; omega
  rw [← hidx] at hs
  rw [← Phase.code_committed]
  by_cases c1 : t.link.queueHead = t.link.queueTail
  · have hnb : ¬ (t.link.reservations t.link.queueTail = true ∨
        t.link.queueTail = t.link.queueReservedTail) := fun hx => hb ⟨c1, hx⟩
    have hot : ot ≠ oT := fun h0 => hnb (Or.inr (f4.2 h0))
    have hoh : oh = ot := f3.1 c1
    have hr0 : (t.link.reservations (t.link.queueHead % 256)).toNat = 0 := by
      rw [toNat_false_iff]
      have e : t.link.queueHead % 256 = t.link.queueTail := by
        rw [← c1, h.head_eq]; omega
      rw [e]
      cases hx : t.link.reservations t.link.queueTail
      · rfl
      · exact absurd (Or.inl hx) hnb
    refine ⟨?_, by omega⟩
    show (t.phase (t.link.queueHead % 256)).code = 2
    omega
  · have hoh : oh ≠ ot := fun hx => c1 (f3.2 hx)
    refine ⟨?_, by omega⟩
    show (t.phase (t.link.queueHead % 256)).code = 2
    omega

theorem ZoneInv.waiting_of_not_blocked {t : Tracked P} {oh ot oT : Nat}
    (h : ZoneInv t oh ot oT) (hb : ¬ dispatchingBlocks t.link) (n d : Nat)
    (hrt : t.link.queueReservedTail = n % 256) (hh : t.link.queueHead = d % 256)
    (h1 : d ≤ n) (h2 : n ≤ d + 255) : d < n := by
  have hlt := (h.committed_of_not_blocked hb).2
  have hl3 := h.le_cap
  have hRH := h.rhead_lt
  have eH := h.head_eq
  have eR := h.rtail_eq
  rw [hh] at eH
  rw [hrt] at eR
  omega

theorem FifoInv.fifo_init (payload : Nat → P) : FifoInv (Tracked.new payload) History.empty :=
  ⟨rfl, rfl, rfl, rfl, le_refl _, by simp [History.empty], rfl⟩

theorem FifoInv.fifo_advance {t : Tracked P} {hist : History} (hf : FifoInv t hist)
    (hi : Inv t) (op : Op) : FifoInv (t.step op) (t.record hist op) := by
  obtain ⟨oh, ot, oT, hz⟩ := hi
  obtain ⟨hr, hrt, hd, hh, hle, hcap, hp⟩ := hf
  obtain ⟨n, hn⟩ : ∃ n, hist.reserved.length = n := ⟨_, rfl⟩
  obtain ⟨d, hdl⟩ : ∃ d, hist.dispatched.length = d := ⟨_, rfl⟩
  rw [hn] at hr hrt hle hcap hp
  rw [hdl] at hd hh hle hcap hp
  cases op with
  | reserve a =>
    by_cases hb : reportingBlocks t.link
    · rw [step_reserve_blocked t a hb]
      simp only [Tracked.record, reserveEventForReporting_blocked t.link a hb]
      refine ⟨?_, ?_, ?_, ?_, ?_, ?_, ?_⟩ <;> simp only [hn, hdl] <;> assumption
    · obtain ⟨s2, hret, e1, e2, e3, e4, e5, _⟩ :=
        reserveEventForReporting_returned t.link a hb
      have hroom := hz.room_of_not_blocked hb n d hrt hh hle hcap
      rw [step_reserve_returned t a s2 _ hret]
      simp only [Tracked.record, hret]
      refine ⟨?_, ?_, ?_, ?_, ?_, ?_, ?_⟩ <;>
        simp only [List.length_append, List.length_singleton, hn, hdl]
      · rw [range_map_mod_succ, ← hr, hrt]
      · rw [e1, hrt]; omega
      · exact hd
      · rw [e3, hh]
      · omega
      · omega
      · have e : n + 1 - d = (n - d) + 1 := by omega
        rw [e, List.range'_concat, List.map_append, ← hp, hrt]
        simp only [List.map_cons, List.map_nil, Nat.one_mul]
        congr 3
        omega
  | commit eventId =>
    simp only [Tracked.step, Tracked.record]
    refine ⟨?_, ?_, ?_, ?_, ?_, ?_, ?_⟩ <;>
      simp only [hn, hdl, reportReservedEvent_queueReservedTail,
        reportReservedEvent_queueHead] <;> assumption
  | dispatch =>
    by_cases hb : dispatchingBlocks t.link
    · rw [step_dispatch_blocked t hb]
      simp only [Tracked.record, reserveEventForDispatching_blocked t.link hb]
      refine ⟨?_, ?_, ?_, ?_, ?_, ?_, ?_⟩ <;> simp only [hn, hdl] <;> assumption
    · obtain ⟨s2, hret, e1, e2, e3, e4, e5, _⟩ :=
        reserveEventForDispatching_returned t.link hb
      have hwait := hz.waiting_of_not_blocked hb n d hrt hh hle hcap
      rw [step_dispatch_returned t s2 _ hret]
      simp only [Tracked.record, hret]
      have hid : t.link.queueHead % 256 = d % 256 := by rw [hh]; omega
      refine ⟨?_, ?_, ?_, ?_, ?_, ?_, ?_⟩ <;>
        simp only [List.length_append, List.length_singleton, hn, hdl]
      · exact hr
      · rw [e4, hrt]
      · rw [range_map_mod_succ, ← hd, hid]
      · rw [e1, hid]; omega
      · omega
      · omega
      · have e : n - d = (n - (d + 1)) + 1 := by omega
        rw [hp, e, List.range'_succ, List.map_cons, hid, List.erase_cons_head]
  | release eventId =>
    simp only [Tracked.step, Tracked.record]
    refine ⟨?_, ?_, ?_, ?_, ?_, ?_, ?_⟩ <;>
      simp only [hn, hdl, releaseEvent_queueReservedTail, releaseEvent_queueHead] <;>
      assumption

theorem fifo_along (t : Tracked P) (hist : History) (ops : List Op)
    (hf : FifoInv t hist) (hi : Inv t) (hc : t.conforming ops = true) :
    FifoInv (t.run ops) (t.history hist ops) := by
  induction ops generalizing t hist with
  | nil => exact hf
  | cons op ops ih =>
    simp only [Tracked.conforming, Bool.and_eq_true] at hc
    exact ih (t.step op) (t.record hist op) (hf.fifo_advance hi op) (hi.step op hc.1) hc.2

/-- What the invariant says about a dispatch that returns: the id is the oldest
pending slot, and every later pending slot differs from it. -/
theorem FifoInv.dispatch_returns_oldest {t : Tracked P} {hist : History}
    (hf : FifoInv t hist) (hi : Inv t) (e : Nat × ElementPointer) (s2 : QueueEventLink P)
    (hd : reserveEventForDispatching t.link = Outcome.returned e s2) :
    hist.pending.head? = some e.1 ∧ t.phase e.1 = Phase.committed ∧
      ∀ j b, 0 < j → hist.pending[j]? = some b → b ≠ e.1 := by
  obtain ⟨oh, ot, oT, hz⟩ := hi
  obtain ⟨hr, hrt, hdq, hh, hle, hcap, hp⟩ := hf
  by_cases hb : dispatchingBlocks t.link
  · rw [reserveEventForDispatching_blocked t.link hb] at hd
    cases hd
  · obtain ⟨s3, hret, _⟩ := reserveEventForDispatching_returned t.link hb
    rw [hret] at hd
    cases hd
    have hwait := hz.waiting_of_not_blocked hb _ _ hrt hh hle hcap
    have hid : t.link.queueHead % 256 = hist.dispatched.length % 256 := by rw [hh]; omega
    refine ⟨?_, (hz.committed_of_not_blocked hb).1, ?_⟩
    · have e : hist.reserved.length - hist.dispatched.length
          = (hist.reserved.length - (hist.dispatched.length + 1)) + 1 := by omega
      rw [hp, e, List.range'_succ, List.map_cons, List.head?_cons, hid]
    · intro j b hj hjb
      have hlen : hist.pending.length
          = hist.reserved.length - hist.dispatched.length := by
        rw [hp, List.length_map, List.length_range']
      have hlt : j < hist.reserved.length - hist.dispatched.length := by
        rw [← hlen]
        by_contra hge
        rw [List.getElem?_eq_none (by omega)] at hjb
        cases hjb
      rw [hp, List.getElem?_map, List.getElem?_range' _ _ hlt] at hjb
      show b ≠ t.link.queueHead % 256
      rw [hid]
      simp only [Option.map_some', Option.some.injEq] at hjb
      omega

/-- C15, as stated, fails: no protocol-conforming run from a fresh link reaches a state
in which slot `a` was reserved before slot `b`, both still awaiting dispatch, `a` not yet
committed and `b` committed, and `reserveEventForDispatching` returns `b`. -/
theorem no_overtaking_at_dispatch :
    ¬ ∃ (payload : Nat → Nat) (ops : List Op) (i j a b : Nat) (e : Nat × ElementPointer)
        (s2 : QueueEventLink Nat),
      (Tracked.new payload).conforming ops = true ∧ i < j ∧
      ((Tracked.new payload).history History.empty ops).pending[i]? = some a ∧
      ((Tracked.new payload).history History.empty ops).pending[j]? = some b ∧
      ((Tracked.new payload).run ops).phase a = Phase.reservedForProduce ∧
      ((Tracked.new payload).run ops).phase b = Phase.committed ∧
      reserveEventForDispatching ((Tracked.new payload).run ops).link
        = Outcome.returned e s2 ∧
      e.1 = b := by
  rintro ⟨payload, ops, i, j, a, b, e, s2, hc, hij, _, hb, _, _, hd, heb⟩
  have hf := fifo_along (Tracked.new payload) History.empty ops (FifoInv.fifo_init payload)
    (Inv.new payload) hc
  have hi := inv_of_conforming payload ops hc
  exact (hf.dispatch_returns_oldest hi e s2 hd).2.2 j b (by omega) hb heb.symm

/-- C15, amended. In every protocol-conforming run from a fresh link, the ids returned
by the successful `reserveEventForDispatching` calls are a prefix of the ids returned by
the successful reservations; a dispatch that returns hands out the oldest pending slot;
and while the oldest pending slot is not yet committed the dispatch parks, even when
later-reserved slots are already committed. -/
theorem dispatch_follows_reservation_order (payload : Nat → P) (ops : List Op)
    (hc : (Tracked.new payload).conforming ops = true) :
    ((Tracked.new payload).history History.empty ops).dispatched
      <+: ((Tracked.new payload).history History.empty ops).reserved ∧
    (∀ (e : Nat × ElementPointer) (s2 : QueueEventLink P),
      reserveEventForDispatching ((Tracked.new payload).run ops).link
        = Outcome.returned e s2 →
      ((Tracked.new payload).history History.empty ops).pending.head? = some e.1) ∧
    (∀ a, ((Tracked.new payload).history History.empty ops).pending.head? = some a →
      ((Tracked.new payload).run ops).phase a = Phase.reservedForProduce →
      ∃ s2, reserveEventForDispatching ((Tracked.new payload).run ops).link
        = Outcome.blocked s2) := by
  have hf := fifo_along (Tracked.new payload) History.empty ops (FifoInv.fifo_init payload)
    (Inv.new payload) hc
  have hi := inv_of_conforming payload ops hc
  generalize (Tracked.new payload).run ops = t at hf hi
  generalize (Tracked.new payload).history History.empty ops = hist at hf
  refine ⟨?_, ?_, ?_⟩
  · have hle := hf.le
    rw [hf.reserved_eq, hf.dispatched_eq]
    obtain ⟨m, hm⟩ : ∃ m, hist.reserved.length = hist.dispatched.length + m :=
      ⟨hist.reserved.length - hist.dispatched.length, by omega⟩
    rw [hm, List.range_add, List.map_append]
    exact List.prefix_append _ _
  · intro e s2 hd
    exact (hf.dispatch_returns_oldest hi e s2 hd).1
  · intro a ha hpa
    by_cases hb : dispatchingBlocks t.link
    · exact ⟨_, reserveEventForDispatching_blocked t.link hb⟩
    · exfalso
      obtain ⟨s3, hret, _⟩ := reserveEventForDispatching_returned t.link hb
      obtain ⟨h1, h2, _⟩ := hf.dispatch_returns_oldest hi _ s3 hret
      rw [h1] at ha
      cases ha
      rw [h2] at hpa
      cases hpa

theorem dispatch_follows_reservation_order_witness :
    (Tracked.new zeroPayload).conforming
      [Op.reserve none, Op.reserve none, Op.commit 1] = true ∧
    ((Tracked.new zeroPayload).history History.empty
      [Op.reserve none, Op.reserve none, Op.commit 1]).pending = [0, 1] ∧
    ((Tracked.new zeroPayload).run
      [Op.reserve none, Op.reserve none, Op.commit 1]).phase 1 = Phase.committed ∧
    ∃ s2, reserveEventForDispatching
      ((Tracked.new zeroPayload).run [Op.reserve none, Op.reserve none, Op.commit 1]).link
        = Outcome.blocked s2 :=
  ⟨by decide, by decide, by decide,
    (dispatch_follows_reservation_order zeroPayload
      [Op.reserve none, Op.reserve none, Op.commit 1] (by decide)).2.2 0 (by decide)
      (by decide)⟩

/-! ## Dispatch follows the commit order of a single producer -/

theorem CommitOrderInv.commit_init (payload : Nat → P) :
    CommitOrderInv (Tracked.new payload) History.empty := by
  refine ⟨FifoInv.fifo_init payload, rfl, le_refl _, le_refl _, rfl, ?_, ?_⟩
  · intro k h1 h2
    simp [History.empty] at h2
  · intro k h1 h2
    simp [History.empty] at h2

theorem CommitOrderInv.commit_advance {t : Tracked P} {hist : History}
    (hk : CommitOrderInv t hist) (hi : Inv t) (op : Op) (ha : t.allows op = true)
    (hio : t.allowsCommitInOrder op = true) :
    CommitOrderInv (t.step op) (t.record hist op) := by
  have hfa := hk.fifo.fifo_advance hi op
  obtain ⟨oh, ot, oT, hz⟩ := hi
  obtain ⟨hf, hcq, hdle, hcle, hprod, hfill, hready⟩ := hk
  have hrt := hf.rtail_eq
  have hh := hf.head_eq
  have hle := hf.le
  have hcap := hf.cap
  obtain ⟨n, hn⟩ : ∃ n, hist.reserved.length = n := ⟨_, rfl⟩
  obtain ⟨d, hdl⟩ : ∃ d, hist.dispatched.length = d := ⟨_, rfl⟩
  obtain ⟨c, hcl⟩ : ∃ c, hist.committed.length = c := ⟨_, rfl⟩
  rw [hn] at hrt hle hcap hcle hprod hfill
  rw [hdl] at hh hle hcap hdle hready
  rw [hcl] at hcq hdle hcle hprod hfill hready
  cases op with
  | reserve a =>
    by_cases hb : reportingBlocks t.link
    · refine ⟨hfa, ?_, ?_, ?_, ?_, ?_, ?_⟩ <;>
        simp only [step_reserve_blocked t a hb, Tracked.record,
          reserveEventForReporting_blocked t.link a hb, hn, hdl, hcl] <;> assumption
    · obtain ⟨s2, hret, e1, e2, e3, e4, e5, _⟩ :=
        reserveEventForReporting_returned t.link a hb
      have hroom := hz.room_of_not_blocked hb n d hrt hh hle hcap
      refine ⟨hfa, ?_, ?_, ?_, ?_, ?_, ?_⟩ <;>
        simp only [step_reserve_returned t a s2 _ hret, Tracked.record, hret,
          List.length_append, List.length_singleton, hn, hdl, hcl]
      · exact hcq
      · exact hdle
      · omega
      · have e : n + 1 - c = (n - c) + 1 := by omega
        rw [e, List.range'_concat, List.map_append, ← hprod, hrt]
        simp only [List.map_cons, List.map_nil, Nat.one_mul]
        congr 3
        omega
      · intro k h1 h2
        rw [hrt, Function.update_apply]
        split_ifs with hkn
        · rfl
        · exact hfill k h1 (by
            by_contra hge
            exact hkn (by congr 1; omega))
      · intro k h1 h2
        rw [hrt]
        have hne : k % 256 ≠ n % 256 := by omega
        rw [Function.update_noteq hne]
        exact hready k h1 h2
  | commit eventId =>
    simp only [Tracked.allowsCommitInOrder, decide_eq_true_eq] at hio
    have hlt : c < n := by
      by_contra hge
      have e : n - c = 0 := by omega
      rw [hprod, e] at hio
      simp at hio
    have e : n - c = (n - (c + 1)) + 1 := by omega
    rw [e, List.range'_succ, List.map_cons] at hprod
    rw [hprod, List.head?_cons, Option.some.injEq] at hio
    refine ⟨hfa, ?_, ?_, ?_, ?_, ?_, ?_⟩ <;>
      simp only [Tracked.step, Tracked.record, List.length_append, List.length_singleton,
        hn, hdl, hcl]
    · rw [range_map_mod_succ, ← hcq, hio]
    · omega
    · omega
    · rw [hprod, ← hio, List.erase_cons_head]
    · intro k h1 h2
      have hne : k % 256 ≠ eventId := by rw [← hio]; omega
      rw [Function.update_noteq hne]
      exact hfill k (by omega) h2
    · intro k h1 h2
      rw [Function.update_apply]
      split_ifs with hkc
      · rfl
      · exact hready k h1 (by
          by_contra hge
          apply hkc
          rw [← hio]
          congr 1
          omega)
  | dispatch =>
    by_cases hb : dispatchingBlocks t.link
    · refine ⟨hfa, ?_, ?_, ?_, ?_, ?_, ?_⟩ <;>
        simp only [step_dispatch_blocked t hb, Tracked.record,
          reserveEventForDispatching_blocked t.link hb, hn, hdl, hcl] <;> assumption
    · obtain ⟨s2, hret, e1, e2, e3, e4, e5, _⟩ :=
        reserveEventForDispatching_returned t.link hb
      have hwait := hz.waiting_of_not_blocked hb n d hrt hh hle hcap
      have hcom := (hz.committed_of_not_blocked hb).1
      have hid : t.link.queueHead % 256 = d % 256 := by rw [hh]; omega
      rw [hid] at hcom
      have hdc : d < c := by
        by_contra hge
        have := hfill d (by omega) hwait
        rw [this] at hcom
        cases hcom
      refine ⟨hfa, ?_, ?_, ?_, ?_, ?_, ?_⟩ <;>
        simp only [step_dispatch_returned t s2 _ hret, Tracked.record, hret,
          List.length_append, List.length_singleton, hn, hdl, hcl]
      · exact hcq
      · omega
      · exact hcle
      · exact hprod
      · intro k h1 h2
        rw [hid]
        have hne : k % 256 ≠ d % 256 := by omega
        rw [Function.update_noteq hne]
        exact hfill k h1 h2
      · intro k h1 h2
        rw [hid]
        have hne : k % 256 ≠ d % 256 := by omega
        rw [Function.update_noteq hne]
        exact hready k (by omega) h2
  | release eventId =>
    simp only [Tracked.allows, decide_eq_true_eq] at ha
    refine ⟨hfa, ?_, ?_, ?_, ?_, ?_, ?_⟩ <;>
      simp only [Tracked.step, Tracked.record, hn, hdl, hcl]
    · exact hcq
    · exact hdle
    · exact hcle
    · exact hprod
    · intro k h1 h2
      have hp := hfill k h1 h2
      have hne : k % 256 ≠ eventId := by
        intro he
        rw [he, ha] at hp
        cases hp
      rw [Function.update_noteq hne]
      exact hp
    · intro k h1 h2
      have hp := hready k h1 h2
      have hne : k % 256 ≠ eventId := by
        intro he
        rw [he, ha] at hp
        cases hp
      rw [Function.update_noteq hne]
      exact hp

theorem commit_order_along (t : Tracked P) (hist : History) (ops : List Op)
    (hk : CommitOrderInv t hist) (hi : Inv t)
    (hc : t.conformingCommitInOrder ops = true) :
    CommitOrderInv (t.run ops) (t.history hist ops) := by
  induction ops generalizing t hist with
  | nil => exact hk
  | cons op ops ih =>
    simp only [Tracked.conformingCommitInOrder, Bool.and_eq_true] at hc
    exact ih (t.step op) (t.record hist op) (hk.commit_advance hi op hc.1.1 hc.1.2)
      (hi.step op hc.1.1) hc.2

/-- C16. Dispatch in commit order: along a run from a fresh link in which every commit
is of the slot reserved first among those not yet committed (any number of events),
the ids returned by the successful `reserveEventForDispatching` calls are a prefix of
the ids committed, in the same order with none skipped or repeated, and they are the
whole committed sequence once no slot is left in phase Committed. -/
theorem dispatch_in_commit_order (payload : Nat → P) (ops : List Op)
    (hc : (Tracked.new payload).conformingCommitInOrder ops = true) :
    ((Tracked.new payload).history History.empty ops).dispatched
      <+: ((Tracked.new payload).history History.empty ops).committed ∧
    ((∀ i, i < 256 → ((Tracked.new payload).run ops).phase i ≠ Phase.committed) →
      ((Tracked.new payload).history History.empty ops).dispatched
        = ((Tracked.new payload).history History.empty ops).committed) := by
  have hk := commit_order_along (Tracked.new payload) History.empty ops
    (CommitOrderInv.commit_init payload) (Inv.new payload) hc
  generalize (Tracked.new payload).run ops = t at hk
  generalize (Tracked.new payload).history History.empty ops = hist at hk
  have hdle := hk.dle
  refine ⟨?_, ?_⟩
  · rw [hk.committed_eq, hk.fifo.dispatched_eq]
    obtain ⟨m, hm⟩ : ∃ m, hist.committed.length = hist.dispatched.length + m :=
      ⟨hist.committed.length - hist.dispatched.length, by omega⟩
    rw [hm, List.range_add, List.map_append]
    exact List.prefix_append _ _
  · intro hnone
    have hlen : hist.dispatched.length = hist.committed.length := by
      by_contra hne
      exact hnone (hist.dispatched.length % 256) (by omega)
        (hk.ready hist.dispatched.length (le_refl _) (by omega))
    rw [hk.committed_eq, hk.fifo.dispatched_eq, hlen]

set_option maxRecDepth 100000 in
theorem dispatch_in_commit_order_witness :
    (Tracked.new zeroPayload).conformingCommitInOrder
      [Op.reserve none, Op.reserve none, Op.reserve none, Op.commit 0, Op.commit 1,
        Op.dispatch, Op.dispatch, Op.release 1, Op.commit 2, Op.dispatch, Op.release 0,
        Op.release 2] = true ∧
    ((Tracked.new zeroPayload).history History.empty
      [Op.reserve none, Op.reserve none, Op.reserve none, Op.commit 0, Op.commit 1,
        Op.dispatch, Op.dispatch, Op.release 1, Op.commit 2, Op.dispatch, Op.release 0,
        Op.release 2]).committed = [0, 1, 2] ∧
    ((Tracked.new zeroPayload).history History.empty
      [Op.reserve none, Op.reserve none, Op.reserve none, Op.commit 0, Op.commit 1,
        Op.dispatch, Op.dispatch, Op.release 1, Op.commit 2, Op.dispatch, Op.release 0,
        Op.release 2]).dispatched
      = ((Tracked.new zeroPayload).history History.empty
      [Op.reserve none, Op.reserve none, Op.reserve none, Op.commit 0, Op.commit 1,
        Op.dispatch, Op.dispatch, Op.release 1, Op.commit 2, Op.dispatch, Op.release 0,
        Op.release 2]).committed :=
  ⟨by decide, by decide,
    (dispatch_in_commit_order zeroPayload
      [Op.reserve none, Op.reserve none, Op.reserve none, Op.commit 0, Op.commit 1,
        Op.dispatch, Op.dispatch, Op.release 1, Op.commit 2, Op.dispatch, Op.release 0,
        Op.release 2] (by decide)).2 (by decide)⟩

/-! ## Waiting for an answer -/

/-- C17. Misuse detection: `waitForAnswer(id)` on a slot whose `answerObjectReference`
is null, as a reservation made without an answer pointer leaves it, throws
`runtime_error` and leaves the link, the slot's answer mutex included, as it was.  The
slot looked at is the one of the id as the 8-bit parameter receives it; the id a
reservation returns is `queueReservedTail`, below 256 like every index the link
writes. -/
theorem waitForAnswer_without_answer_pointer (s : QueueEventLink P)
    (r : Nat × ParameterPointer) (s2 : QueueEventLink P)
    (hrt : s.queueReservedTail < 256)
    (hr : reserveEventForReporting s none = Outcome.returned r s2) :
    waitForAnswer s2 r.1 = Attempt.threw StdError.runtime_error s2 ∧
    (∀ (ops : List Op) (t : Tracked P), t.link = s2 →
      (∀ op ∈ ops, ∀ a, op ≠ Op.reserve a) →
      waitForAnswer (t.run ops).link r.1
        = Attempt.threw StdError.runtime_error (t.run ops).link) ∧
    (∀ (s3 : QueueEventLink P) (eventId : Nat),
      (s3.events (eventId % 256)).answerObjectReference = none →
      waitForAnswer s3 eventId = Attempt.threw StdError.runtime_error s3) := by
  have hgen : ∀ (s3 : QueueEventLink P) (eventId : Nat),
      (s3.events (eventId % 256)).answerObjectReference = none →
      waitForAnswer s3 eventId = Attempt.threw StdError.runtime_error s3 := by
    intro s3 eventId h
    simp only [waitForAnswer, toQueueSlotsType]
    rw [if_pos h]
  have hnull : r.1 % 256 = r.1 ∧ (s2.events r.1).answerObjectReference = none := by
    by_cases hb : reportingBlocks s
    · rw [reserveEventForReporting_blocked s none hb] at hr
      cases hr
    · obtain ⟨s3, hret, _, _, _, _, _, e6, _⟩ := reserveEventForReporting_returned s none hb
      rw [hret] at hr
      cases hr
      refine ⟨Nat.mod_eq_of_lt hrt, ?_⟩
      rw [e6, Function.update_same]
  refine ⟨hgen s2 r.1 (by rw [hnull.1]; exact hnull.2), ?_, hgen⟩
  intro ops t ht hops
  apply hgen
  rw [hnull.1]
  have key : ∀ (ops : List Op) (t : Tracked P),
      (∀ op ∈ ops, ∀ a, op ≠ Op.reserve a) → (t.run ops).link.events = t.link.events := by
    intro ops
    induction ops with
    | nil => intro t _; rfl
    | cons op ops ih =>
      intro t hops
      show ((t.step op).run ops).link.events = _
      rw [ih (t.step op) (fun o ho => hops o (List.mem_cons_of_mem _ ho))]
      cases op with
      | reserve a => exact absurd rfl (hops (Op.reserve a) (List.mem_cons_self _ _) a)
      | commit eventId => simp [Tracked.step]
      | dispatch =>
        by_cases hb : dispatchingBlocks t.link
        · rw [step_dispatch_blocked t hb]
        · obtain ⟨s5, hret, _, _, _, _, _, e6, _⟩ :=
            reserveEventForDispatching_returned t.link hb
          rw [step_dispatch_returned t s5 _ hret]
          exact e6
      | release eventId => simp [Tracked.step]
  rw [key ops t hops, ht]
  exact hnull.2

theorem waitForAnswer_without_answer_pointer_witness :
    waitForAnswer
      ((Tracked.new zeroPayload).step (Op.reserve none)).link 0
      = Attempt.threw StdError.runtime_error
        ((Tracked.new zeroPayload).step (Op.reserve none)).link :=
  (waitForAnswer_without_answer_pointer (Tracked.new zeroPayload).link
    (0, { slot := 0 }) _ (by decide) rfl).1

/-- The slot a worker finds after reserve with answer cell `p`, write of `n`, commit and
dispatch of the same id: answer pointer `p`, parameter `n`, answer mutex locked. -/
theorem produced_slot (s : QueueEventLink P) (p : Nat) (n : P)
    (r : Nat × ParameterPointer) (s1 : QueueEventLink P)
    (hr : reserveEventForReporting s (some p) = Outcome.returned r s1)
    (e : Nat × ElementPointer) (s4 : QueueEventLink P)
    (hd : reserveEventForDispatching (reportReservedEvent (writeParameter s1 r.2 n) r.1)
      = Outcome.returned e s4)
    (hid : e.1 = r.1) :
    e.2.slot = r.1 ∧
    s4.events r.1
      = { answerObjectReference := some p, eventParameter := n, answerMutex := true } ∧
    r.1 < 256 := by
  have hr2 : r.2.slot = r.1 ∧ s1.events r.1
      = { answerObjectReference := some p
          eventParameter := (s.events r.1).eventParameter
          answerMutex := true } := by
    by_cases hb : reportingBlocks s
    · rw [reserveEventForReporting_blocked s (some p) hb] at hr
      cases hr
    · obtain ⟨s3, hret, _, _, _, _, _, e6, _⟩ :=
        reserveEventForReporting_returned s (some p) hb
      rw [hret] at hr
      cases hr
      refine ⟨rfl, ?_⟩
      rw [e6, Function.update_same]
      simp
  have hd2 : e.2.slot = e.1 ∧ s4.events
      = (reportReservedEvent (writeParameter s1 r.2 n) r.1).events ∧ e.1 < 256 := by
    generalize reportReservedEvent (writeParameter s1 r.2 n) r.1 = s3 at hd
    by_cases hb : dispatchingBlocks s3
    · rw [reserveEventForDispatching_blocked s3 hb] at hd
      cases hd
    · obtain ⟨s5, hret, _, _, _, _, _, e6, _⟩ := reserveEventForDispatching_returned s3 hb
      rw [hret] at hd
      cases hd
      exact ⟨rfl, e6, Nat.mod_lt _ (by omega)⟩
  refine ⟨by rw [hd2.1, hid], ?_, by rw [← hid]; exact hd2.2.2⟩
  rw [hd2.2.1, reportReservedEvent_events]
  simp only [writeParameter, hr2.1, Function.update_same, hr2.2]

/-- C18. Answerfull round trip: after `reserveEventForReporting(p)`, the write of `n`,
the commit and the dispatch of that event, `consumeAnswerfullEvent` calls the consumer
with parameter `n` and answer pointer `p` (the producer's wait being parked until
then); with a consumer that stores `f(n)` into its answer argument and opens the
signal, `waitForAnswer(id)` then returns `p` and the cell at `p` holds `f(n)`. -/
theorem answerfull_round_trip {A : Type} (w : World P A) (p : Nat) (n : P) (f : P → A)
    (consumerThis : Nat)
    (r : Nat × ParameterPointer) (s1 : QueueEventLink P)
    (hr : reserveEventForReporting w.link (some p) = Outcome.returned r s1)
    (e : Nat × ElementPointer) (s4 : QueueEventLink P)
    (hd : reserveEventForDispatching (reportReservedEvent (writeParameter s1 r.2 n) r.1)
      = Outcome.returned e s4)
    (hid : e.1 = r.1) :
    (∀ consumer : AnswerfullConsumer P A,
      consumeAnswerfullEvent { w with link := s4 } consumer consumerThis e.2
        = consumeAnswerfullEvent { w with link := s4 }
          (fun _ _ _ _ _ => consumer consumerThis n (some p) w.memory true)
          consumerThis e.2 ∧
      linkConsumeAnswerfullEvent { w with link := s4 } consumer consumerThis e.2
        = linkConsumeAnswerfullEvent { w with link := s4 }
          (fun _ _ _ _ _ => consumer consumerThis n (some p) w.memory true)
          consumerThis e.2) ∧
    waitForAnswer s4 r.1 = Attempt.blocked s4 ∧
    waitForAnswer
        (consumeAnswerfullEvent { w with link := s4 } (storingConsumer f)
          consumerThis e.2).link r.1
      = Attempt.returned (some p)
        (consumeAnswerfullEvent { w with link := s4 } (storingConsumer f)
          consumerThis e.2).link ∧
    (consumeAnswerfullEvent { w with link := s4 } (storingConsumer f)
      consumerThis e.2).memory p = f n ∧
    (linkConsumeAnswerfullEvent { w with link := s4 } (storingConsumer f)
      consumerThis e.2).1
      = consumeAnswerfullEvent { w with link := s4 } (storingConsumer f)
        consumerThis e.2 := by
  obtain ⟨hslot, hev, hlt⟩ := produced_slot w.link p n r s1 hr e s4 hd hid
  have hconv : toQueueSlotsType r.1 = r.1 := Nat.mod_eq_of_lt hlt
  refine ⟨?_, ?_, ?_, ?_, ?_⟩
  · intro consumer
    simp only [consumeAnswerfullEvent, linkConsumeAnswerfullEvent, hslot, hev, and_self]
  · simp [waitForAnswer, awaitAnswer, hconv, hev]
  · simp [waitForAnswer, awaitAnswer, hconv, consumeAnswerfullEvent, storingConsumer,
      afterConsumer, hslot, hev]
  · simp [consumeAnswerfullEvent, storingConsumer, afterConsumer, hslot, hev]
  · simp [consumeAnswerfullEvent, linkConsumeAnswerfullEvent, storingConsumer]

theorem answerfull_round_trip_witness :
    (consumeAnswerfullEvent (producedAndDispatched (World.new zeroPayload 0) 100 7)
      (storingConsumer (fun n => n * n)) 0 { slot := 0 }).memory 100 = 49 :=
  (answerfull_round_trip (World.new zeroPayload (0 : Nat)) 100 (7 : Nat)
    (fun n : Nat => n * n) 0 (0, { slot := 0 }) _ (by rfl) (0, { slot := 0 }) _ (by rfl)
    rfl).2.2.2.1

/-! ## Consumer failures -/

/-- After `QueueEventDispatcher::consumeAnswerfullEvent`, by the way the consumer body
ended: a return or an exception deriving from `std::exception` leaves the answer
pointer as it was and the answer mutex as the body left it; any other exception nulls
the pointer and unlocks the mutex if the body left it locked. -/
theorem consumeAnswerfullEvent_slot {A : Type} (w : World P A)
    (consumerMethod : AnswerfullConsumer P A) (consumerThis : Nat)
    (dequeuedEvent : ElementPointer) :
    (consumeAnswerfullEvent w consumerMethod consumerThis dequeuedEvent).link.events
        dequeuedEvent.slot
      = (match (consumerMethod consumerThis
            (w.link.events dequeuedEvent.slot).eventParameter
            (w.link.events dequeuedEvent.slot).answerObjectReference
            w.memory (w.link.events dequeuedEvent.slot).answerMutex).thrown,
          (consumerMethod consumerThis
            (w.link.events dequeuedEvent.slot).eventParameter
            (w.link.events dequeuedEvent.slot).answerObjectReference
            w.memory (w.link.events dequeuedEvent.slot).answerMutex).answerMutex with
        | some (Thrown.other _), true =>
          { answerObjectReference := none
            eventParameter := (w.link.events dequeuedEvent.slot).eventParameter
            answerMutex := false }
        | _, m =>
          { answerObjectReference := (w.link.events dequeuedEvent.slot).answerObjectReference
            eventParameter := (w.link.events dequeuedEvent.slot).eventParameter
            answerMutex := m }) := by
  unfold consumeAnswerfullEvent
  generalize consumerMethod consumerThis
    (w.link.events dequeuedEvent.slot).eventParameter
    (w.link.events dequeuedEvent.slot).answerObjectReference
    w.memory (w.link.events dequeuedEvent.slot).answerMutex = eff
  obtain ⟨thrown, memory, answerMutex⟩ := eff
  rcases thrown with _ | (what | value)
  · simp [afterConsumer]
  · simp [afterConsumer]
  · cases answerMutex <;> simp [afterConsumer, isMutexLocked]

/-- C19 fails on the code for exceptions deriving from `std::exception`: on a fresh link,
after reserve with answer cell 100, write of 7, commit and dispatch, a consumer that
throws such an exception leaves `answerObjectReference` non-null and the answer mutex
locked when `consumeAnswerfullEvent` returns, so `waitForAnswer` stays parked.  The
exception is stored on the slot. -/
theorem std_exception_leaves_producer_parked :
    ((consumeAnswerfullEvent (producedAndDispatched (World.new zeroPayload (0 : Nat)) 100 7)
      (throwingConsumer (Thrown.stdException 1)) 0 { slot := 0 }).link.events
        0).answerObjectReference = some 100 ∧
    ((consumeAnswerfullEvent (producedAndDispatched (World.new zeroPayload (0 : Nat)) 100 7)
      (throwingConsumer (Thrown.stdException 1)) 0 { slot := 0 }).link.events
        0).answerMutex = true ∧
    waitForAnswer
      (consumeAnswerfullEvent (producedAndDispatched (World.new zeroPayload (0 : Nat)) 100 7)
        (throwingConsumer (Thrown.stdException 1)) 0 { slot := 0 }).link 0
      = Attempt.blocked
        (consumeAnswerfullEvent
          (producedAndDispatched (World.new zeroPayload (0 : Nat)) 100 7)
          (throwingConsumer (Thrown.stdException 1)) 0 { slot := 0 }).link ∧
    (consumeAnswerfullEvent (producedAndDispatched (World.new zeroPayload (0 : Nat)) 100 7)
      (throwingConsumer (Thrown.stdException 1)) 0 { slot := 0 }).exception 0
      = some (Thrown.stdException 1) := by
  refine ⟨by decide, by decide, rfl, by decide⟩

/-- The sibling path: an exception not deriving from `std::exception`, thrown while the
answer mutex is locked, leaves `answerObjectReference` null and the mutex unlocked. -/
theorem other_exception_opens_signal {A : Type} (w : World P A) (value : Nat)
    (consumerThis : Nat) (dequeuedEvent : ElementPointer)
    (hlocked : (w.link.events dequeuedEvent.slot).answerMutex = true) :
    ((consumeAnswerfullEvent w (throwingConsumer (Thrown.other value)) consumerThis
      dequeuedEvent).link.events dequeuedEvent.slot).answerObjectReference = none ∧
    ((consumeAnswerfullEvent w (throwingConsumer (Thrown.other value)) consumerThis
      dequeuedEvent).link.events dequeuedEvent.slot).answerMutex = false := by
  rw [consumeAnswerfullEvent_slot]
  simp [throwingConsumer, hlocked]

/-- And an exception deriving from `std::exception` leaves any slot as the consumer
body left it. -/
theorem std_exception_leaves_slot {A : Type} (w : World P A) (what : Nat)
    (consumerThis : Nat) (dequeuedEvent : ElementPointer) :
    (consumeAnswerfullEvent w (throwingConsumer (Thrown.stdException what)) consumerThis
      dequeuedEvent).link.events dequeuedEvent.slot = w.link.events dequeuedEvent.slot := by
  rw [consumeAnswerfullEvent_slot]
  simp [throwingConsumer]

/-- C20 fails on the code: on a fresh link, after reserve with answer cell 100, write of
7, commit and dispatch, let the consumer throw an exception not deriving from
`std::exception`.  The exception is stored on the slot, but `waitForAnswer` called
afterwards throws the `runtime_error` of a reservation without answer pointer, and a
`waitForAnswer` that was parked before the failure resumes and returns a null pointer
as its result. -/
theorem consumer_failure_not_surfaced :
    (consumeAnswerfullEvent (producedAndDispatched (World.new zeroPayload (0 : Nat)) 100 7)
      (throwingConsumer (Thrown.other 1)) 0 { slot := 0 }).exception 0
      = some (Thrown.other 1) ∧
    waitForAnswer (producedAndDispatched (World.new zeroPayload (0 : Nat)) 100 7).link 0
      = Attempt.blocked (producedAndDispatched (World.new zeroPayload (0 : Nat)) 100 7).link ∧
    waitForAnswer
      (consumeAnswerfullEvent (producedAndDispatched (World.new zeroPayload (0 : Nat)) 100 7)
        (throwingConsumer (Thrown.other 1)) 0 { slot := 0 }).link 0
      = Attempt.threw StdError.runtime_error
        (consumeAnswerfullEvent
          (producedAndDispatched (World.new zeroPayload (0 : Nat)) 100 7)
          (throwingConsumer (Thrown.other 1)) 0 { slot := 0 }).link ∧
    awaitAnswer
      (consumeAnswerfullEvent (producedAndDispatched (World.new zeroPayload (0 : Nat)) 100 7)
        (throwingConsumer (Thrown.other 1)) 0 { slot := 0 }).link 0
      = Attempt.returned none
        (consumeAnswerfullEvent
          (producedAndDispatched (World.new zeroPayload (0 : Nat)) 100 7)
          (throwingConsumer (Thrown.other 1)) 0 { slot := 0 }).link := by
  refine ⟨by decide, rfl, rfl, rfl⟩

/-! ## The listener registry -/

theorem addListener_returned (N : Nat) (r : Registration) (fn ctx : Option Nat)
    (h : r.nListenerProcedureReferences < N) :
    addListener N r fn ctx = Attempt.returned ()
      { r with
        listenerProcedureReferences :=
          Function.update r.listenerProcedureReferences r.nListenerProcedureReferences fn
        listenersThis :=
          Function.update r.listenersThis r.nListenerProcedureReferences ctx
        nListenerProcedureReferences := r.nListenerProcedureReferences + 1 } := by
  unfold addListener
  rw [if_neg (by omega)]

theorem addListener_threw (N : Nat) (r : Registration) (fn ctx : Option Nat)
    (h : N ≤ r.nListenerProcedureReferences) :
    addListener N r fn ctx = Attempt.threw StdError.overflow_error r := by
  unfold addListener
  rw [if_pos h]

theorem addListeners_fill (N : Nat) (l : Option Nat × Option Nat) :
    ∀ (ls : List (Option Nat × Option Nat)) (r : Registration),
      r.nListenerProcedureReferences + ls.length = N →
      ∃ r2, addListeners N r ls = Attempt.returned () r2 ∧
        r2.nListenerProcedureReferences = N ∧
        addListeners N r (ls ++ [l]) = Attempt.threw StdError.overflow_error r2 := by
  intro ls
  induction ls with
  | nil =>
    intro r h
    refine ⟨r, rfl, by simpa using h, ?_⟩
    have h2 : N ≤ r.nListenerProcedureReferences := by
      simp only [List.length_nil] at h
      omega
    simp only [List.nil_append, addListeners, addListener_threw N r l.1 l.2 h2]
  | cons x xs ih =>
    intro r h
    simp only [List.length_cons] at h
    have h2 : r.nListenerProcedureReferences < N := by omega
    simp only [List.cons_append, addListeners, addListener_returned N r x.1 x.2 h2]
    exact ih _ (by simp only; omega)

/-- C21. Method `addListener` on a link with `_NListeners` slots: below capacity it
returns, having stored the function and its context at index
`nListenerProcedureReferences`, left every other entry and the consumers as they were,
and incremented the count; at capacity it throws `overflow_error` and leaves the
registration untouched; and of `_NListeners + 1` calls on a fresh link the first
`_NListeners` return while the last one throws `overflow_error`. -/
theorem addListener_contract (_NListeners : Nat) (r : Registration)
    (listenerProcedureReference listenerThis : Option Nat) :
    (r.nListenerProcedureReferences < _NListeners →
      ∃ r2, addListener _NListeners r listenerProcedureReference listenerThis
          = Attempt.returned () r2 ∧
        r2.listenerProcedureReferences r.nListenerProcedureReferences
          = listenerProcedureReference ∧
        r2.listenersThis r.nListenerProcedureReferences = listenerThis ∧
        r2.nListenerProcedureReferences = r.nListenerProcedureReferences + 1 ∧
        (∀ i, i ≠ r.nListenerProcedureReferences →
          r2.listenerProcedureReferences i = r.listenerProcedureReferences i ∧
          r2.listenersThis i = r.listenersThis i) ∧
        r2.answerlessConsumerProcedureReference = r.answerlessConsumerProcedureReference ∧
        r2.answerfullConsumerProcedureReference = r.answerfullConsumerProcedureReference ∧
        r2.answerlessConsumerThis = r.answerlessConsumerThis ∧
        r2.answerfullConsumerThis = r.answerfullConsumerThis) ∧
    (r.nListenerProcedureReferences = _NListeners →
      addListener _NListeners r listenerProcedureReference listenerThis
        = Attempt.threw StdError.overflow_error r) ∧
    (∀ (ls : List (Option Nat × Option Nat)) (l : Option Nat × Option Nat),
      ls.length = _NListeners →
      ∃ r2, addListeners _NListeners Registration.new ls = Attempt.returned () r2 ∧
        addListeners _NListeners Registration.new (ls ++ [l])
          = Attempt.threw StdError.overflow_error r2) := by
  refine ⟨fun h => ?_, fun h => ?_, fun ls l h => ?_⟩
  · refine ⟨_, addListener_returned _ r _ _ h, ?_, ?_, rfl, fun i hi => ⟨?_, ?_⟩,
      rfl, rfl, rfl, rfl⟩
    · simp
    · simp
    · exact Function.update_noteq hi _ _
    · exact Function.update_noteq hi _ _
  · exact addListener_threw _ r _ _ (by omega)
  · obtain ⟨r2, e1, -, e2⟩ := addListeners_fill _NListeners l ls Registration.new
      (by simpa [Registration.new, unsetConsumer] using h)
    exact ⟨r2, e1, e2⟩

theorem addListener_contract_witness :
    ∃ r2, addListeners 2 Registration.new [(some 11, some 111), (some 12, some 112)]
        = Attempt.returned () r2 ∧
      addListeners 2 Registration.new
          ([(some 11, some 111), (some 12, some 112)] ++ [(some 13, some 113)])
        = Attempt.threw StdError.overflow_error r2 :=
  (addListener_contract 2 Registration.new none none).2.2
    [(some 11, some 111), (some 12, some 112)] (some 13, some 113) rfl

theorem findListenerFrom_spec (r : Registration) (fn : Nat) :
    ∀ (remaining i : Nat),
      (findListenerFrom r fn remaining i = -1 ∧
        ∀ j, i ≤ j → j < i + remaining → r.listenerProcedureReferences j ≠ some fn) ∨
      (∃ p : Nat, findListenerFrom r fn remaining i = (p : Int) ∧ i ≤ p ∧
        p < i + remaining ∧ r.listenerProcedureReferences p = some fn ∧
        ∀ j, i ≤ j → j < p → r.listenerProcedureReferences j ≠ some fn) := by
  intro remaining
  induction remaining with
  | zero =>
    intro i
    exact Or.inl ⟨rfl, fun j h1 h2 => by omega⟩
  | succ k ih =>
    intro i
    by_cases h : r.listenerProcedureReferences i = some fn
    · refine Or.inr ⟨i, ?_, le_refl _, by omega, h, fun j h1 h2 => by omega⟩
      simp only [findListenerFrom, if_pos h]
    · have e : findListenerFrom r fn (k + 1) i = findListenerFrom r fn k (i + 1) := by
        simp only [findListenerFrom, if_neg h]
      rw [e]
      rcases ih (i + 1) with ⟨h1, h2⟩ | ⟨p, h1, h2, h3, h4, h5⟩
      · refine Or.inl ⟨h1, fun j hj1 hj2 => ?_⟩
        rcases Nat.eq_or_lt_of_le hj1 with hj | hj
        · rw [← hj]
          exact h
        · exact h2 j hj (by omega)
      · refine Or.inr ⟨p, h1, by omega, by omega, h4, fun j hj1 hj2 => ?_⟩
        rcases Nat.eq_or_lt_of_le hj1 with hj | hj
        · rw [← hj]
          exact h
        · exact h5 j hj hj2

theorem findListener_spec (r : Registration) (fn : Nat) :
    (findListener r fn = -1 ∧
      ∀ j, j < r.nListenerProcedureReferences →
        r.listenerProcedureReferences j ≠ some fn) ∨
    (∃ p : Nat, findListener r fn = (p : Int) ∧ p < r.nListenerProcedureReferences ∧
      r.listenerProcedureReferences p = some fn ∧
      ∀ j, j < p → r.listenerProcedureReferences j ≠ some fn) := by
  rcases findListenerFrom_spec r fn r.nListenerProcedureReferences 0 with
    ⟨h1, h2⟩ | ⟨p, h1, -, h3, h4, h5⟩
  · exact Or.inl ⟨h1, fun j hj => h2 j (Nat.zero_le _) (by omega)⟩
  · exact Or.inr ⟨p, h1, by omega, h4, fun j hj => h5 j (Nat.zero_le _) hj⟩

theorem findListener_of_first (r : Registration) (fn : Nat) (q : Nat)
    (h1 : q < r.nListenerProcedureReferences)
    (h2 : r.listenerProcedureReferences q = some fn)
    (h3 : ∀ j, j < q → r.listenerProcedureReferences j ≠ some fn) :
    findListener r fn = (q : Int) := by
  rcases findListener_spec r fn with ⟨-, k2⟩ | ⟨p, k1, -, k3, k4⟩
  · exact absurd h2 (k2 q h1)
  · rw [k1]
    have e : p = q := by
      rcases Nat.lt_trichotomy p q with h | h | h
      · exact absurd k3 (h3 p h)
      · exact h
      · exact absurd h2 (k4 q h)
    rw [e]

/-- C23. Method `findListener`: it returns `p` exactly when `p` is the smallest index
below `nListenerProcedureReferences` whose entry is the function asked for; it returns
`-1` exactly when no entry below the count is that function; its result is `-1` or an
index below the count.  (The method writes nothing: the registration is not part of
its result.) -/
theorem findListener_contract (r : Registration) (listenerProcedureReference : Nat) :
    (∀ p : Nat, findListener r listenerProcedureReference = (p : Int) ↔
      (p < r.nListenerProcedureReferences ∧
        r.listenerProcedureReferences p = some listenerProcedureReference ∧
        ∀ j, j < p → r.listenerProcedureReferences j ≠ some listenerProcedureReference)) ∧
    (findListener r listenerProcedureReference = -1 ↔
      ∀ i, i < r.nListenerProcedureReferences →
        r.listenerProcedureReferences i ≠ some listenerProcedureReference) ∧
    (findListener r listenerProcedureReference = -1 ∨
      (0 ≤ findListener r listenerProcedureReference ∧
        findListener r listenerProcedureReference
          < (r.nListenerProcedureReferences : Int))) := by
  rcases findListener_spec r listenerProcedureReference with
    ⟨h1, h2⟩ | ⟨p, h1, h2, h3, h4⟩
  · refine ⟨fun q => ⟨fun hq => ?_, fun hq => ?_⟩, ⟨fun _ => h2, fun _ => h1⟩, Or.inl h1⟩
    · rw [h1] at hq
      omega
    · exact absurd hq.2.1 (h2 q hq.1)
  · refine ⟨fun q => ⟨fun hq => ?_, fun hq => ?_⟩, ⟨fun hq => ?_, fun hq => ?_⟩,
      Or.inr ⟨?_, ?_⟩⟩
    · rw [h1] at hq
      have e : p = q := by omega
      rw [← e]
      exact ⟨h2, h3, h4⟩
    · exact findListener_of_first r listenerProcedureReference q hq.1 hq.2.1 hq.2.2
    · rw [h1] at hq
      omega
    · exact absurd h3 (hq p h2)
    · rw [h1]
      omega
    · rw [h1]
      omega

theorem copyFrontToBack_eq :
    ∀ (len : Nat) (a : Nat → Option Nat) (dst src i : Nat),
      dst ≤ src ∨ src + len ≤ dst →
      copyFrontToBack a dst src len i
        = if dst ≤ i ∧ i < dst + len then a (src + (i - dst)) else a i := by
  intro len
  induction len with
  | zero =>
    intro a dst src i _
    rw [if_neg (by omega)]
    rfl
  | succ k ih =>
    intro a dst src i h
    have e : copyFrontToBack a dst src (k + 1) i
        = copyFrontToBack (Function.update a dst (a src)) (dst + 1) (src + 1) k i := rfl
    rw [e, ih _ _ _ _ (by omega)]
    by_cases h1 : dst + 1 ≤ i ∧ i < dst + 1 + k
    · have e2 : src + 1 + (i - (dst + 1)) = src + (i - dst) := by omega
      rw [if_pos h1, if_pos (by omega), e2, Function.update_noteq (by omega)]
    · rw [if_neg h1]
      by_cases h2 : i = dst
      · have e3 : src + (dst - dst) = src := by omega
        rw [h2, Function.update_same, if_pos (by omega), e3]
      · rw [Function.update_noteq h2, if_neg (by omega)]

theorem copyFrontToBack_defined : Memcpy.defined copyFrontToBack := by
  intro a dst src len h i
  refine copyFrontToBack_eq len a dst src i ?_
  rcases h with h | h
  · exact Or.inl (by omega)
  · exact Or.inr h

theorem selectLoop_none_iff (pools : ConsumerPools) (args : DispatcherArguments) (i : Nat) :
    selectLoop pools args i = none ↔ supportedFlags args = false := by
  rcases args with ⟨n, pr, z, nt, al, af, d⟩
  cases z <;> cases nt <;> cases al <;> cases af <;> simp [selectLoop, supportedFlags]

theorem startThreads_unsupported (pools : ConsumerPools) (args : DispatcherArguments)
    (h : supportedFlags args = false) (remaining i : Nat) (threads : List StartedThread) :
    startThreads pools args (remaining + 1) i threads
      = { thrown := some StdError.invalid_argument, threads := threads } := by
  simp only [startThreads, (selectLoop_none_iff pools args i).2 h]

theorem new_of_priority (el : Registration) (pools : ConsumerPools)
    (traits : ArgumentTraits) (args : DispatcherArguments) (h : args.threadsPriority ≠ 0) :
    QueueEventDispatcher.new el pools traits args
      = { thrown := some StdError.invalid_argument, threads := [] } := by
  unfold QueueEventDispatcher.new
  rw [if_pos h]

theorem new_of_failed_check (el : Registration) (pools : ConsumerPools)
    (traits : ArgumentTraits) (args : DispatcherArguments) (hp : args.threadsPriority = 0)
    (h : (args.consumeAnswerlessEvents = true ∧
          (el.answerlessConsumerProcedureReference = none ∨
            pools.nAnswerlessConsumerThese < args.nThreads)) ∨
        (args.consumeAnswerfullEvents = true ∧
          pools.nAnswerfullConsumerThese < args.nThreads)) :
    QueueEventDispatcher.new el pools traits args
      = { thrown := some StdError.runtime_error, threads := [] } := by
  unfold QueueEventDispatcher.new
  rw [if_neg (by simp [hp])]
  by_cases h2 : args.consumeAnswerlessEvents = true
      ∧ el.answerlessConsumerProcedureReference = none
  · rw [if_pos h2]
  · rw [if_neg h2]
    by_cases h3 : args.consumeAnswerlessEvents = true
        ∧ args.nThreads > pools.nAnswerlessConsumerThese
    · rw [if_pos h3]
    · rw [if_neg h3]
      by_cases h4 : args.consumeAnswerfullEvents = true
          ∧ args.nThreads > pools.nAnswerfullConsumerThese
      · rw [if_pos h4]
      · exfalso
        rcases h with ⟨ha, hb | hb⟩ | ⟨ha, hb⟩
        · exact h2 ⟨ha, hb⟩
        · exact h3 ⟨ha, hb⟩
        · exact h4 ⟨ha, hb⟩

theorem new_of_checks (el : Registration) (pools : ConsumerPools)
    (traits : ArgumentTraits) (args : DispatcherArguments) (hp : args.threadsPriority = 0)
    (h2 : args.consumeAnswerlessEvents = true →
      el.answerlessConsumerProcedureReference ≠ none ∧
      args.nThreads ≤ pools.nAnswerlessConsumerThese)
    (h3 : args.consumeAnswerfullEvents = true →
      args.nThreads ≤ pools.nAnswerfullConsumerThese)
    (threads : List StartedThread) :
    (∀ e, startThreads pools args args.nThreads 0 []
        = { thrown := some e, threads := threads } →
      QueueEventDispatcher.new el pools traits args
        = { thrown := some e, threads := threads }) ∧
    (startThreads pools args args.nThreads 0 [] = { thrown := none, threads := threads } →
      QueueEventDispatcher.new el pools traits args
        = { thrown := setArgumentSerializer traits
            threads := if args.debug = true then threads ++ [StartedThread.debugTracker]
              else threads }) := by
  unfold QueueEventDispatcher.new
  rw [if_neg (by simp [hp]), if_neg (fun h => (h2 h.1).1 h.2),
    if_neg (fun h => absurd (h2 h.1).2 (by omega)),
    if_neg (fun h => absurd (h3 h.1) (by omega))]
  constructor
  · intro e hc
    rw [hc]
  · intro hc
    rw [hc]

theorem new_unsupported (el : Registration) (pools : ConsumerPools)
    (traits : ArgumentTraits) (args : DispatcherArguments) (hp : args.threadsPriority = 0)
    (h2 : args.consumeAnswerlessEvents = true →
      el.answerlessConsumerProcedureReference ≠ none ∧
      args.nThreads ≤ pools.nAnswerlessConsumerThese)
    (h3 : args.consumeAnswerfullEvents = true →
      args.nThreads ≤ pools.nAnswerfullConsumerThese)
    (hflags : supportedFlags args = false) (hn : 1 ≤ args.nThreads) :
    QueueEventDispatcher.new el pools traits args
      = { thrown := some StdError.invalid_argument, threads := [] } := by
  obtain ⟨k, hk⟩ : ∃ k, args.nThreads = k + 1 := ⟨args.nThreads - 1, by omega⟩
  refine (new_of_checks el pools traits args hp h2 h3 []).1 _ ?_
  rw [hk]
  exact startThreads_unsupported pools args hflags k 0 []

theorem startThreads_of_select (pools : ConsumerPools) (args : DispatcherArguments)
    (f : Nat → StartedThread) :
    ∀ (remaining i : Nat) (threads : List StartedThread),
      (∀ j, i ≤ j → j < i + remaining → selectLoop pools args j = some (f j)) →
      startThreads pools args remaining i threads
        = { thrown := none, threads := threads ++ (List.range' i remaining).map f } := by
  intro remaining
  induction remaining with
  | zero =>
    intro i threads _
    simp [startThreads]
  | succ k ih =>
    intro i threads h
    simp only [startThreads, h i (le_refl _) (by omega),
      ih (i + 1) _ (fun j h1 h2 => h j (by omega) (by omega)), List.range'_succ,
      List.map_cons, List.append_assoc, List.singleton_append]

theorem new_supported (el : Registration) (pools : ConsumerPools)
    (traits : ArgumentTraits) (args : DispatcherArguments) (hp : args.threadsPriority = 0)
    (h2 : args.consumeAnswerlessEvents = true →
      el.answerlessConsumerProcedureReference ≠ none ∧
      args.nThreads ≤ pools.nAnswerlessConsumerThese)
    (h3 : args.consumeAnswerfullEvents = true →
      args.nThreads ≤ pools.nAnswerfullConsumerThese)
    (f : Nat → StartedThread)
    (hf : ∀ i, i < args.nThreads → selectLoop pools args i = some (f i)) :
    QueueEventDispatcher.new el pools traits args
      = { thrown := setArgumentSerializer traits
          threads := if args.debug = true
            then (List.range args.nThreads).map f ++ [StartedThread.debugTracker]
            else (List.range args.nThreads).map f } := by
  refine (new_of_checks el pools traits args hp h2 h3 _).2 ?_
  rw [startThreads_of_select pools args f args.nThreads 0 []
    (fun j _ hj => hf j (by omega)), List.range_eq_range', List.nil_append]

theorem new_checks_of_constructed (el : Registration) (pools : ConsumerPools)
    (traits : ArgumentTraits) (args : DispatcherArguments)
    (hok : (QueueEventDispatcher.new el pools traits args).thrown = none) :
    args.threadsPriority = 0 ∧
    (args.consumeAnswerlessEvents = true →
      el.answerlessConsumerProcedureReference ≠ none ∧
      args.nThreads ≤ pools.nAnswerlessConsumerThese) ∧
    (args.consumeAnswerfullEvents = true →
      args.nThreads ≤ pools.nAnswerfullConsumerThese) ∧
    (1 ≤ args.nThreads → supportedFlags args = true) := by
  have hp : args.threadsPriority = 0 := by
    by_contra hp
    rw [new_of_priority el pools traits args hp] at hok
    exact absurd hok (by simp)
  have h2 : args.consumeAnswerlessEvents = true →
      el.answerlessConsumerProcedureReference ≠ none ∧
      args.nThreads ≤ pools.nAnswerlessConsumerThese := by
    intro ha
    by_contra hc
    rw [new_of_failed_check el pools traits args hp (Or.inl ⟨ha, by
      by_cases hn : el.answerlessConsumerProcedureReference = none
      · exact Or.inl hn
      · exact Or.inr (by
          by_contra hk
          exact hc ⟨hn, by omega⟩)⟩)] at hok
    exact absurd hok (by simp)
  have h3 : args.consumeAnswerfullEvents = true →
      args.nThreads ≤ pools.nAnswerfullConsumerThese := by
    intro ha
    by_contra hc
    rw [new_of_failed_check el pools traits args hp (Or.inr ⟨ha, by omega⟩)] at hok
    exact absurd hok (by simp)
  refine ⟨hp, h2, h3, fun hn => ?_⟩
  by_contra hs
  rw [new_unsupported el pools traits args hp h2 h3 (by simpa using hs) hn] at hok
  exact absurd hok (by simp)

theorem selectLoop_answerless (pools : ConsumerPools) (args : DispatcherArguments)
    (hs : supportedFlags args = true) (ha : args.consumeAnswerlessEvents = true) (i : Nat) :
    selectLoop pools args i = some (StartedThread.worker
      (if args.notifyEvents = true
        then WorkerLoop.dispatchZeroCopyListeneableAndConsumableAnswerlessEventsLoop
        else WorkerLoop.dispatchZeroCopyConsumableAnswerlessEventsLoop) i
      (some (pools.answerlessConsumerThese (i % pools.nAnswerlessConsumerThese)))) := by
  rcases args with ⟨n, pr, z, nt, al, af, d⟩
  cases z <;> cases nt <;> cases al <;> cases af <;>
    simp [selectLoop, supportedFlags] at hs ha ⊢

theorem selectLoop_answerfull (pools : ConsumerPools) (args : DispatcherArguments)
    (hs : supportedFlags args = true) (ha : args.consumeAnswerfullEvents = true) (i : Nat) :
    selectLoop pools args i = some (StartedThread.worker
      (if args.notifyEvents = true
        then WorkerLoop.dispatchZeroCopyListeneableAndConsumableAnswerfullEventsLoop
        else WorkerLoop.dispatchZeroCopyConsumableAnswerfullEventsLoop) i
      (some (pools.answerfullConsumerThese (i % pools.nAnswerfullConsumerThese)))) := by
  rcases args with ⟨n, pr, z, nt, al, af, d⟩
  cases z <;> cases nt <;> cases al <;> cases af <;>
    simp [selectLoop, supportedFlags] at hs ha ⊢

theorem mod_ne_of_lt_pool (n k i j : Nat) (hk : n ≤ k) (hi : i < n) (hj : j < n)
    (h : i ≠ j) : i % k ≠ j % k := by
  rw [Nat.mod_eq_of_lt (by omega), Nat.mod_eq_of_lt (by omega)]
  exact h

/-- C24, as stated, fails: with both consume flags set (an unsupported
combination) and no answerless consumer registered the constructor leaves with
`runtime_error`, not `invalid_argument`; and with a thread count of zero the constructor
returns normally whatever the flags, here all four false. -/
theorem unsupported_flags_without_invalid_argument :
    supportedFlags
      { nThreads := 1, threadsPriority := 0, zeroCopy := true, notifyEvents := true
        consumeAnswerlessEvents := true, consumeAnswerfullEvents := true
        debug := false } = false ∧
    QueueEventDispatcher.new Registration.new (poolsOfSize 1) integralArgument
      { nThreads := 1, threadsPriority := 0, zeroCopy := true, notifyEvents := true
        consumeAnswerlessEvents := true, consumeAnswerfullEvents := true
        debug := false }
      = { thrown := some StdError.runtime_error, threads := [] } ∧
    supportedFlags
      { nThreads := 0, threadsPriority := 0, zeroCopy := false, notifyEvents := false
        consumeAnswerlessEvents := false, consumeAnswerfullEvents := false
        debug := false } = false ∧
    QueueEventDispatcher.new Registration.new (poolsOfSize 1) integralArgument
      { nThreads := 0, threadsPriority := 0, zeroCopy := false, notifyEvents := false
        consumeAnswerlessEvents := false, consumeAnswerfullEvents := false
        debug := false }
      = { thrown := none, threads := [] } := by
  refine ⟨by decide, by decide, by decide, by decide⟩

/-- C24, amended. For every flag combination other than the five supported ones and
every thread count of at least one, the constructor of `QueueEventDispatcher` leaves
with an exception before it starts any thread: `runtime_error` when the priority is
zero and one of the consumer checks that precede the loop fails (answerless consumer
not registered, or fewer pool objects than threads for a consume flag that is set),
`invalid_argument` in every other case. -/
theorem unsupported_flags_rejected (el : Registration) (pools : ConsumerPools)
    (traits : ArgumentTraits) (args : DispatcherArguments)
    (hflags : supportedFlags args = false) (hn : 1 ≤ args.nThreads) :
    (QueueEventDispatcher.new el pools traits args).threads = [] ∧
    ((args.threadsPriority = 0 ∧
        ((args.consumeAnswerlessEvents = true ∧
            (el.answerlessConsumerProcedureReference = none ∨
              pools.nAnswerlessConsumerThese < args.nThreads)) ∨
          (args.consumeAnswerfullEvents = true ∧
            pools.nAnswerfullConsumerThese < args.nThreads))) →
      (QueueEventDispatcher.new el pools traits args).thrown
        = some StdError.runtime_error) ∧
    (¬ (args.threadsPriority = 0 ∧
        ((args.consumeAnswerlessEvents = true ∧
            (el.answerlessConsumerProcedureReference = none ∨
              pools.nAnswerlessConsumerThese < args.nThreads)) ∨
          (args.consumeAnswerfullEvents = true ∧
            pools.nAnswerfullConsumerThese < args.nThreads))) →
      (QueueEventDispatcher.new el pools traits args).thrown
        = some StdError.invalid_argument) := by
  by_cases hp : args.threadsPriority = 0
  · by_cases hc : (args.consumeAnswerlessEvents = true ∧
            (el.answerlessConsumerProcedureReference = none ∨
              pools.nAnswerlessConsumerThese < args.nThreads)) ∨
          (args.consumeAnswerfullEvents = true ∧
            pools.nAnswerfullConsumerThese < args.nThreads)
    · rw [new_of_failed_check el pools traits args hp hc]
      exact ⟨rfl, fun _ => rfl, fun h => absurd ⟨hp, hc⟩ h⟩
    · rw [new_unsupported el pools traits args hp
        (fun ha => ⟨fun hn2 => hc (Or.inl ⟨ha, Or.inl hn2⟩), by
          by_contra hk
          exact hc (Or.inl ⟨ha, Or.inr (by omega)⟩)⟩)
        (fun ha => by
          by_contra hk
          exact hc (Or.inr ⟨ha, by omega⟩)) hflags hn]
      exact ⟨rfl, fun h => absurd h.2 hc, fun _ => rfl⟩
  · rw [new_of_priority el pools traits args hp]
    exact ⟨rfl, fun h => absurd h.1 hp, fun _ => rfl⟩

theorem unsupported_flags_rejected_witness :
    (QueueEventDispatcher.new
        (setAnswerfullConsumer (setAnswerlessConsumer Registration.new (some 1) (some 100))
          (some 2) (some 200))
        (poolsOfSize 4) integralArgument
        { nThreads := 3, threadsPriority := 0, zeroCopy := true, notifyEvents := true
          consumeAnswerlessEvents := true, consumeAnswerfullEvents := true
          debug := false }).thrown = some StdError.invalid_argument :=
  (unsupported_flags_rejected
    (setAnswerfullConsumer (setAnswerlessConsumer Registration.new (some 1) (some 100))
      (some 2) (some 200))
    (poolsOfSize 4) integralArgument
    { nThreads := 3, threadsPriority := 0, zeroCopy := true, notifyEvents := true
      consumeAnswerlessEvents := true, consumeAnswerfullEvents := true
      debug := false } (by decide) (by decide)).2.2 (by decide)

/-- C25, as stated, fails: two threads over a pool of one answerless consumer
object make the constructor leave with `runtime_error`, which is not the
`invalid_argument` of an unsupported flag combination or a non-zero priority. -/
theorem insufficient_pool_runtime_error :
    QueueEventDispatcher.new (setAnswerlessConsumer Registration.new (some 1) (some 100))
      (poolsOfSize 1) integralArgument
      { nThreads := 2, threadsPriority := 0, zeroCopy := true, notifyEvents := false
        consumeAnswerlessEvents := true, consumeAnswerfullEvents := false
        debug := false }
      = { thrown := some StdError.runtime_error, threads := [] } ∧
    StdError.runtime_error ≠ StdError.invalid_argument := by
  refine ⟨by decide, by decide⟩

/-- C25, amended. Whenever the thread count exceeds the size of the pool of a consume
flag that is set, the constructor of `QueueEventDispatcher` leaves with an exception
and has started no thread; the exception is `runtime_error` when the priority is zero
and `invalid_argument` (from the priority check) otherwise. -/
theorem insufficient_pool_rejected (el : Registration) (pools : ConsumerPools)
    (traits : ArgumentTraits) (args : DispatcherArguments)
    (h : (args.consumeAnswerlessEvents = true ∧
          pools.nAnswerlessConsumerThese < args.nThreads) ∨
        (args.consumeAnswerfullEvents = true ∧
          pools.nAnswerfullConsumerThese < args.nThreads)) :
    (QueueEventDispatcher.new el pools traits args).threads = [] ∧
    (args.threadsPriority = 0 →
      (QueueEventDispatcher.new el pools traits args).thrown
        = some StdError.runtime_error) ∧
    (args.threadsPriority ≠ 0 →
      (QueueEventDispatcher.new el pools traits args).thrown
        = some StdError.invalid_argument) := by
  by_cases hp : args.threadsPriority = 0
  · rw [new_of_failed_check el pools traits args hp (by
      rcases h with ⟨ha, hb⟩ | ⟨ha, hb⟩
      · exact Or.inl ⟨ha, Or.inr hb⟩
      · exact Or.inr ⟨ha, hb⟩)]
    exact ⟨rfl, fun _ => rfl, fun h2 => absurd hp h2⟩
  · rw [new_of_priority el pools traits args hp]
    exact ⟨rfl, fun h2 => absurd h2 hp, fun _ => rfl⟩

theorem insufficient_pool_rejected_witness :
    (QueueEventDispatcher.new
        (setAnswerfullConsumer Registration.new (some 2) (some 200))
        (poolsOfSize 2) integralArgument
        { nThreads := 3, threadsPriority := 0, zeroCopy := true, notifyEvents := true
          consumeAnswerlessEvents := false, consumeAnswerfullEvents := true
          debug := true }).threads = [] ∧
    (QueueEventDispatcher.new
        (setAnswerfullConsumer Registration.new (some 2) (some 200))
        (poolsOfSize 2) integralArgument
        { nThreads := 3, threadsPriority := 0, zeroCopy := true, notifyEvents := true
          consumeAnswerlessEvents := false, consumeAnswerfullEvents := true
          debug := true }).thrown = some StdError.runtime_error :=
  have h := insufficient_pool_rejected
    (setAnswerfullConsumer Registration.new (some 2) (some 200))
    (poolsOfSize 2) integralArgument
    { nThreads := 3, threadsPriority := 0, zeroCopy := true, notifyEvents := true
      consumeAnswerlessEvents := false, consumeAnswerfullEvents := true
      debug := true } (Or.inr ⟨rfl, by decide⟩)
  ⟨h.1, h.2.1 rfl⟩

/-- C26 fails on the code for the answerfull consumer: with `consumeAnswerfullEvents`
set and no answerfull consumer registered the constructor of `QueueEventDispatcher`
returns normally.  On a fresh link with one pool object and one thread it starts a
worker, and with a thread count of zero it returns whatever the pool; the same requests
with `consumeAnswerlessEvents` instead leave with `runtime_error` for every thread
count. -/
theorem answerfull_consumer_not_checked :
    (Registration.new).answerfullConsumerProcedureReference = none ∧
    QueueEventDispatcher.new Registration.new (poolsOfSize 1) integralArgument
      { nThreads := 1, threadsPriority := 0, zeroCopy := true, notifyEvents := false
        consumeAnswerlessEvents := false, consumeAnswerfullEvents := true
        debug := false }
      = { thrown := none
          threads := [StartedThread.worker
            WorkerLoop.dispatchZeroCopyConsumableAnswerfullEventsLoop 0 (some 200)] } ∧
    QueueEventDispatcher.new Registration.new (poolsOfSize 0) integralArgument
      { nThreads := 0, threadsPriority := 0, zeroCopy := true, notifyEvents := false
        consumeAnswerlessEvents := false, consumeAnswerfullEvents := true
        debug := false }
      = { thrown := none, threads := [] } ∧
    (∀ (nThreads : Nat) (pools : ConsumerPools),
      QueueEventDispatcher.new Registration.new pools integralArgument
        { nThreads := nThreads, threadsPriority := 0, zeroCopy := true
          notifyEvents := false, consumeAnswerlessEvents := true
          consumeAnswerfullEvents := false, debug := false }
        = { thrown := some StdError.runtime_error, threads := [] }) := by
  refine ⟨rfl, by decide, by decide, fun nThreads pools => ?_⟩
  exact new_of_failed_check _ _ _ _ rfl (Or.inl ⟨rfl, Or.inl rfl⟩)

/-- C27. In every dispatcher whose constructor returned normally with a consume flag
set, the thread count is at most the size of the pool of that flag, worker `i` was
started with its `threadId` `i` and the pool object number `i mod K` of that pool, for
`i` from `0` to `nThreads - 1` in this order (followed by the debug thread when asked
for); two different workers get different pool numbers, hence different objects when
the objects of the pool are pairwise different. -/
theorem worker_contexts (el : Registration) (pools : ConsumerPools)
    (traits : ArgumentTraits) (args : DispatcherArguments)
    (hok : (QueueEventDispatcher.new el pools traits args).thrown = none) :
    (args.consumeAnswerlessEvents = true →
      args.nThreads ≤ pools.nAnswerlessConsumerThese ∧
      (QueueEventDispatcher.new el pools traits args).threads
        = (List.range args.nThreads).map (fun i => StartedThread.worker
            (if args.notifyEvents = true
              then WorkerLoop.dispatchZeroCopyListeneableAndConsumableAnswerlessEventsLoop
              else WorkerLoop.dispatchZeroCopyConsumableAnswerlessEventsLoop) i
            (some (pools.answerlessConsumerThese (i % pools.nAnswerlessConsumerThese))))
          ++ (if args.debug = true then [StartedThread.debugTracker] else []) ∧
      ∀ i j, i < args.nThreads → j < args.nThreads → i ≠ j →
        i % pools.nAnswerlessConsumerThese ≠ j % pools.nAnswerlessConsumerThese ∧
        ((∀ a b, a < pools.nAnswerlessConsumerThese → b < pools.nAnswerlessConsumerThese →
            a ≠ b → pools.answerlessConsumerThese a ≠ pools.answerlessConsumerThese b) →
          pools.answerlessConsumerThese (i % pools.nAnswerlessConsumerThese)
            ≠ pools.answerlessConsumerThese (j % pools.nAnswerlessConsumerThese))) ∧
    (args.consumeAnswerfullEvents = true →
      args.nThreads ≤ pools.nAnswerfullConsumerThese ∧
      (QueueEventDispatcher.new el pools traits args).threads
        = (List.range args.nThreads).map (fun i => StartedThread.worker
            (if args.notifyEvents = true
              then WorkerLoop.dispatchZeroCopyListeneableAndConsumableAnswerfullEventsLoop
              else WorkerLoop.dispatchZeroCopyConsumableAnswerfullEventsLoop) i
            (some (pools.answerfullConsumerThese (i % pools.nAnswerfullConsumerThese))))
          ++ (if args.debug = true then [StartedThread.debugTracker] else []) ∧
      ∀ i j, i < args.nThreads → j < args.nThreads → i ≠ j →
        i % pools.nAnswerfullConsumerThese ≠ j % pools.nAnswerfullConsumerThese ∧
        ((∀ a b, a < pools.nAnswerfullConsumerThese → b < pools.nAnswerfullConsumerThese →
            a ≠ b → pools.answerfullConsumerThese a ≠ pools.answerfullConsumerThese b) →
          pools.answerfullConsumerThese (i % pools.nAnswerfullConsumerThese)
            ≠ pools.answerfullConsumerThese (j % pools.nAnswerfullConsumerThese))) := by
  obtain ⟨hp, h2, h3, hs⟩ := new_checks_of_constructed el pools traits args hok
  refine ⟨fun ha => ⟨(h2 ha).2, ?_, fun i j hi hj hij =>
      ⟨mod_ne_of_lt_pool _ _ i j (h2 ha).2 hi hj hij, fun hd =>
        hd _ _ (Nat.mod_lt _ (by have := (h2 ha).2; omega))
          (Nat.mod_lt _ (by have := (h2 ha).2; omega))
          (mod_ne_of_lt_pool _ _ i j (h2 ha).2 hi hj hij)⟩⟩,
    fun ha => ⟨h3 ha, ?_, fun i j hi hj hij =>
      ⟨mod_ne_of_lt_pool _ _ i j (h3 ha) hi hj hij, fun hd =>
        hd _ _ (Nat.mod_lt _ (by have := h3 ha; omega))
          (Nat.mod_lt _ (by have := h3 ha; omega))
          (mod_ne_of_lt_pool _ _ i j (h3 ha) hi hj hij)⟩⟩⟩
  · rw [new_supported el pools traits args hp h2 h3 _
      (fun i hi => selectLoop_answerless pools args (hs (by omega)) ha i)]
    by_cases hd : args.debug = true
    · rw [if_pos hd, if_pos hd]
    · rw [if_neg hd, if_neg hd, List.append_nil]
  · rw [new_supported el pools traits args hp h2 h3 _
      (fun i hi => selectLoop_answerfull pools args (hs (by omega)) ha i)]
    by_cases hd : args.debug = true
    · rw [if_pos hd, if_pos hd]
    · rw [if_neg hd, if_neg hd, List.append_nil]

theorem worker_contexts_witness :
    (QueueEventDispatcher.new (setAnswerlessConsumer Registration.new (some 1) (some 100))
        (poolsOfSize 4) integralArgument
        { nThreads := 3, threadsPriority := 0, zeroCopy := true, notifyEvents := true
          consumeAnswerlessEvents := true, consumeAnswerfullEvents := false
          debug := false }).threads
      = [StartedThread.worker
          WorkerLoop.dispatchZeroCopyListeneableAndConsumableAnswerlessEventsLoop 0
          (some 100),
        StartedThread.worker
          WorkerLoop.dispatchZeroCopyListeneableAndConsumableAnswerlessEventsLoop 1
          (some 101),
        StartedThread.worker
          WorkerLoop.dispatchZeroCopyListeneableAndConsumableAnswerlessEventsLoop 2
          (some 102)] :=
  ((worker_contexts (setAnswerlessConsumer Registration.new (some 1) (some 100))
    (poolsOfSize 4) integralArgument
    { nThreads := 3, threadsPriority := 0, zeroCopy := true, notifyEvents := true
      consumeAnswerlessEvents := true, consumeAnswerfullEvents := false
      debug := false } (by decide)).1 rfl).2.1
/-! ## Worker loops and listener notification -/

theorem consumeAnswerlessEvent_eq {A : Type} (code : Bodies P A) (threadId : Nat)
    (consumerMethod : Option Nat) (consumerThis : Nat) (eventParameter : P)
    (r : Run P A) :
    consumeAnswerlessEvent code threadId consumerMethod consumerThis eventParameter r
      = { r with
          calls := r.calls
            ++ [Call.answerlessConsumer consumerMethod consumerThis eventParameter] } := by
  unfold consumeAnswerlessEvent
  rcases code.answerlessConsumer consumerMethod consumerThis eventParameter with
    _ | (what | value) <;> rfl

theorem notifyEventObserversFrom_eq {A : Type} (code : Bodies P A) (threadId : Nat)
    (listenerMethods listenersThis : Nat → Option Nat) (eventParameter : P) :
    ∀ (remaining i : Nat) (r : Run P A),
      notifyEventObserversFrom code threadId listenerMethods listenersThis eventParameter
          remaining i r
        = { r with
            calls := r.calls ++ (List.range' i remaining).map (fun k =>
              Call.listener (listenerMethods k) (listenersThis k) eventParameter) } := by
  intro remaining
  induction remaining with
  | zero =>
    intro i r
    simp [notifyEventObserversFrom]
  | succ n ih =>
    intro i r
    have e : notifyEventObserversFrom code threadId listenerMethods listenersThis
        eventParameter (n + 1) i r
        = notifyEventObserversFrom code threadId listenerMethods listenersThis
            eventParameter n (i + 1)
            { r with
              calls := r.calls ++ [Call.listener (listenerMethods i) (listenersThis i)
                eventParameter] } := by
      simp only [notifyEventObserversFrom]
      rcases code.listener (listenerMethods i) (listenersThis i) eventParameter with
        _ | (what | value) <;> rfl
    rw [e, ih]
    simp [List.range'_succ]

theorem notifyEventObservers_eq {A : Type} (code : Bodies P A) (el : Registration)
    (threadId : Nat) (listenerMethods listenersThis : Nat → Option Nat)
    (eventParameter : P) (r : Run P A) :
    notifyEventObservers code el threadId listenerMethods listenersThis eventParameter r
      = { r with
          calls := r.calls ++ (List.range el.nListenerProcedureReferences).map (fun k =>
            Call.listener (listenerMethods k) (listenersThis k) eventParameter) } := by
  unfold notifyEventObservers
  rw [notifyEventObserversFrom_eq, List.range_eq_range']

theorem consumeAnswerfullEvent_eventParameter {A : Type} (w : World P A)
    (consumerMethod : AnswerfullConsumer P A) (consumerThis : Nat)
    (dequeuedEvent : ElementPointer) (k : Nat) :
    ((consumeAnswerfullEvent w consumerMethod consumerThis dequeuedEvent).link.events
        k).eventParameter
      = (w.link.events k).eventParameter := by
  unfold consumeAnswerfullEvent
  generalize consumerMethod consumerThis
    (w.link.events dequeuedEvent.slot).eventParameter
    (w.link.events dequeuedEvent.slot).answerObjectReference
    w.memory (w.link.events dequeuedEvent.slot).answerMutex = eff
  obtain ⟨thrown, memory, answerMutex⟩ := eff
  by_cases hk : k = dequeuedEvent.slot
  · subst hk
    rcases thrown with _ | (what | value)
    · simp [afterConsumer]
    · simp [afterConsumer]
    · cases answerMutex <;> simp [afterConsumer, isMutexLocked]
  · rcases thrown with _ | (what | value)
    · simp [afterConsumer, Function.update_noteq hk]
    · simp [afterConsumer, Function.update_noteq hk]
    · cases answerMutex <;> simp [afterConsumer, isMutexLocked, Function.update_noteq hk]

theorem pass_listeneable_and_consumable_answerless {A : Type} (code : Bodies P A)
    (el : Registration) (w : World P A) (threadId consumerThis : Nat)
    (hb : ¬ dispatchingBlocks w.link) :
    ∃ w1 : World P A,
      dispatchZeroCopyListeneableAndConsumableAnswerlessEventsLoop code el w threadId
          consumerThis
        = Outcome.returned
            ([Call.reserveEventForDispatching (w.link.queueHead % 256),
                Call.answerlessConsumer el.answerlessConsumerProcedureReference consumerThis
                  (w.link.events (w.link.queueHead % 256)).eventParameter]
              ++ (List.range el.nListenerProcedureReferences).map (fun k =>
                Call.listener (el.listenerProcedureReferences k) (el.listenersThis k)
                  (w.link.events (w.link.queueHead % 256)).eventParameter)
              ++ [Call.releaseEvent (w.link.queueHead % 256)], none)
            { w1 with link := releaseEvent w1.link (w.link.queueHead % 256) } := by
  obtain ⟨s2, e, -, -, -, -, -, e6, -⟩ := reserveEventForDispatching_returned w.link hb
  refine ⟨{ w with link := s2 }, ?_⟩
  unfold dispatchZeroCopyListeneableAndConsumableAnswerlessEventsLoop
  rw [e]
  simp [Run.afterReserve, Run.next, consumeAnswerlessEvent_eq, notifyEventObservers_eq,
    Run.afterReleaseEvent, readElement, e6]

theorem pass_listeneable_and_consumable_answerfull {A : Type} (code : Bodies P A)
    (el : Registration) (w : World P A) (threadId consumerThis : Nat)
    (hb : ¬ dispatchingBlocks w.link) :
    ∃ w1 : World P A,
      dispatchZeroCopyListeneableAndConsumableAnswerfullEventsLoop code el w threadId
          consumerThis
        = Outcome.returned
            ([Call.reserveEventForDispatching (w.link.queueHead % 256),
                Call.answerfullConsumer el.answerfullConsumerProcedureReference consumerThis
                  (w.link.events (w.link.queueHead % 256)).eventParameter
                  (w.link.events (w.link.queueHead % 256)).answerObjectReference]
              ++ (List.range el.nListenerProcedureReferences).map (fun k =>
                Call.listener (el.listenerProcedureReferences k) (el.listenersThis k)
                  (w.link.events (w.link.queueHead % 256)).eventParameter)
              ++ [Call.releaseEvent (w.link.queueHead % 256)], none)
            { w1 with link := releaseEvent w1.link (w.link.queueHead % 256) } := by
  obtain ⟨s2, e, -, -, -, -, -, e6, -⟩ := reserveEventForDispatching_returned w.link hb
  refine ⟨consumeAnswerfullEvent { w with link := s2 }
    (code.answerfullConsumer el.answerfullConsumerProcedureReference) consumerThis
    { slot := w.link.queueHead % 256 }, ?_⟩
  unfold dispatchZeroCopyListeneableAndConsumableAnswerfullEventsLoop
  rw [e]
  simp [Run.afterReserve, Run.next, Run.afterConsumeAnswerfullEvent,
    notifyEventObservers_eq, Run.afterReleaseEvent, readElement, e6,
    consumeAnswerfullEvent_eventParameter]

theorem pass_consumable_answerless {A : Type} (code : Bodies P A)
    (el : Registration) (w : World P A) (threadId consumerThis : Nat)
    (hb : ¬ dispatchingBlocks w.link) :
    ∃ w1 : World P A,
      dispatchZeroCopyConsumableAnswerlessEventsLoop code el w threadId consumerThis
        = Outcome.returned
            ([Call.reserveEventForDispatching (w.link.queueHead % 256),
                Call.answerlessConsumer el.answerlessConsumerProcedureReference consumerThis
                  (w.link.events (w.link.queueHead % 256)).eventParameter]
              ++ [Call.releaseEvent (w.link.queueHead % 256)], none)
            { w1 with link := releaseEvent w1.link (w.link.queueHead % 256) } := by
  obtain ⟨s2, e, -, -, -, -, -, e6, -⟩ := reserveEventForDispatching_returned w.link hb
  refine ⟨{ w with link := s2 }, ?_⟩
  unfold dispatchZeroCopyConsumableAnswerlessEventsLoop
  rw [e]
  simp [Run.afterReserve, Run.next, consumeAnswerlessEvent_eq,
    Run.afterReleaseEvent, readElement, e6]

theorem pass_consumable_answerfull {A : Type} (code : Bodies P A)
    (el : Registration) (w : World P A) (threadId consumerThis : Nat)
    (hb : ¬ dispatchingBlocks w.link) :
    ∃ w1 : World P A,
      dispatchZeroCopyConsumableAnswerfullEventsLoop code el w threadId consumerThis
        = Outcome.returned
            ([Call.reserveEventForDispatching (w.link.queueHead % 256),
                Call.answerfullConsumer el.answerfullConsumerProcedureReference consumerThis
                  (w.link.events (w.link.queueHead % 256)).eventParameter
                  (w.link.events (w.link.queueHead % 256)).answerObjectReference]
              ++ [Call.releaseEvent (w.link.queueHead % 256)], none)
            { w1 with link := releaseEvent w1.link (w.link.queueHead % 256) } := by
  obtain ⟨s2, e, -, -, -, -, -, e6, -⟩ := reserveEventForDispatching_returned w.link hb
  refine ⟨consumeAnswerfullEvent { w with link := s2 }
    (code.answerfullConsumer el.answerfullConsumerProcedureReference) consumerThis
    { slot := w.link.queueHead % 256 }, ?_⟩
  unfold dispatchZeroCopyConsumableAnswerfullEventsLoop
  rw [e]
  simp [Run.afterReserve, Run.next, Run.afterConsumeAnswerfullEvent,
    Run.afterReleaseEvent, readElement, e6]

theorem pass_listeneable {A : Type} (code : Bodies P A)
    (el : Registration) (w : World P A) (threadId : Nat)
    (hb : ¬ dispatchingBlocks w.link) :
    ∃ w1 : World P A,
      dispatchZeroCopyListeneableEventsLoop code el w threadId
        = Outcome.returned
            ([Call.reserveEventForDispatching (w.link.queueHead % 256)]
              ++ (List.range el.nListenerProcedureReferences).map (fun k =>
                Call.listener (el.listenerProcedureReferences k) (el.listenersThis k)
                  (w.link.events (w.link.queueHead % 256)).eventParameter)
              ++ [Call.releaseEvent (w.link.queueHead % 256)], none)
            { w1 with link := releaseEvent w1.link (w.link.queueHead % 256) } := by
  obtain ⟨s2, e, -, -, -, -, -, e6, -⟩ := reserveEventForDispatching_returned w.link hb
  refine ⟨{ w with link := s2 }, ?_⟩
  unfold dispatchZeroCopyListeneableEventsLoop
  rw [e]
  simp [Run.afterReserve, Run.next, notifyEventObservers_eq,
    Run.afterReleaseEvent, readElement, e6]

/-- C28. For the loop the constructor starts under a supported flag combination, one
pass that gets an event makes, whatever the bodies of the consumer and of the listeners
do, exactly these calls in this order: `reserveEventForDispatching`, returning the id
`queueHead`; the answerless consumer if `consumeAnswerlessEvents` is set, the answerfull
consumer if `consumeAnswerfullEvents` is set, with the parameter of that slot; each of
the registered listeners in order if and only if `notifyEvents` is set; and
`releaseEvent` of that same id, once.  No exception leaves the pass, and the link it
ends with is the one `releaseEvent` returns. -/
theorem loop_body_per_mode {A : Type} (code : Bodies P A) (el : Registration)
    (pools : ConsumerPools) (args : DispatcherArguments) (loop : WorkerLoop) (i : Nat)
    (c : Option Nat) (consumerThis : Nat) (w : World P A)
    (hsel : selectLoop pools args i = some (StartedThread.worker loop i c))
    (hb : ¬ dispatchingBlocks w.link) :
    ∃ w1 : World P A,
      loopPass loop code el w i consumerThis
        = Outcome.returned
            ([Call.reserveEventForDispatching (w.link.queueHead % 256)]
              ++ (if args.consumeAnswerlessEvents = true then
                  [Call.answerlessConsumer el.answerlessConsumerProcedureReference
                    consumerThis (w.link.events (w.link.queueHead % 256)).eventParameter]
                else [])
              ++ (if args.consumeAnswerfullEvents = true then
                  [Call.answerfullConsumer el.answerfullConsumerProcedureReference
                    consumerThis (w.link.events (w.link.queueHead % 256)).eventParameter
                    (w.link.events (w.link.queueHead % 256)).answerObjectReference]
                else [])
              ++ (if args.notifyEvents = true then
                  (List.range el.nListenerProcedureReferences).map (fun k =>
                    Call.listener (el.listenerProcedureReferences k) (el.listenersThis k)
                      (w.link.events (w.link.queueHead % 256)).eventParameter)
                else [])
              ++ [Call.releaseEvent (w.link.queueHead % 256)], none)
            { w1 with link := releaseEvent w1.link (w.link.queueHead % 256) } := by
  rcases args with ⟨n, pr, z, nt, al, af, d⟩
  cases z <;> cases nt <;> cases al <;> cases af <;> simp [selectLoop] at hsel
  all_goals
    obtain ⟨h1, -⟩ := hsel
    subst h1
    first
    | (obtain ⟨w1, hw⟩ :=
        pass_listeneable_and_consumable_answerless code el w i consumerThis hb
       exact ⟨w1, by simpa [loopPass] using hw⟩)
    | (obtain ⟨w1, hw⟩ :=
        pass_listeneable_and_consumable_answerfull code el w i consumerThis hb
       exact ⟨w1, by simpa [loopPass] using hw⟩)
    | (obtain ⟨w1, hw⟩ := pass_consumable_answerless code el w i consumerThis hb
       exact ⟨w1, by simpa [loopPass] using hw⟩)
    | (obtain ⟨w1, hw⟩ := pass_consumable_answerfull code el w i consumerThis hb
       exact ⟨w1, by simpa [loopPass] using hw⟩)
    | (obtain ⟨w1, hw⟩ := pass_listeneable code el w i hb
       exact ⟨w1, by simpa [loopPass] using hw⟩)

theorem loop_body_per_mode_witness :
    ∃ w1 : World Nat Nat,
      loopPass WorkerLoop.dispatchZeroCopyListeneableAndConsumableAnswerlessEventsLoop
          faultyBodies threeListeners ((World.new (fun _ => 0) 0).produce none 7) 0 100
        = Outcome.returned
            ([Call.reserveEventForDispatching 0,
              Call.answerlessConsumer (some 1) 100 7,
              Call.listener (some 11) (some 111) 7,
              Call.listener (some 12) (some 112) 7,
              Call.listener (some 13) (some 113) 7,
              Call.releaseEvent 0], none)
            { w1 with link := releaseEvent w1.link 0 } :=
  loop_body_per_mode faultyBodies threeListeners (poolsOfSize 1)
    { nThreads := 1, threadsPriority := 0, zeroCopy := true, notifyEvents := true
      consumeAnswerlessEvents := true, consumeAnswerfullEvents := false, debug := false }
    WorkerLoop.dispatchZeroCopyListeneableAndConsumableAnswerlessEventsLoop 0 (some 100)
    100 ((World.new (fun _ => 0) 0).produce none 7) (by decide) (by decide)

/-- C29. Method `notifyEventObservers` of the dispatcher: whatever the bodies of the
listeners do, throwing included, it calls the listeners `0, 1, ..., n - 1` of the
registry once each in this order, each with its own `this` and the event parameter,
lets no exception out and touches nothing else.  In the run of three listeners, one
answerless consumer and ten events, with a consumer and two listeners that throw, each
listener and the consumer get the ten parameters in dispatch order, forty observations
in all. -/
theorem listener_fan_out {A : Type} (code : Bodies P A) (el : Registration)
    (threadId : Nat) (eventParameter : P) (r : Run P A) :
    notifyEventObservers code el threadId el.listenerProcedureReferences el.listenersThis
        eventParameter r
      = { r with
          calls := r.calls ++ (List.range el.nListenerProcedureReferences).map (fun k =>
            Call.listener (el.listenerProcedureReferences k) (el.listenersThis k)
              eventParameter) } ∧
    threeListeners.nListenerProcedureReferences = 3 ∧
    observedBy 11 fanOut = List.range 10 ∧
    observedBy 12 fanOut = List.range 10 ∧
    observedBy 13 fanOut = List.range 10 ∧
    observedBy 1 fanOut = List.range 10 ∧
    (fanOut.filterMap Call.observed).length = 40 := by
  refine ⟨notifyEventObservers_eq code el threadId _ _ eventParameter r, by decide,
    by decide, by decide, by decide, by decide, by decide⟩

theorem notifyEventListeners_stops_at_throw :
    (notifyEventListeners faultyBodies threeListeners 7
        (Run.afterReserve (World.new (fun _ => 0) 0) (QueueEventLink.new (fun _ => 0))
          0)).calls
      = [Call.reserveEventForDispatching 0, Call.listener (some 11) (some 111) 7] ∧
    (notifyEventListeners faultyBodies threeListeners 7
        (Run.afterReserve (World.new (fun _ => 0) 0) (QueueEventLink.new (fun _ => 0))
          0)).thrown
      = some (Thrown.stdException 7) := by
  refine ⟨by decide, by decide⟩
/-! ## Index monotonicity -/

theorem succ_mod_of_mod (h : Nat) : (h % 256 + 1) % 256 = (h + 1) % 256 := by
  omega

theorem advancedByAtMostOne_ite (c : Prop) [Decidable c] (b a : Nat)
    (h : a = if c then (b + 1) % 256 else b) : advancedByAtMostOne b a := by
  by_cases hc : c
  · rw [if_pos hc] at h
    exact Or.inr h
  · rw [if_neg hc] at h
    exact Or.inl h

/-- C30. Index monotonicity: whatever the state (and whether the call returns or
parks), each of `reserveEventForReporting`, `reportReservedEvent`,
`reserveEventForDispatching` and `releaseEvent` leaves each of `queueHead`,
`queueTail`, `queueReservedHead` and `queueReservedTail` either unchanged or advanced
by exactly one modulo 256. -/
theorem index_monotonicity (s : QueueEventLink P) (answerObjectReference : Option Nat)
    (eventId : Nat) :
    indicesAdvancedByAtMostOne s (reserveEventForReporting s answerObjectReference).state ∧
    indicesAdvancedByAtMostOne s (reportReservedEvent s eventId) ∧
    indicesAdvancedByAtMostOne s (reserveEventForDispatching s).state ∧
    indicesAdvancedByAtMostOne s (releaseEvent s eventId) := by
  refine ⟨?_, ?_, ?_, ?_⟩
  · by_cases hb : reportingBlocks s
    · rw [reserveEventForReporting_blocked s _ hb]
      exact ⟨Or.inl rfl, Or.inl rfl, Or.inl rfl, Or.inl rfl⟩
    · obtain ⟨s2, e, e1, e2, e3, e4, -⟩ :=
        reserveEventForReporting_returned s answerObjectReference hb
      rw [e]
      exact ⟨Or.inl e3, Or.inl e4, advancedByAtMostOne_ite _ _ _ e2, Or.inr e1⟩
  · exact ⟨Or.inl (reportReservedEvent_queueHead s eventId),
      advancedByAtMostOne_ite _ _ _ (reportReservedEvent_queueTail s eventId),
      Or.inl (reportReservedEvent_queueReservedHead s eventId),
      Or.inl (reportReservedEvent_queueReservedTail s eventId)⟩
  · by_cases hb : dispatchingBlocks s
    · rw [reserveEventForDispatching_blocked s hb]
      exact ⟨Or.inl rfl, Or.inl rfl, Or.inl rfl, Or.inl rfl⟩
    · obtain ⟨s2, e, e1, e2, e3, e4, -⟩ := reserveEventForDispatching_returned s hb
      rw [e]
      exact ⟨Or.inr (e1.trans (succ_mod_of_mod _)), advancedByAtMostOne_ite _ _ _ e2,
        Or.inl e3, Or.inl e4⟩
  · exact ⟨Or.inl (releaseEvent_queueHead s eventId),
      Or.inl (releaseEvent_queueTail s eventId),
      advancedByAtMostOne_ite _ _ _ (releaseEvent_queueReservedHead s eventId),
      Or.inl (releaseEvent_queueReservedTail s eventId)⟩

/-! ## Lock discipline and teardown -/

theorem replay_unlockGuardAccesses (s : QueueEventLink P) (g : Option GuardRef)
    (rest : List Access) :
    replay s (unlockGuardAccesses g ++ rest) = replay s rest := by
  rcases g with _ | g
  · rfl
  · cases g <;> rfl

theorem reserveEventForReporting_accesses (s : QueueEventLink P) (a : Option Nat) :
    writesUnderQueueGuard false (reserveEventForReportingAccesses s a) = true ∧
    sameRing (replay s (reserveEventForReportingAccesses s a))
      (reserveEventForReporting s a).state := by
  unfold reserveEventForReportingAccesses reserveEventForReporting
  by_cases h1 : ((s.queueReservedTail + 1) &&& 0xFF) = s.queueReservedHead
  · rw [if_pos h1, if_pos h1]
    by_cases h2 : s.reservations s.queueReservedHead = true
        ∨ s.queueReservedHead = s.queueHead
    · rw [if_pos h2, if_pos h2]
      by_cases h3 : s.fullGuard = none
      · rw [if_pos h3]
        exact ⟨rfl, rfl, rfl, rfl, rfl, rfl⟩
      · rw [if_neg h3]
        exact ⟨rfl, rfl, rfl, rfl, rfl, rfl⟩
    · rw [if_neg h2, if_neg h2]
      by_cases h3 : a ≠ none
      · simp only [claimReportingSlotAccesses, if_pos h3]
        exact ⟨rfl, rfl, rfl, rfl, rfl, rfl⟩
      · simp only [claimReportingSlotAccesses, if_neg h3]
        exact ⟨rfl, rfl, rfl, rfl, rfl, rfl⟩
  · rw [if_neg h1, if_neg h1]
    by_cases h3 : a ≠ none
    · simp only [claimReportingSlotAccesses, if_pos h3]
      exact ⟨rfl, rfl, rfl, rfl, rfl, rfl⟩
    · simp only [claimReportingSlotAccesses, if_neg h3]
      exact ⟨rfl, rfl, rfl, rfl, rfl, rfl⟩

theorem reserveEventForDispatching_accesses (s : QueueEventLink P) :
    writesUnderQueueGuard false (reserveEventForDispatchingAccesses s) = true ∧
    sameRing (replay s (reserveEventForDispatchingAccesses s))
      (reserveEventForDispatching s).state := by
  unfold reserveEventForDispatchingAccesses reserveEventForDispatching
  by_cases h1 : s.queueHead = s.queueTail
  · rw [if_pos h1, if_pos h1]
    by_cases h2 : s.reservations s.queueTail = true ∨ s.queueTail = s.queueReservedTail
    · rw [if_pos h2, if_pos h2]
      by_cases h3 : s.emptyGuard = none
      · rw [if_pos h3]
        exact ⟨rfl, rfl, rfl, rfl, rfl, rfl⟩
      · rw [if_neg h3]
        exact ⟨rfl, rfl, rfl, rfl, rfl, rfl⟩
    · rw [if_neg h2, if_neg h2]
      exact ⟨rfl, rfl, rfl, rfl, rfl, rfl⟩
  · rw [if_neg h1, if_neg h1]
    exact ⟨rfl, rfl, rfl, rfl, rfl, rfl⟩

theorem reportReservedEvent_accesses (s : QueueEventLink P) (eventId : Nat) :
    writesUnderQueueGuard false (reportReservedEventAccesses s eventId) = true ∧
    sameRing (replay s (reportReservedEventAccesses s eventId))
      (reportReservedEvent s eventId) := by
  unfold reportReservedEventAccesses
  by_cases h1 : eventId % 256 = s.queueTail
  · simp only [toQueueSlotsType, if_pos h1]
    refine ⟨?_, ?_⟩
    · generalize s.emptyGuard = g
      rcases g with _ | (_ | _) <;> rfl
    · simp only [List.cons_append, List.nil_append]
      have e : ∀ l : List Access,
          replay s (Access.lock Mutex.queueGuard :: Access.writeReservation (eventId % 256) false ::
            Access.writeIndex Index.queueTail (MODINC s.queueTail) :: l)
          = replay { s with
              reservations := Function.update s.reservations (eventId % 256) false
              queueTail := MODINC s.queueTail } l := fun _ => rfl
      rw [e, replay_unlockGuardAccesses]
      refine ⟨?_, ?_, ?_, ?_, ?_⟩
      · exact (reportReservedEvent_queueHead s eventId).symm
      · rw [reportReservedEvent_queueTail, if_pos h1, ← modinc_eq]
        rfl
      · exact (reportReservedEvent_queueReservedHead s eventId).symm
      · exact (reportReservedEvent_queueReservedTail s eventId).symm
      · exact (reportReservedEvent_reservations s eventId).symm
  · simp only [toQueueSlotsType, if_neg h1]
    refine ⟨rfl, ?_, ?_, ?_, ?_, ?_⟩
    · exact (reportReservedEvent_queueHead s eventId).symm
    · rw [reportReservedEvent_queueTail, if_neg h1]
      rfl
    · exact (reportReservedEvent_queueReservedHead s eventId).symm
    · exact (reportReservedEvent_queueReservedTail s eventId).symm
    · exact (reportReservedEvent_reservations s eventId).symm

theorem releaseEvent_accesses (s : QueueEventLink P) (eventId : Nat) :
    writesUnderQueueGuard false (releaseEventAccesses s eventId) = true ∧
    sameRing (replay s (releaseEventAccesses s eventId)) (releaseEvent s eventId) := by
  unfold releaseEventAccesses
  by_cases h1 : eventId % 256 = s.queueReservedHead
  · simp only [toQueueSlotsType, if_pos h1]
    refine ⟨?_, ?_⟩
    · generalize s.fullGuard = g
      rcases g with _ | (_ | _) <;> rfl
    · simp only [List.cons_append, List.nil_append]
      have e : ∀ l : List Access,
          replay s (Access.lock Mutex.queueGuard :: Access.writeReservation (eventId % 256) false ::
            Access.writeIndex Index.queueReservedHead (MODINC s.queueReservedHead) :: l)
          = replay { s with
              reservations := Function.update s.reservations (eventId % 256) false
              queueReservedHead := MODINC s.queueReservedHead } l := fun _ => rfl
      rw [e, replay_unlockGuardAccesses]
      refine ⟨?_, ?_, ?_, ?_, ?_⟩
      · exact (releaseEvent_queueHead s eventId).symm
      · exact (releaseEvent_queueTail s eventId).symm
      · rw [releaseEvent_queueReservedHead, if_pos h1, ← modinc_eq]
        rfl
      · exact (releaseEvent_queueReservedTail s eventId).symm
      · exact (releaseEvent_reservations s eventId).symm
  · simp only [toQueueSlotsType, if_neg h1]
    refine ⟨rfl, ?_, ?_, ?_, ?_, ?_⟩
    · exact (releaseEvent_queueHead s eventId).symm
    · exact (releaseEvent_queueTail s eventId).symm
    · rw [releaseEvent_queueReservedHead, if_neg h1]
      rfl
    · exact (releaseEvent_queueReservedTail s eventId).symm
    · exact (releaseEvent_reservations s eventId).symm

/-- C31, as stated, fails: however the three guards are found, the first access of the
destructor's sweep is an assignment to `queueHead` made without `queueGuard` held, and
so is the sweep of each guard taken by itself, that of `queueGuard` included. -/
theorem teardown_writes_without_queueGuard :
    (∀ locked : Mutex → Bool, writesUnderQueueGuard false (sweepAccesses locked) = false) ∧
    (∀ (m : Mutex) (locked : Bool),
      writesUnderQueueGuard false (sweepGuardAccesses m locked) = false) := by
  refine ⟨fun locked => rfl, fun m locked => rfl⟩

/-- C31, amended. In each of `reserveEventForReporting`, `reportReservedEvent`,
`reserveEventForDispatching` and `releaseEvent`, whatever the state and the arguments
and whether the call returns or parks, every assignment to an index or to
`reservations` is made between the `queueGuard.lock()` of the call and its
`queueGuard.unlock()`; and these assignments, made in their order, give the indices and
the `reservations` of the state the operation leaves. -/
theorem link_writes_under_queueGuard (s : QueueEventLink P)
    (answerObjectReference : Option Nat) (eventId : Nat) :
    (writesUnderQueueGuard false (reserveEventForReportingAccesses s answerObjectReference)
        = true ∧
      sameRing (replay s (reserveEventForReportingAccesses s answerObjectReference))
        (reserveEventForReporting s answerObjectReference).state) ∧
    (writesUnderQueueGuard false (reportReservedEventAccesses s eventId) = true ∧
      sameRing (replay s (reportReservedEventAccesses s eventId))
        (reportReservedEvent s eventId)) ∧
    (writesUnderQueueGuard false (reserveEventForDispatchingAccesses s) = true ∧
      sameRing (replay s (reserveEventForDispatchingAccesses s))
        (reserveEventForDispatching s).state) ∧
    (writesUnderQueueGuard false (releaseEventAccesses s eventId) = true ∧
      sameRing (replay s (releaseEventAccesses s eventId)) (releaseEvent s eventId)) :=
  ⟨reserveEventForReporting_accesses s answerObjectReference,
    reportReservedEvent_accesses s eventId,
    reserveEventForDispatching_accesses s,
    releaseEvent_accesses s eventId⟩

/-- C33, as stated, fails: on a fresh link the values the sweep assigns leave
`queueHead` different from `queueTail`, and `reserveEventForDispatching` hands out
slot `0` without parking. -/
theorem sweep_reset_not_empty :
    (sweepReset (QueueEventLink.new zeroPayload)).queueHead
      ≠ (sweepReset (QueueEventLink.new zeroPayload)).queueTail ∧
    ¬ dispatchingBlocks (sweepReset (QueueEventLink.new zeroPayload)) ∧
    ∃ s2, reserveEventForDispatching (sweepReset (QueueEventLink.new zeroPayload))
      = Outcome.returned (0, { slot := 0 }) s2 :=
  ⟨by decide, by decide, _, rfl⟩

/-- C33, amended. The sweep of each guard assigns `queueHead = 0`, `queueTail = 1`,
`queueReservedHead = 0` and `queueReservedTail = 1`.  In the link these values are not
an empty ring: whatever the slots and the gates hold, `queueHead` differs from
`queueTail`, `reserveEventForDispatching` does not park and hands out slot `0`, and
`reserveEventForReporting` does not park and hands out slot `1`. -/
theorem sweep_reset_configuration (s : QueueEventLink P) (m : Mutex) (locked : Bool)
    (answerObjectReference : Option Nat) :
    sameRing (replay s (sweepGuardAccesses m locked)) (sweepReset s) ∧
    (sweepReset s).queueHead = 0 ∧ (sweepReset s).queueTail = 1 ∧
    (sweepReset s).queueReservedHead = 0 ∧ (sweepReset s).queueReservedTail = 1 ∧
    (sweepReset s).reservations = s.reservations ∧ (sweepReset s).events = s.events ∧
    ¬ dispatchingBlocks (sweepReset s) ∧
    (∃ s2, reserveEventForDispatching (sweepReset s)
      = Outcome.returned (0, { slot := 0 }) s2) ∧
    ¬ reportingBlocks (sweepReset s) ∧
    (∃ s3, reserveEventForReporting (sweepReset s) answerObjectReference
      = Outcome.returned (1, { slot := 1 }) s3) := by
  have hd : ¬ dispatchingBlocks (sweepReset s) := by
    rintro ⟨h, -⟩
    exact absurd h (by simp [sweepReset])
  have hr : ¬ reportingBlocks (sweepReset s) := by
    rintro ⟨h, -⟩
    exact absurd h (by simp [sweepReset])
  refine ⟨?_, rfl, rfl, rfl, rfl, rfl, rfl, hd, ?_, hr, ?_⟩
  · cases locked <;> exact ⟨rfl, rfl, rfl, rfl, rfl⟩
  · obtain ⟨s2, e, -⟩ := reserveEventForDispatching_returned (sweepReset s) hd
    exact ⟨s2, e⟩
  · obtain ⟨s3, e, -⟩ := reserveEventForReporting_returned (sweepReset s)
      answerObjectReference hr
    exact ⟨s3, e⟩
/-! ## Gates of parked calls -/

theorem gate_fresh (payload : Nat → P) : GateInv (QueueEventLink.new payload) :=
  ⟨Or.inl rfl, Or.inl rfl⟩

theorem gate_reserve {s : QueueEventLink P} (h : GateInv s) (a : Option Nat) :
    GateInv (reserveEventForReporting s a).state := by
  by_cases hb : reportingBlocks s
  · rw [reserveEventForReporting_blocked s a hb]
    refine ⟨Or.inr ⟨rfl, ?_⟩, h.2⟩
    rcases h.1 with h1 | ⟨h1, h2⟩
    · simp [Outcome.state, h1]
    · simp [Outcome.state, h1, h2]
  · obtain ⟨s2, e, -, -, -, -, -, -, e7, e8, e9, e10⟩ :=
      reserveEventForReporting_returned s a hb
    rw [e]
    unfold GateInv
    simp only [Outcome.state, e7, e8, e9, e10]
    exact h

theorem gate_dispatch {s : QueueEventLink P} (h : GateInv s) :
    GateInv (reserveEventForDispatching s).state := by
  by_cases hb : dispatchingBlocks s
  · rw [reserveEventForDispatching_blocked s hb]
    refine ⟨h.1, Or.inr ⟨rfl, ?_⟩⟩
    rcases h.2 with h1 | ⟨h1, h2⟩
    · simp [Outcome.state, h1]
    · simp [Outcome.state, h1, h2]
  · obtain ⟨s2, e, -, -, -, -, -, -, e7, e8, e9, e10⟩ :=
      reserveEventForDispatching_returned s hb
    rw [e]
    unfold GateInv
    simp only [Outcome.state, e7, e8, e9, e10]
    exact h

theorem gate_commit {s : QueueEventLink P} (h : GateInv s) (eventId : Nat) :
    GateInv (reportReservedEvent s eventId) := by
  unfold reportReservedEvent
  dsimp only
  by_cases hc : toQueueSlotsType eventId = s.queueTail
  · rw [if_pos hc]
    rcases h.2 with h1 | ⟨h1, h2⟩
    · rw [h1]
      exact ⟨h.1, Or.inl rfl⟩
    · rw [h1]
      exact ⟨h.1, Or.inl rfl⟩
  · rw [if_neg hc]
    exact h

theorem gate_release {s : QueueEventLink P} (h : GateInv s) (eventId : Nat) :
    GateInv (releaseEvent s eventId) := by
  unfold releaseEvent
  dsimp only
  by_cases hc : toQueueSlotsType eventId = s.queueReservedHead
  · rw [if_pos hc]
    rcases h.1 with h1 | ⟨h1, h2⟩
    · rw [h1]
      exact ⟨Or.inl rfl, h.2⟩
    · rw [h1]
      exact ⟨Or.inl rfl, h.2⟩
  · rw [if_neg hc]
    exact h

theorem gate_step (t : Tracked P) (op : Op) (h : GateInv t.link) :
    GateInv (t.step op).link := by
  rcases op with a | eventId | _ | eventId
  · have h2 := gate_reserve h a
    simp only [Tracked.step]
    rcases hr : reserveEventForReporting t.link a with s2 | ⟨r, s2⟩
    · rw [hr] at h2
      exact h2
    · rw [hr] at h2
      exact h2
  · exact gate_commit h eventId
  · have h2 := gate_dispatch h
    simp only [Tracked.step]
    rcases hr : reserveEventForDispatching t.link with s2 | ⟨r, s2⟩
    · rw [hr] at h2
      exact h2
    · rw [hr] at h2
      exact h2
  · exact gate_release h eventId

theorem gate_run (ops : List Op) :
    ∀ t : Tracked P, GateInv t.link → GateInv (t.run ops).link := by
  induction ops with
  | nil =>
    intro t h
    exact h
  | cons op ops ih =>
    intro t h
    exact ih _ (gate_step t op h)

/-- C32. In every state reached by calls from a fresh link: a
`reserveEventForReporting` that finds the ring full hands out no slot and leaves the
four indices, `reservations`, `events`, `emptyGuard` and `dequeueGuard` as they were;
after it `fullGuard` holds `&reservationGuard` and `reservationGuard` is locked, which
it already was when `fullGuard` was not null before the call.  In the same way a
`reserveEventForDispatching` that finds the ring empty leaves the indices,
`reservations`, `events`, `fullGuard` and `reservationGuard` as they were, with
`emptyGuard` holding `&dequeueGuard` and `dequeueGuard` locked afterwards. -/
theorem blocked_reservation_changes_only_gate (payload : Nat → P) (ops : List Op)
    (answerObjectReference : Option Nat) :
    (reportingBlocks ((Tracked.new payload).run ops).link →
      ∃ s2, reserveEventForReporting ((Tracked.new payload).run ops).link
          answerObjectReference = Outcome.blocked s2 ∧
        s2.queueHead = ((Tracked.new payload).run ops).link.queueHead ∧
        s2.queueTail = ((Tracked.new payload).run ops).link.queueTail ∧
        s2.queueReservedHead = ((Tracked.new payload).run ops).link.queueReservedHead ∧
        s2.queueReservedTail = ((Tracked.new payload).run ops).link.queueReservedTail ∧
        s2.reservations = ((Tracked.new payload).run ops).link.reservations ∧
        s2.events = ((Tracked.new payload).run ops).link.events ∧
        s2.emptyGuard = ((Tracked.new payload).run ops).link.emptyGuard ∧
        s2.dequeueGuard = ((Tracked.new payload).run ops).link.dequeueGuard ∧
        s2.fullGuard = some GuardRef.reservationGuard ∧
        s2.reservationGuard = true ∧
        (((Tracked.new payload).run ops).link.fullGuard ≠ none →
          ((Tracked.new payload).run ops).link.reservationGuard = true)) ∧
    (dispatchingBlocks ((Tracked.new payload).run ops).link →
      ∃ s2, reserveEventForDispatching ((Tracked.new payload).run ops).link
          = Outcome.blocked s2 ∧
        s2.queueHead = ((Tracked.new payload).run ops).link.queueHead ∧
        s2.queueTail = ((Tracked.new payload).run ops).link.queueTail ∧
        s2.queueReservedHead = ((Tracked.new payload).run ops).link.queueReservedHead ∧
        s2.queueReservedTail = ((Tracked.new payload).run ops).link.queueReservedTail ∧
        s2.reservations = ((Tracked.new payload).run ops).link.reservations ∧
        s2.events = ((Tracked.new payload).run ops).link.events ∧
        s2.fullGuard = ((Tracked.new payload).run ops).link.fullGuard ∧
        s2.reservationGuard = ((Tracked.new payload).run ops).link.reservationGuard ∧
        s2.emptyGuard = some GuardRef.dequeueGuard ∧
        s2.dequeueGuard = true ∧
        (((Tracked.new payload).run ops).link.emptyGuard ≠ none →
          ((Tracked.new payload).run ops).link.dequeueGuard = true)) := by
  have hg : GateInv ((Tracked.new payload).run ops).link :=
    gate_run ops _ (gate_fresh payload)
  generalize ((Tracked.new payload).run ops).link = s at hg ⊢
  refine ⟨fun hb => ?_, fun hb => ?_⟩
  · refine ⟨_, reserveEventForReporting_blocked s answerObjectReference hb,
      rfl, rfl, rfl, rfl, rfl, rfl, rfl, rfl, rfl, ?_, ?_⟩
    · rcases hg.1 with h1 | ⟨h1, h2⟩
      · simp [h1]
      · simp [h1, h2]
    · intro hne
      rcases hg.1 with h1 | ⟨h1, h2⟩
      · exact absurd h1 hne
      · exact h2
  · refine ⟨_, reserveEventForDispatching_blocked s hb,
      rfl, rfl, rfl, rfl, rfl, rfl, rfl, rfl, rfl, ?_, ?_⟩
    · rcases hg.2 with h1 | ⟨h1, h2⟩
      · simp [h1]
      · simp [h1, h2]
    · intro hne
      rcases hg.2 with h1 | ⟨h1, h2⟩
      · exact absurd h1 hne
      · exact h2

theorem blocked_reservation_changes_only_gate_witness :
    (∃ s2, reserveEventForReporting
          ((Tracked.new zeroPayload).run (List.replicate 255 (Op.reserve none))).link
          (some 7) = Outcome.blocked s2 ∧
        s2.queueReservedTail = 255 ∧
        s2.fullGuard = some GuardRef.reservationGuard ∧ s2.reservationGuard = true) ∧
    (∃ s2, reserveEventForDispatching ((Tracked.new zeroPayload).run []).link
          = Outcome.blocked s2 ∧
        s2.emptyGuard = some GuardRef.dequeueGuard ∧ s2.dequeueGuard = true) := by
  have hf := fresh_reserves zeroPayload none 255 (le_refl _)
  obtain ⟨s2, h1, -, -, -, h5, -, -, -, -, h10, h11, -⟩ :=
    (blocked_reservation_changes_only_gate zeroPayload
      (List.replicate 255 (Op.reserve none)) (some 7)).1
      ⟨by rw [hf.1, hf.2.1], Or.inr (by rw [hf.2.1, hf.2.2.1])⟩
  obtain ⟨s3, k1, -, -, -, -, -, -, -, -, k10, k11, -⟩ :=
    (blocked_reservation_changes_only_gate zeroPayload [] none).2 (by decide)
  exact ⟨⟨s2, h1, by rw [h5, hf.1], h10, h11⟩, ⟨s3, k1, k10, k11⟩⟩

/-! ## Events committed out of order -/

/-- C34. In every state reached by a protocol-conforming run from a fresh link in
which the slot at `queueHead` is committed and not yet dispatched,
`reserveEventForDispatching` returns `queueHead` without parking and advances
`queueHead` by one; when `queueTail` lags at `queueHead` the same call advances
`queueTail` by one as well, and otherwise leaves it. -/
theorem out_of_order_commit_not_stranded (payload : Nat → P) (ops : List Op)
    (hc : (Tracked.new payload).conforming ops = true)
    (hph : ((Tracked.new payload).run ops).phase
      ((Tracked.new payload).run ops).link.queueHead = Phase.committed) :
    ∃ s2, reserveEventForDispatching ((Tracked.new payload).run ops).link
        = Outcome.returned (((Tracked.new payload).run ops).link.queueHead,
            { slot := ((Tracked.new payload).run ops).link.queueHead }) s2 ∧
      s2.queueHead = (((Tracked.new payload).run ops).link.queueHead + 1) % 256 ∧
      (((Tracked.new payload).run ops).link.queueHead
          = ((Tracked.new payload).run ops).link.queueTail →
        s2.queueTail = (((Tracked.new payload).run ops).link.queueTail + 1) % 256) ∧
      (((Tracked.new payload).run ops).link.queueHead
          ≠ ((Tracked.new payload).run ops).link.queueTail →
        s2.queueTail = ((Tracked.new payload).run ops).link.queueTail) := by
  have hnb : ¬ dispatchingBlocks ((Tracked.new payload).run ops).link := by
    rintro ⟨he, hor⟩
    have h2 := (tail_not_committed_iff payload ops hc he).1 hor
    rw [← he] at h2
    exact h2 hph
  obtain ⟨oh, ot, oT, hz⟩ := inv_of_conforming payload ops hc
  have hlt : ((Tracked.new payload).run ops).link.queueHead < 256 := by
    rw [hz.head_eq]
    exact Nat.mod_lt _ (by omega)
  obtain ⟨s2, e, e1, e2, -⟩ :=
    reserveEventForDispatching_returned ((Tracked.new payload).run ops).link hnb
  rw [Nat.mod_eq_of_lt hlt] at e e1
  refine ⟨s2, e, e1, fun he => ?_, fun hne => ?_⟩
  · rw [e2, if_pos he]
  · rw [e2, if_neg hne]

theorem out_of_order_commit_not_stranded_witness :
    ((Tracked.new zeroPayload).run
        [Op.reserve none, Op.reserve none, Op.commit 1, Op.commit 0,
          Op.dispatch]).link.queueHead
      = ((Tracked.new zeroPayload).run
        [Op.reserve none, Op.reserve none, Op.commit 1, Op.commit 0,
          Op.dispatch]).link.queueTail ∧
    ∃ s2, reserveEventForDispatching ((Tracked.new zeroPayload).run
          [Op.reserve none, Op.reserve none, Op.commit 1, Op.commit 0, Op.dispatch]).link
        = Outcome.returned (1, { slot := 1 }) s2 ∧
      s2.queueHead = 2 ∧ s2.queueTail = 2 := by
  obtain ⟨s2, e, e1, e2, -⟩ := out_of_order_commit_not_stranded zeroPayload
    [Op.reserve none, Op.reserve none, Op.commit 1, Op.commit 0, Op.dispatch]
    (by decide) (by decide)
  exact ⟨by decide, s2, e, e1, e2 (by decide)⟩
/-! ## The listener registry along sequences of calls -/

end Mutua.Events
